import Mathlib

/-!
# Scheduled-transaction "since last run" review: projection, lookups, controller

A shallow embedding of `gnucash/gnome/dialog-sx-since-last-run.c`.

* The instance collection (`GncSxInstanceModel`) is a list of groups
  (`GncSxInstances`), each with a list of `GncSxInstance`, each with a list of
  `GncSxVariable`.  A C pointer into the collection is modelled by its position.
* The `GtkTreeStore` behind the adapter is a forest of rows, every row holding the
  seven model columns.  A `GtkTreeIter` is the position of a row: the path of its
  parent and its index among the parent's children.
* Functions of other libraries and of files outside this translation unit that
  the code calls (date and number formatting, amount parsing, gettext, collation,
  ...) are collected in `Env` and passed as a parameter.
* The last section of definitions embeds the string cache of
  `libgnucash/engine/qof-string-cache.cpp`: a table from texts to reference
  counts, which are 32-bit unsigned numbers.
-/

namespace SxSinceLastRun

/-! ## Data model of the instance collection -/

/-- Modelled from the spec: the enum `GncSxInstanceState` of
`gnc-sx-instance-model.h` (not part of this translation unit).  The spec lists
`state ∈ {Ignored, Postponed, ToCreate, Reminder, Created}`; the order is the one
of `gnc_sx_instance_state_names`, with `SX_INSTANCE_STATE_CREATED` last. -/
inductive GncSxInstanceState where
  | SX_INSTANCE_STATE_IGNORED
  | SX_INSTANCE_STATE_POSTPONED
  | SX_INSTANCE_STATE_TO_CREATE
  | SX_INSTANCE_STATE_REMINDER
  | SX_INSTANCE_STATE_CREATED
  deriving DecidableEq, Repr

open GncSxInstanceState

/-- Numeric value of the enum constant, used to index `gnc_sx_instance_state_names`. -/
def GncSxInstanceState.toNat : GncSxInstanceState → Nat
  | SX_INSTANCE_STATE_IGNORED => 0
  | SX_INSTANCE_STATE_POSTPONED => 1
  | SX_INSTANCE_STATE_TO_CREATE => 2
  | SX_INSTANCE_STATE_REMINDER => 3
  | SX_INSTANCE_STATE_CREATED => 4

/-- Modelled from the spec: `gnc_numeric` of the engine (not part of this
translation unit).  The spec gives a variable the value `Number | Unbound`, the
unbound sentinel being "the distinguished no-valid-value marker, distinct from
zero"; `error` is that sentinel (what `gnc_numeric_error` builds). -/
inductive gnc_numeric where
  | number (n : Int)
  | error
  deriving DecidableEq, Repr

/-- Result codes of `gnc_numeric_check`. -/
inductive GNCNumericErrorCode where
  | GNC_ERROR_OK
  | GNC_ERROR_ARG
  deriving DecidableEq, Repr

open GNCNumericErrorCode

/-- Modelled from the spec: `gnc_numeric_check` of the engine, which tells a
number from the error/unbound sentinel. -/
def gnc_numeric_check : gnc_numeric → GNCNumericErrorCode
  | gnc_numeric.number _ => GNC_ERROR_OK
  | gnc_numeric.error => GNC_ERROR_ARG

/-- Modelled from the spec: `gnc_numeric_error (GNC_ERROR_ARG)`, the unbound sentinel. -/
def gnc_numeric_error (_code : GNCNumericErrorCode) : gnc_numeric := gnc_numeric.error

/-- A calendar date (`GDate`), as a day number. -/
abbrev GDate := Int

/-- Modelled from the spec: `GncSxVariable`, `{ name, value: Number|Unbound, editable }`. -/
structure GncSxVariable where
  name : String
  value : gnc_numeric
  editable : Bool
  deriving DecidableEq, Repr

/-- Modelled from the spec: `GncSxInstance`, `{ date, state, variables[] }`.
The field `variable_bindings` holds the variables in the order in which
`gnc_sx_instance_get_variables` lists them. -/
structure GncSxInstance where
  date : GDate
  state : GncSxInstanceState
  variable_bindings : List GncSxVariable
  deriving DecidableEq, Repr

/-- Modelled from the spec: `gnc_sx_instance_get_variables`, the list of the
variables of an instance. -/
def gnc_sx_instance_get_variables (inst : GncSxInstance) : List GncSxVariable :=
  inst.variable_bindings

/-- The scheduled transaction a group belongs to; `name` is what
`xaccSchedXactionGetName` returns, `guid` stands for the object's identity. -/
structure SchedXaction where
  guid : Nat
  name : String
  deriving DecidableEq, Repr

/-- Modelled from the spec: `GncSxInstances`, one scheduled-transaction
definition and its ordered list of due instances. -/
structure GncSxInstances where
  sx : SchedXaction
  instance_list : List GncSxInstance
  deriving DecidableEq, Repr

/-- The collection: the list `gnc_sx_instance_model_get_sx_instances_list` returns. -/
abbrev GncSxInstanceModel := List GncSxInstances

/-- Functions defined outside this translation unit. -/
structure Env where
  /-- The translation lookup behind the `_()` macro. -/
  gettext : String → String
  /-- The text `qof_print_gdate` writes for a date. -/
  qof_print_gdate : GDate → String
  /-- The conversion `gdate_to_time64`. -/
  gdate_to_time64 : GDate → Int
  /-- The text `g_string_printf ("%0.2f", gnc_numeric_to_double (v))` produces. -/
  printf_0_2f : gnc_numeric → String
  /-- The amount parser `xaccParseAmount`; `none` when it returns FALSE. -/
  xaccParseAmount : String → Option gnc_numeric
  /-- The collection's `gnc_sx_instance_model_update_sx_instances`. -/
  update_sx_instances : GncSxInstanceModel → SchedXaction → GncSxInstanceModel
  /-- The value of `qof_book_is_readonly (gnc_get_current_book ())`. -/
  qof_book_is_readonly : Bool
  /-- The preference `GNC_PREF_RUN_AT_FOPEN`. -/
  pref_run_at_fopen : Bool
  /-- The preference `GNC_PREF_SHOW_AT_FOPEN`. -/
  pref_show_at_fopen : Bool
  /-- The preference `GNC_PREF_SET_REVIEW`. -/
  pref_set_review : Bool
  /-- The sort proxy's `gtk_tree_model_sort_convert_path_to_child_path`
  (`none`: NULL, the path is not valid in the sorted view). -/
  convert_path_to_child_path : List Nat → Option (List Nat)
  /-- The sort proxy's `gtk_tree_model_sort_convert_child_path_to_path`. -/
  convert_child_path_to_path : List Nat → Option (List Nat)
  /-- The collection `gnc_sx_get_current_instances ()` builds for the book. -/
  gnc_sx_get_current_instances : GncSxInstanceModel
  /-- The field `need_dialog` of the summary `gnc_sx_instance_model_summarize`
  computes. -/
  summary_need_dialog : GncSxInstanceModel → Bool
  /-- The field `num_auto_create_no_notify_instances` of that summary. -/
  summary_num_auto_create_no_notify_instances : GncSxInstanceModel → Nat
  /-- The collection's `gnc_sx_instance_model_remove_sx_instances`. -/
  remove_sx_instances : GncSxInstanceModel → SchedXaction → GncSxInstanceModel
  /-- The collation `safe_utf8_collate` of two texts (`none`: NULL): negative, zero
  or positive as the first text comes before, with or after the second. -/
  safe_utf8_collate : Option String → Option String → Int

/-! ## The row store (`GtkTreeStore`) -/

/-- The seven model columns of a row (`SLR_MODEL_COL_*`). -/
structure Cols where
  name : Option String
  instance_state : Option String
  variable_value : Option String
  instance_visibility : Bool
  variable_visibility : Bool
  instance_state_sensitivity : Bool
  instance_date : Int
  deriving DecidableEq, Repr

/-- A row of the tree store with its child rows. -/
inductive Row where
  | mk (cols : Cols) (children : List Row)

/-- The column values of a row. -/
def Row.cols : Row → Cols
  | Row.mk c _ => c

/-- The child rows of a row. -/
def Row.children : Row → List Row
  | Row.mk _ cs => cs

/-- The store: its top-level rows. -/
abbrev GtkTreeStore := List Row

/-- The position of a row: path of the parent (`[]` for a top-level row) and
index among the parent's children. -/
structure GtkTreeIter where
  parent : List Nat
  index : Nat
  deriving DecidableEq, Repr

/-- The path of the row an iter points to (`gtk_tree_model_get_path`). -/
def GtkTreeIter.path (it : GtkTreeIter) : List Nat := it.parent ++ [it.index]

/-- The values of a row just appended by `gtk_tree_store_append`: unset columns. -/
def Cols.unset : Cols :=
  { name := none, instance_state := none, variable_value := none,
    instance_visibility := false, variable_visibility := false,
    instance_state_sensitivity := false, instance_date := 0 }

/-- The children of the node at a path; `[]` is the root (a NULL parent iter). -/
def childrenAt : List Row → List Nat → Option (List Row)
  | rows, [] => some rows
  | rows, i :: p =>
    match rows[i]? with
    | none => none
    | some r => childrenAt r.children p

/-- Replace the children of the node at a path by their image under `f`. -/
def updateChildrenAt (f : List Row → List Row) : List Nat → List Row → List Row
  | [], rows => f rows
  | i :: p, rows => rows.modify (fun r => Row.mk r.cols (updateChildrenAt f p r.children)) i

/-- The row at a path, if there is one (`gtk_tree_model_get_iter`). -/
def rowAt (store : GtkTreeStore) (it : GtkTreeIter) : Option Row :=
  match childrenAt store it.parent with
  | none => none
  | some cs => cs[it.index]?

/-- Source `gtk_tree_model_iter_nth_child (store, &iter, parent, n)`: the n-th child of
`parent`, or `none` (FALSE) when there is none. -/
def gtk_tree_model_iter_nth_child (store : GtkTreeStore) (parent : List Nat) (n : Int) :
    Option GtkTreeIter :=
  match childrenAt store parent with
  | none => none
  | some cs => if 0 ≤ n ∧ n < cs.length then some ⟨parent, n.toNat⟩ else none

/-- Source `gtk_tree_model_iter_children (store, &iter, parent)`: the first child. -/
def gtk_tree_model_iter_children (store : GtkTreeStore) (parent : List Nat) :
    Option GtkTreeIter :=
  gtk_tree_model_iter_nth_child store parent 0

/-- Source `gtk_tree_model_iter_next (store, &iter)`: the next sibling, or `none`. -/
def gtk_tree_model_iter_next (store : GtkTreeStore) (iter : GtkTreeIter) :
    Option GtkTreeIter :=
  match childrenAt store iter.parent with
  | none => none
  | some cs => if iter.index + 1 < cs.length then some ⟨iter.parent, iter.index + 1⟩ else none

/-- Source `gtk_tree_store_append (store, &iter, parent)`: a new row with unset columns
after the last child of `parent`; the iter points to it. -/
def gtk_tree_store_append (store : GtkTreeStore) (parent : List Nat) :
    GtkTreeStore × GtkTreeIter :=
  match childrenAt store parent with
  | none => (store, ⟨parent, 0⟩)
  | some cs => (updateChildrenAt (fun rows => rows ++ [Row.mk Cols.unset []]) parent store,
                ⟨parent, cs.length⟩)

/-- Source `gtk_tree_store_set (store, &iter, ...)` with all seven columns given. -/
def gtk_tree_store_set (store : GtkTreeStore) (iter : GtkTreeIter) (c : Cols) : GtkTreeStore :=
  updateChildrenAt (fun rows => rows.modify (fun r => Row.mk c r.children) iter.index)
    iter.parent store

/-- Source `gtk_tree_store_remove (store, &iter)`: removes the row and its subtree.  The
iter then points to the next row of that level (which has taken the index of the
removed one), or is invalid (`none`, the call returns FALSE) if there is none. -/
def gtk_tree_store_remove (store : GtkTreeStore) (iter : GtkTreeIter) :
    GtkTreeStore × Option GtkTreeIter :=
  let store' := updateChildrenAt (fun rows => rows.eraseIdx iter.index) iter.parent store
  match childrenAt store' iter.parent with
  | none => (store', none)
  | some cs => if iter.index < cs.length then (store', some iter) else (store', none)

/-- The loop `while (gtk_tree_store_remove (store, iter));` with a bound on the
number of iterations. -/
def remove_while : Nat → GtkTreeStore → GtkTreeIter → GtkTreeStore
  | 0, store, _ => store
  | fuel + 1, store, iter =>
    match gtk_tree_store_remove store iter with
    | (store', some iter') => remove_while fuel store' iter'
    | (store', none) => store'

/-- Number of rows below the node at a path (0 if there is no such node). -/
def n_children (store : GtkTreeStore) (parent : List Nat) : Nat :=
  match childrenAt store parent with
  | none => 0
  | some cs => cs.length

/-- Source `_consume_excess_rows`: removes the rows that follow the last row written
(`last_index`), or all children of `parent_iter` when none was written.  The
removal loop runs at most once per row of that level. -/
def _consume_excess_rows (store : GtkTreeStore) (last_index : Int) (parent_iter : List Nat)
    (maybe_invalid_iter : Option GtkTreeIter) : GtkTreeStore :=
  let start : Option GtkTreeIter :=
    if last_index = -1 then
      gtk_tree_model_iter_children store parent_iter
    else
      match maybe_invalid_iter with
      | none => none
      | some it => gtk_tree_model_iter_next store it
  match start with
  | none => store
  | some it => remove_while (n_children store it.parent) store it

/-! ## The refresh: `gsslrtma_populate_tree_store` -/

/-- Source `INT64_MAX`. -/
def INT64_MAX : Int := 9223372036854775807

/-- The table `gnc_sx_instance_state_names`, indexed by state. -/
def gnc_sx_instance_state_names : GncSxInstanceState → String
  | SX_INSTANCE_STATE_IGNORED => "Ignored"
  | SX_INSTANCE_STATE_POSTPONED => "Postponed"
  | SX_INSTANCE_STATE_TO_CREATE => "To-Create"
  | SX_INSTANCE_STATE_REMINDER => "Reminder"
  | SX_INSTANCE_STATE_CREATED => "Created"

/-- Source `_var_numeric_to_string`. -/
def _var_numeric_to_string (E : Env) (value : gnc_numeric) : String :=
  E.printf_0_2f value

/-- The state threaded through one of the three loops of the refresh: the store,
the iter of the row written last at this level (invalid before the first one),
and the index of that row (-1 before the first one). -/
structure LoopState where
  store : GtkTreeStore
  iter : Option GtkTreeIter
  index : Int

/-- The columns written for a group row. -/
def sx_cols (instances : GncSxInstances) : Cols :=
  { name := some instances.sx.name
    instance_state := none
    variable_value := none
    instance_visibility := false
    variable_visibility := false
    instance_state_sensitivity := false
    instance_date := INT64_MAX }

/-- The columns written for an instance row. -/
def inst_cols (E : Env) (inst : GncSxInstance) : Cols :=
  { name := some (E.qof_print_gdate inst.date)
    instance_state := some (E.gettext (gnc_sx_instance_state_names inst.state))
    variable_value := none
    instance_visibility := true
    variable_visibility := false
    instance_state_sensitivity := decide (inst.state ≠ SX_INSTANCE_STATE_CREATED)
    instance_date := E.gdate_to_time64 inst.date }

/-- The columns written for a variable row. -/
def var_cols (E : Env) (var : GncSxVariable) : Cols :=
  let tmp_str :=
    if gnc_numeric_check var.value = GNC_ERROR_OK then _var_numeric_to_string E var.value
    else E.gettext "(Need Value)"
  { name := some var.name
    instance_state := none
    variable_value := some tmp_str
    instance_visibility := false
    variable_visibility := true
    instance_state_sensitivity := false
    instance_date := INT64_MAX }

/-- The row `++index` of `parent`: the existing one
(`gtk_tree_model_iter_nth_child`) or else a new one (`gtk_tree_store_append`). -/
def nth_child_or_append (store : GtkTreeStore) (parent : List Nat) (n : Int) :
    GtkTreeStore × GtkTreeIter :=
  match gtk_tree_model_iter_nth_child store parent n with
  | some it => (store, it)
  | none => gtk_tree_store_append store parent

/-- Body of the loop over the variables of an instance ("Insert variable information"). -/
def populate_var (E : Env) (inst_tree_iter : GtkTreeIter) (st : LoopState)
    (var : GncSxVariable) : LoopState :=
  if !var.editable then st
  else
    let visible_variable_index := st.index + 1
    let r := nth_child_or_append st.store inst_tree_iter.path visible_variable_index
    let store := gtk_tree_store_set r.1 r.2 (var_cols E var)
    { store := store, iter := some r.2, index := visible_variable_index }

/-- Body of the loop over the instances of a group ("Insert instance information"). -/
def populate_inst (E : Env) (sx_tree_iter : GtkTreeIter) (st : LoopState)
    (inst : GncSxInstance) : LoopState :=
  let instance_index := st.index + 1
  let r := nth_child_or_append st.store sx_tree_iter.path instance_index
  let inst_tree_iter := r.2
  let store := gtk_tree_store_set r.1 inst_tree_iter (inst_cols E inst)
  let vars := gnc_sx_instance_get_variables inst
  let v := vars.foldl (populate_var E inst_tree_iter) { store := store, iter := none, index := -1 }
  let store := _consume_excess_rows v.store v.index inst_tree_iter.path v.iter
  { store := store, iter := some inst_tree_iter, index := instance_index }

/-- Body of the loop over the groups of the collection.  The text
`last_occur_date_buf` the loop also prepares is written to no column. -/
def populate_sx (E : Env) (st : LoopState) (instances : GncSxInstances) : LoopState :=
  if instances.instance_list.length = 0 then st
  else
    let instances_index := st.index + 1
    let r := nth_child_or_append st.store [] instances_index
    let sx_tree_iter := r.2
    let store := gtk_tree_store_set r.1 sx_tree_iter (sx_cols instances)
    let i := instances.instance_list.foldl (populate_inst E sx_tree_iter)
      { store := store, iter := none, index := -1 }
    let store := _consume_excess_rows i.store i.index sx_tree_iter.path i.iter
    { store := store, iter := some sx_tree_iter, index := instances_index }

/-- Source `gsslrtma_populate_tree_store`: the refresh of the store `model->real` from
the collection `model->instances`. -/
def gsslrtma_populate_tree_store (E : Env) (instances : GncSxInstanceModel)
    (real : GtkTreeStore) : GtkTreeStore :=
  let s := instances.foldl (populate_sx E) { store := real, iter := none, index := -1 }
  _consume_excess_rows s.store s.index [] s.iter

/-! ## The adapter and its lookups -/

/-- A transaction identifier (`GncGUID`). -/
abbrev GncGUID := Nat

/-- A call recorded by the probe `GncSxSlrTreeModelAdapter.calls`. -/
inductive Call where
  /-- Source `gnc_sx_slr_model_effect_change` was entered with this `auto_create_only`. -/
  | slr_model_effect_change (auto_create_only : Bool)
  /-- The collection's `gnc_sx_instance_model_effect_change` was invoked. -/
  | instance_model_effect_change (auto_create_only : Bool)
  deriving DecidableEq, Repr

/-- Source `struct _GncSxSlrTreeModelAdapter`.  `updated_cb_blocked` is the block count
GObject keeps for the handler `updated_cb_id` (the handler is delivered when it
is 0).  `refreshes` and `calls` are probes: the number of runs of
`gsslrtma_populate_tree_store` made by signal handlers, and the calls of the
materialization entry points, in order. -/
structure GncSxSlrTreeModelAdapter where
  updated_cb_blocked : Nat
  instances : GncSxInstanceModel
  real : GtkTreeStore
  refreshes : Nat
  calls : List Call

/-- How a call of a C function ends. -/
inductive Outcome (α : Type) where
  /-- The function returns this value. -/
  | ret (a : α)
  /-- The program is aborted: a NULL pointer is dereferenced, or `g_error` is
  called. -/
  | crash
  deriving DecidableEq, Repr

/-- A `GncSxInstance*` into the collection: position of the group and position
of the instance in the group's `instance_list`. -/
structure GncSxInstancePtr where
  sx_index : Nat
  instance_index : Nat
  deriving DecidableEq, Repr

/-- The instance a pointer refers to. -/
def GncSxInstancePtr.deref (m : GncSxInstanceModel) (p : GncSxInstancePtr) :
    Option GncSxInstance :=
  match m[p.sx_index]? with
  | none => none
  | some g => g.instance_list[p.instance_index]?

/-- Source `gtk_tree_path_get_indices (path)[k]`.  A read beyond the depth of the path
is a read outside the array; it yields an unspecified integer, `junk`. -/
def path_index (path : List Nat) (k : Nat) (junk : Int) : Int :=
  match path[k]? with
  | some i => (i : Int)
  | none => junk

/-- Source `g_list_nth_data (list, n)`: the n-th element, or NULL.  The parameter is a
`guint`, so a negative `int` argument is past the end of every list. -/
def g_list_nth_data {α : Type} (list : List α) (n : Int) : Option α :=
  if n < 0 then none else list[n.toNat]?

/-- Source `_gnc_sx_slr_tree_model_adapter_get_sx_instances`: the group (as its position
in the collection) for the row at `iter`, or NULL. -/
def _gnc_sx_slr_tree_model_adapter_get_sx_instances (model : GncSxSlrTreeModelAdapter)
    (iter : GtkTreeIter) (check_depth : Bool) (junk : Int) : Option Nat :=
  let path := iter.path
  if check_depth && path.length != 1 then none
  else
    let index := path_index path 0 junk
    match g_list_nth_data model.instances index with
    | none => none
    | some _ => some index.toNat

/-- Source `gnc_sx_slr_tree_model_adapter_get_sx_instances`.  With the depth check on,
no index is read outside the path. -/
def gnc_sx_slr_tree_model_adapter_get_sx_instances (model : GncSxSlrTreeModelAdapter)
    (iter : GtkTreeIter) : Option Nat :=
  _gnc_sx_slr_tree_model_adapter_get_sx_instances model iter true 0

/-- Source `_gnc_sx_slr_model_get_instance`: the instance for the row at `iter`, or
NULL.  The group fetched with `g_list_nth_data` is dereferenced unchecked. -/
def _gnc_sx_slr_model_get_instance (model : GncSxSlrTreeModelAdapter) (iter : GtkTreeIter)
    (check_depth : Bool) (junk : Int) : Outcome (Option GncSxInstancePtr) :=
  let path := iter.path
  if check_depth && path.length != 2 then Outcome.ret none
  else
    let instances_index := path_index path 0 junk
    let instance_index := path_index path 1 junk
    match g_list_nth_data model.instances instances_index with
    | none => Outcome.crash
    | some instances =>
      if instance_index < 0 ∨ instance_index ≥ (instances.instance_list.length : Int) then
        Outcome.ret none
      else
        Outcome.ret (some ⟨instances_index.toNat, instance_index.toNat⟩)

/-- Source `gnc_sx_slr_model_get_instance`.  With the depth check on, no index is read
outside the path. -/
def gnc_sx_slr_model_get_instance (model : GncSxSlrTreeModelAdapter) (iter : GtkTreeIter) :
    Outcome (Option GncSxInstancePtr) :=
  _gnc_sx_slr_model_get_instance model iter true 0

/-- The loop of `gnc_sx_slr_model_get_instance_and_variable` that picks the
variable: it skips the variables that are not editable and counts
`variable_index` down on the others.  `pos` is the position in the list of the
variable the loop is at; the result is the position of the variable stored in
`*var_loc`, `none` if the loop ends without storing one. -/
def select_variable : List GncSxVariable → Int → Nat → Option Nat
  | [], _, _ => none
  | var :: rest, variable_index, pos =>
    if !var.editable then select_variable rest variable_index (pos + 1)
    else if variable_index = 0 then some pos
    else select_variable rest (variable_index - 1) (pos + 1)

/-- Source `gnc_sx_slr_model_get_instance_and_variable` called with both output
locations: `none` is FALSE; `some (inst, var)` is TRUE with `*instance_loc = inst`
and `*var_loc = var` (`var = none`: `*var_loc` was left as it was). -/
def gnc_sx_slr_model_get_instance_and_variable (model : GncSxSlrTreeModelAdapter)
    (iter : GtkTreeIter) (junk : Int) : Outcome (Option (GncSxInstancePtr × Option Nat)) :=
  match _gnc_sx_slr_model_get_instance model iter false junk with
  | Outcome.crash => Outcome.crash
  | Outcome.ret none => Outcome.ret none
  | Outcome.ret (some inst_ptr) =>
    match inst_ptr.deref model.instances with
    | none => Outcome.crash
    | some inst =>
      let vars := gnc_sx_instance_get_variables inst
      let path := iter.path
      if path.length != 3 then Outcome.ret none
      else
        let variable_index := path_index path 2 junk
        if variable_index < 0 ∨ variable_index ≥ (vars.length : Int) then Outcome.ret none
        else Outcome.ret (some (inst_ptr, select_variable vars variable_index 0))

/-! ## Notifications of the collection and the handlers of the adapter -/

/-- Source `gsslrtma_updated_cb`, the handler of the collection's `updated`
signal.  The probe `refreshes` counts the run of the refresh. -/
def gsslrtma_updated_cb (E : Env) (model : GncSxSlrTreeModelAdapter)
    (updated_sx : SchedXaction) : GncSxSlrTreeModelAdapter :=
  let instances := E.update_sx_instances model.instances updated_sx
  { model with
    instances := instances
    real := gsslrtma_populate_tree_store E instances model.real
    refreshes := model.refreshes + 1 }

/-- The emission `g_signal_emit_by_name (model, "updated", sx)` by the
collection: GObject runs the handler `updated_cb_id` unless it is blocked. -/
def g_signal_emit_updated (E : Env) (model : GncSxSlrTreeModelAdapter)
    (sx : SchedXaction) : GncSxSlrTreeModelAdapter :=
  if model.updated_cb_blocked = 0 then gsslrtma_updated_cb E model sx else model

/-- Source `g_signal_handler_block (model->instances, model->updated_cb_id)`. -/
def g_signal_handler_block (model : GncSxSlrTreeModelAdapter) : GncSxSlrTreeModelAdapter :=
  { model with updated_cb_blocked := model.updated_cb_blocked + 1 }

/-- Source `g_signal_handler_unblock (model->instances, model->updated_cb_id)`. -/
def g_signal_handler_unblock (model : GncSxSlrTreeModelAdapter) : GncSxSlrTreeModelAdapter :=
  { model with updated_cb_blocked := model.updated_cb_blocked - 1 }

/-- Source `gnc_sx_slr_tree_model_adapter_new`: the adapter for a collection, its
store filled by a first refresh, the `updated` handler connected and not blocked. -/
def gnc_sx_slr_tree_model_adapter_new (E : Env) (instances : GncSxInstanceModel) :
    GncSxSlrTreeModelAdapter :=
  { updated_cb_blocked := 0
    instances := instances
    real := gsslrtma_populate_tree_store E instances []
    refreshes := 0
    calls := [] }

/-- The collection with the state of one instance replaced (`inst->state = s`). -/
def set_instance_state (m : GncSxInstanceModel) (p : GncSxInstancePtr)
    (s : GncSxInstanceState) : GncSxInstanceModel :=
  m.modify
    (fun g => GncSxInstances.mk g.sx
      (g.instance_list.modify
        (fun inst => GncSxInstance.mk inst.date s inst.variable_bindings) p.instance_index))
    p.sx_index

/-- The collection with the value of one variable replaced (`variable->value = v`). -/
def set_variable_value (m : GncSxInstanceModel) (p : GncSxInstancePtr) (var : Nat)
    (v : gnc_numeric) : GncSxInstanceModel :=
  m.modify
    (fun g => GncSxInstances.mk g.sx
      (g.instance_list.modify
        (fun inst => GncSxInstance.mk inst.date inst.state
          (inst.variable_bindings.modify
            (fun x => GncSxVariable.mk x.name v x.editable) var))
        p.instance_index))
    p.sx_index

/-- The scheduled transaction of the group an instance belongs to
(`instance->parent->sx`). -/
def parent_sx (m : GncSxInstanceModel) (p : GncSxInstancePtr) : Option SchedXaction :=
  match m[p.sx_index]? with
  | none => none
  | some g => some g.sx

/-- Modelled from the spec: the collection's `changeState (instance, newState)`
(`gnc_sx_instance_model_change_instance_state`, not part of this translation
unit): the instance gets the new state and the collection emits `updated` for
its group. -/
def gnc_sx_instance_model_change_instance_state (E : Env) (model : GncSxSlrTreeModelAdapter)
    (inst : GncSxInstancePtr) (new_state : GncSxInstanceState) : GncSxSlrTreeModelAdapter :=
  let model := { model with instances := set_instance_state model.instances inst new_state }
  match parent_sx model.instances inst with
  | none => model
  | some sx => g_signal_emit_updated E model sx

/-- Modelled from the spec: the collection's `setVariable (instance, variable,
value | unboundSentinel)` (`gnc_sx_instance_model_set_variable`, not part of this
translation unit): the variable gets the value and the collection emits
`updated` for the group.  A NULL variable pointer is dereferenced. -/
def gnc_sx_instance_model_set_variable (E : Env) (model : GncSxSlrTreeModelAdapter)
    (inst : GncSxInstancePtr) (var_loc : Option Nat) (new_value : gnc_numeric) :
    Outcome GncSxSlrTreeModelAdapter :=
  match var_loc with
  | none => Outcome.crash
  | some var =>
    let model := { model with
      instances := set_variable_value model.instances inst var new_value }
    match parent_sx model.instances inst with
    | none => Outcome.ret model
    | some sx => Outcome.ret (g_signal_emit_updated E model sx)

/-! ## Materialization -/

/-- One thing the collection's materialization primitive does while it runs. -/
inductive CollectionStep where
  /-- It stores a new state in an instance. -/
  | change_state (inst : GncSxInstancePtr) (new_state : GncSxInstanceState)
  /-- It emits `updated` for a scheduled transaction. -/
  | emit_updated (sx : SchedXaction)
  /-- It appends the identifier of a created transaction to the result list. -/
  | created (guid : GncGUID)
  /-- It appends a message to the list of creation errors. -/
  | creation_error (message : String)
  deriving DecidableEq, Repr

/-- The collection's `gnc_sx_instance_model_effect_change` (not part of this
translation unit) as seen from this file: for `auto_create_only` and the
current collection, the steps it performs, in order. -/
abbrev Primitive := Bool → GncSxInstanceModel → List CollectionStep

/-- The adapter together with the two result lists of a materialization. -/
structure EffectState where
  model : GncSxSlrTreeModelAdapter
  created_transaction_guids : List GncGUID
  creation_errors : List String

/-- The effect of one step of the primitive on the adapter connected to the
collection and on the result lists. -/
def run_step (E : Env) (st : EffectState) : CollectionStep → EffectState
  | CollectionStep.change_state inst new_state =>
    { st with model := { st.model with
        instances := set_instance_state st.model.instances inst new_state } }
  | CollectionStep.emit_updated sx =>
    { st with model := g_signal_emit_updated E st.model sx }
  | CollectionStep.created guid =>
    { st with created_transaction_guids := st.created_transaction_guids ++ [guid] }
  | CollectionStep.creation_error message =>
    { st with creation_errors := st.creation_errors ++ [message] }

/-- Source `gnc_sx_slr_model_effect_change`.  The probe `calls` records the entry
and the invocation of the primitive. -/
def gnc_sx_slr_model_effect_change (E : Env) (prim : Primitive)
    (model : GncSxSlrTreeModelAdapter) (auto_create_only : Bool)
    (created_transaction_guids : List GncGUID) (creation_errors : List String) : EffectState :=
  let model := { model with calls := model.calls ++ [Call.slr_model_effect_change auto_create_only] }
  if E.qof_book_is_readonly then
    { model := model, created_transaction_guids := created_transaction_guids,
      creation_errors := creation_errors }
  else
    let model := g_signal_handler_block model
    let model := { model with
      calls := model.calls ++ [Call.instance_model_effect_change auto_create_only] }
    let st := (prim auto_create_only model.instances).foldl (run_step E)
      { model := model, created_transaction_guids := created_transaction_guids,
        creation_errors := creation_errors }
    { st with model := g_signal_handler_unblock st.model }

/-- A variable that still needs a value (`GncSxVariableNeeded`): the instance and
the position of the variable in its list. -/
structure GncSxVariableNeeded where
  inst : GncSxInstancePtr
  var : Nat
  deriving DecidableEq, Repr

/-- Modelled from the spec: the scan of the variables of one instance by
`checkVariables`, from position `pos` on: one entry for each editable variable
whose value is the unbound sentinel. -/
def check_instance_variables (p : GncSxInstancePtr) :
    List GncSxVariable → Nat → List GncSxVariableNeeded
  | [], _ => []
  | var :: rest, pos =>
    if var.editable && gnc_numeric_check var.value != GNC_ERROR_OK then
      ⟨p, pos⟩ :: check_instance_variables p rest (pos + 1)
    else check_instance_variables p rest (pos + 1)

/-- Modelled from the spec: the scan of the instances of one group by
`checkVariables`, from position `i` on, whatever their state. -/
def check_group_instances (g : Nat) : List GncSxInstance → Nat → List GncSxVariableNeeded
  | [], _ => []
  | inst :: rest, i =>
    check_instance_variables ⟨g, i⟩ (gnc_sx_instance_get_variables inst) 0
      ++ check_group_instances g rest (i + 1)

/-- Modelled from the spec: the scan of the groups by `checkVariables`, from
position `g` on. -/
def check_groups : List GncSxInstances → Nat → List GncSxVariableNeeded
  | [], _ => []
  | instances :: rest, g =>
    check_group_instances g instances.instance_list 0 ++ check_groups rest (g + 1)

/-- Modelled from the spec: `checkVariables (collection)`
(`gnc_sx_instance_model_check_variables`, not part of this translation unit):
"scans every instance (regardless of state) and returns, for each variable whose
value is the unbound/error sentinel, a {instance, variable} pair, in stable
iteration order (group order, then instance order, then editable-variable
order)". -/
def gnc_sx_instance_model_check_variables (m : GncSxInstanceModel) :
    List GncSxVariableNeeded :=
  check_groups m 0

/-! ## The review dialog -/

/-- The fields of `struct _GncSxSinceLastRunDialog` and what the dialog has shown:
`closed` is set by `gnc_close_gui_component`, `cursor` is the path last given to
`gtk_tree_view_set_cursor`, `error_reports` are the texts shown by
`gnc_ui_sx_creation_error_dialog`, `shown_created` the lists passed to
`_show_created_transactions`, `help_shown` counts `gnc_gnome_help`. -/
structure GncSxSinceLastRunDialog where
  editing_model : GncSxSlrTreeModelAdapter
  review_created_txns_toggle : Bool
  created_txns : List GncGUID
  temp_ce : Bool
  closed : Bool
  cursor : Option (Option (List Nat))
  error_reports : List String
  shown_created : List (List GncGUID)
  help_shown : Nat

/-- Source `gnc_ui_sx_since_last_run_dialog`: the state of a new dialog. -/
def gnc_ui_sx_since_last_run_dialog (E : Env) (sx_instances : GncSxInstanceModel)
    (auto_created_txn_guids : List GncGUID) : GncSxSinceLastRunDialog :=
  { editing_model := gnc_sx_slr_tree_model_adapter_new E sx_instances
    review_created_txns_toggle := E.pref_set_review
    created_txns := auto_created_txn_guids
    temp_ce := false
    closed := false
    cursor := none
    error_reports := []
    shown_created := []
    help_shown := 0 }

/-- Source `instance_get_model_path`: the path in the adapter for a path of the
sorted view. -/
def instance_get_model_path (E : Env) (path : List Nat) : Option (List Nat) :=
  E.convert_path_to_child_path path

/-- Source `gtk_tree_model_get_iter (model, &iter, path)` on the adapter, which
hands the call to its store: the iter of the row at the path, `none` (FALSE)
for a NULL path or when there is no such row. -/
def gtk_tree_model_get_iter (model : GncSxSlrTreeModelAdapter) (path : Option (List Nat)) :
    Option GtkTreeIter :=
  match path with
  | none => none
  | some p =>
    match p.getLast? with
    | none => none
    | some k =>
      if (rowAt model.real ⟨p.dropLast, k⟩).isSome then some ⟨p.dropLast, k⟩ else none

/-- Source `g_ascii_isspace`, the characters `g_strstrip` removes. -/
def g_ascii_isspace (c : Char) : Bool :=
  c = ' ' || c = '\t' || c = '\n' || c = '\r' || c.toNat = 11 || c.toNat = 12

/-- The test `strlen (g_strstrip (value_copy)) == 0`: nothing is left of the text
once leading and trailing white space is removed. -/
def strip_is_empty (value : String) : Bool :=
  value.toList.all g_ascii_isspace

/-- Source `variable_value_changed_cb`, the handler of an edit of a variable
cell; `path` is the path of the edited row in the sorted view. -/
def variable_value_changed_cb (E : Env) (path : List Nat) (value : String) (junk : Int)
    (dialog : GncSxSinceLastRunDialog) : Outcome GncSxSinceLastRunDialog :=
  let model_path := instance_get_model_path E path
  let dialog := { dialog with temp_ce := false }
  match gtk_tree_model_get_iter dialog.editing_model model_path with
  | none => Outcome.ret dialog
  | some tree_iter =>
    match gnc_sx_slr_model_get_instance_and_variable dialog.editing_model tree_iter junk with
    | Outcome.crash => Outcome.crash
    | Outcome.ret none => Outcome.ret dialog
    | Outcome.ret (some (inst, var)) =>
      let parsed := E.xaccParseAmount value
      match parsed with
      | none =>
        if strip_is_empty value then
          match gnc_sx_instance_model_set_variable E dialog.editing_model inst var
              (gnc_numeric_error GNC_ERROR_ARG) with
          | Outcome.crash => Outcome.crash
          | Outcome.ret model => Outcome.ret { dialog with editing_model := model }
        else Outcome.ret dialog
      | some parsed_num =>
        if gnc_numeric_check parsed_num != GNC_ERROR_OK then
          if strip_is_empty value then
            match gnc_sx_instance_model_set_variable E dialog.editing_model inst var
                (gnc_numeric_error GNC_ERROR_ARG) with
            | Outcome.crash => Outcome.crash
            | Outcome.ret model => Outcome.ret { dialog with editing_model := model }
          else Outcome.ret dialog
        else
          match inst.deref dialog.editing_model.instances with
          | none => Outcome.crash
          | some i =>
            let model :=
              if i.state = SX_INSTANCE_STATE_REMINDER then
                gnc_sx_instance_model_change_instance_state E dialog.editing_model inst
                  SX_INSTANCE_STATE_TO_CREATE
              else dialog.editing_model
            match gnc_sx_instance_model_set_variable E model inst var parsed_num with
            | Outcome.crash => Outcome.crash
            | Outcome.ret model => Outcome.ret { dialog with editing_model := model }

/-- Source `_variable_list_index`: the index of a variable among the editable
variables of a list, -1 if it is not one of them.  The variable looked for is
given by its position `target`; `pos` is the position of the head of the list, `index` the number of editable variables passed. -/
def _variable_list_index : List GncSxVariable → Nat → Nat → Int → Int
  | [], _, _, _ => -1
  | var :: rest, target, pos, index =>
    if !var.editable then _variable_list_index rest target (pos + 1) index
    else if target = pos then index
    else _variable_list_index rest target (pos + 1) (index + 1)

/-- Source `_get_path_for_variable`: the path, in the sorted view, of the row of a
variable of an instance; `none` is NULL. -/
def _get_path_for_variable (E : Env) (app_dialog : GncSxSinceLastRunDialog)
    (inst : GncSxInstancePtr) (target : Nat) : Option (List Nat) :=
  let model := app_dialog.editing_model
  match model.instances[inst.sx_index]? with
  | none => none
  | some parent =>
    match parent.instance_list[inst.instance_index]? with
    | none => none
    | some i =>
      let index2 := _variable_list_index (gnc_sx_instance_get_variables i) target 0 0
      if index2 = -1 then none
      else E.convert_child_path_to_path [inst.sx_index, inst.instance_index, index2.toNat]

/-- Modelled from the spec: `gnc_g_list_stringjoin (list, sep)` of the application
utilities (not part of this translation unit), for which the spec says "join
with line breaks": the texts of the list in order, with `sep` between each two
of them. -/
def gnc_g_list_stringjoin : List String → String → String
  | [], _ => ""
  | [s], _ => s
  | s :: t :: rest, sep => s ++ sep ++ gnc_g_list_stringjoin (t :: rest) sep

/-- Source `gnc_ui_sx_creation_error_dialog`: nothing for an empty list (`none`), else
one message dialog; the result is its secondary text, the messages joined by
line breaks. -/
def gnc_ui_sx_creation_error_dialog (creation_errors : List String) : Option String :=
  match creation_errors with
  | [] => none
  | _ :: _ =>
    let message := gnc_g_list_stringjoin creation_errors "\n"
    some message

/-- The response identifiers `dialog_response_cb` tells apart. -/
inductive GtkResponse where
  | GTK_RESPONSE_HELP
  | GTK_RESPONSE_OK
  | GTK_RESPONSE_CANCEL
  | GTK_RESPONSE_DELETE_EVENT
  | other (response_id : Int)
  deriving DecidableEq, Repr

open GtkResponse

/-- The tail of `dialog_response_cb` shared by OK, CANCEL and DELETE_EVENT: the
list of created transactions is dropped and the dialog is closed. -/
def dialog_close (app_dialog : GncSxSinceLastRunDialog) : GncSxSinceLastRunDialog :=
  { app_dialog with created_txns := [], closed := true }

/-- Source `dialog_response_cb`.  An unknown response ends in `g_error`, which
aborts the program. -/
def dialog_response_cb (E : Env) (prim : Primitive) (response_id : GtkResponse)
    (app_dialog : GncSxSinceLastRunDialog) : Outcome GncSxSinceLastRunDialog :=
  match response_id with
  | GTK_RESPONSE_HELP => Outcome.ret { app_dialog with help_shown := app_dialog.help_shown + 1 }
  | GTK_RESPONSE_OK =>
    let unbound_variables :=
      gnc_sx_instance_model_check_variables app_dialog.editing_model.instances
    match unbound_variables with
    | first_unbound :: _ =>
      let variable_path :=
        _get_path_for_variable E app_dialog first_unbound.inst first_unbound.var
      Outcome.ret { app_dialog with cursor := some variable_path }
    | [] =>
      let r := gnc_sx_slr_model_effect_change E prim app_dialog.editing_model false
        app_dialog.created_txns []
      let app_dialog := { app_dialog with
        editing_model := r.model, created_txns := r.created_transaction_guids }
      let app_dialog :=
        match gnc_ui_sx_creation_error_dialog r.creation_errors with
        | none => app_dialog
        | some message =>
          { app_dialog with error_reports := app_dialog.error_reports ++ [message] }
      let app_dialog :=
        if app_dialog.review_created_txns_toggle && decide (app_dialog.created_txns.length > 0)
        then { app_dialog with
          shown_created := app_dialog.shown_created ++ [app_dialog.created_txns] }
        else app_dialog
      Outcome.ret (dialog_close app_dialog)
  | GTK_RESPONSE_CANCEL => Outcome.ret (dialog_close app_dialog)
  | GTK_RESPONSE_DELETE_EVENT => Outcome.ret (dialog_close app_dialog)
  | other _ => Outcome.crash

/-! ## Materialization when a book is opened -/

/-- The collection and the two result lists while the primitive runs with no
adapter connected to the collection. -/
structure BareEffectState where
  instances : GncSxInstanceModel
  created_transaction_guids : List GncGUID
  creation_errors : List String

/-- The effect of one step of the primitive when no handler is connected to the
collection's signals. -/
def run_step_unconnected (st : BareEffectState) : CollectionStep → BareEffectState
  | CollectionStep.change_state inst new_state =>
    { st with instances := set_instance_state st.instances inst new_state }
  | CollectionStep.emit_updated _ => st
  | CollectionStep.created guid =>
    { st with created_transaction_guids := st.created_transaction_guids ++ [guid] }
  | CollectionStep.creation_error message =>
    { st with creation_errors := st.creation_errors ++ [message] }

/-- What `gnc_sx_sxsincelast_book_opened` has done when it returns:
`primitive_calls` are the values of `auto_create_only` the primitive was invoked
with, `inst_model` the collection it worked on (as it is afterwards),
`auto_created_txns` and `creation_errors` the result lists, `gui_refresh_all`
whether `gnc_gui_refresh_all` was called, `dialog` the review dialog it opened,
`info_dialog` the count shown by `gnc_info_dialog`, `error_report` the text shown
by `gnc_ui_sx_creation_error_dialog`. -/
structure BookOpened where
  primitive_calls : List Bool
  inst_model : Option GncSxInstanceModel
  auto_created_txns : List GncGUID
  creation_errors : List String
  gui_refresh_all : Bool
  dialog : Option GncSxSinceLastRunDialog
  info_dialog : Option Nat
  error_report : Option String

/-- The result of `gnc_sx_sxsincelast_book_opened` when it returns at once. -/
def BookOpened.nothing : BookOpened :=
  { primitive_calls := [], inst_model := none, auto_created_txns := [], creation_errors := [],
    gui_refresh_all := false, dialog := none, info_dialog := none, error_report := none }

/-- Source `gnc_sx_sxsincelast_book_opened`. -/
def gnc_sx_sxsincelast_book_opened (E : Env) (prim : Primitive) : BookOpened :=
  if !E.pref_run_at_fopen then BookOpened.nothing
  else if E.qof_book_is_readonly then BookOpened.nothing
  else
    let inst_model := E.gnc_sx_get_current_instances
    let need_dialog := E.summary_need_dialog inst_model
    let num_auto := E.summary_num_auto_create_no_notify_instances inst_model
    let r := (prim true inst_model).foldl run_step_unconnected
      { instances := inst_model, created_transaction_guids := [], creation_errors := [] }
    let auto_created_txns := r.created_transaction_guids
    { primitive_calls := [true]
      inst_model := some r.instances
      auto_created_txns := auto_created_txns
      creation_errors := r.creation_errors
      gui_refresh_all := decide (auto_created_txns ≠ [])
      dialog :=
        if need_dialog then some (gnc_ui_sx_since_last_run_dialog E r.instances auto_created_txns)
        else none
      info_dialog :=
        if need_dialog then none
        else if decide (num_auto ≠ 0) && E.pref_show_at_fopen then some num_auto
        else none
      error_report := gnc_ui_sx_creation_error_dialog r.creation_errors }

/-! ## The materialization primitive, from the spec -/

/-- What the ledger answers when the primitive asks it to create the transaction
of an instance of a scheduled transaction (the new identifier or the reason of
the failure), and which instances are auto-create-eligible. -/
structure Ledger where
  create : SchedXaction → GncSxInstance → Except String GncGUID
  auto_create_eligible : SchedXaction → GncSxInstance → Bool

/-- Modelled from the spec: which instances the materialization primitive
attempts: "`ToCreate` (and, in auto-create-only mode, additionally any
auto-create-eligible instance regardless of current state)". -/
def materialization_eligible (L : Ledger) (auto_create_only : Bool) (sx : SchedXaction)
    (inst : GncSxInstance) : Bool :=
  decide (inst.state = SX_INSTANCE_STATE_TO_CREATE)
    || (auto_create_only && L.auto_create_eligible sx inst)

/-- Modelled from the spec: what the materialization primitive does for one
instance: nothing if it is not eligible; on success the new identifier is
appended to `createdTransactionIds`, the instance becomes `Created` and the
collection emits `updated`; on failure a message is appended to `creationErrors`
and the instance remains in its state. -/
def effect_change_instance (L : Ledger) (auto_create_only : Bool) (sx : SchedXaction)
    (p : GncSxInstancePtr) (inst : GncSxInstance) : List CollectionStep :=
  if materialization_eligible L auto_create_only sx inst then
    match L.create sx inst with
    | Except.ok guid =>
      [CollectionStep.created guid,
       CollectionStep.change_state p SX_INSTANCE_STATE_CREATED,
       CollectionStep.emit_updated sx]
    | Except.error message => [CollectionStep.creation_error message]
  else []

/-- Modelled from the spec: the primitive's pass over the instances of one group,
from position `i` on; a failure does not stop the pass. -/
def effect_change_instances (L : Ledger) (auto_create_only : Bool) (sx : SchedXaction)
    (g : Nat) : List GncSxInstance → Nat → List CollectionStep
  | [], _ => []
  | inst :: rest, i =>
    effect_change_instance L auto_create_only sx ⟨g, i⟩ inst
      ++ effect_change_instances L auto_create_only sx g rest (i + 1)

/-- Modelled from the spec: the primitive's pass over the groups, from position
`g` on. -/
def effect_change_groups (L : Ledger) (auto_create_only : Bool) :
    List GncSxInstances → Nat → List CollectionStep
  | [], _ => []
  | instances :: rest, g =>
    effect_change_instances L auto_create_only instances.sx g instances.instance_list 0
      ++ effect_change_groups L auto_create_only rest (g + 1)

/-- Modelled from the spec: the collection's materialization primitive
`effectChange (autoCreateOnly)` (`gnc_sx_instance_model_effect_change`, not part
of this translation unit): "a single bounded synchronous pass over a finite
instance list" that "attempts to create a ledger transaction for each eligible
instance". -/
def gnc_sx_instance_model_effect_change (L : Ledger) : Primitive :=
  fun auto_create_only m => effect_change_groups L auto_create_only m 0

/-! ## Sample data -/

/-- A comparison of two texts code point by code point; a text comes after each
of its proper beginnings. -/
def sample_collate_chars : List Char → List Char → Int
  | [], [] => 0
  | [], _ :: _ => -1
  | _ :: _, [] => 1
  | a :: as, b :: bs =>
    if a.toNat < b.toNat then -1
    else if b.toNat < a.toNat then 1
    else sample_collate_chars as bs

/-- A collation for examples: a NULL text counts as the empty text, which comes
before every other text; other texts are compared code point by code point. -/
def sample_collate (da db : Option String) : Int :=
  sample_collate_chars (da.getD "").toList (db.getD "").toList

/-- An environment for examples: texts are not translated, every date prints as
"d", every number as "n", the only amount that parses is "5", the book is
writable, the view is not sorted, removing a scheduled transaction drops its
group from the collection, texts are collated code point by code point. -/
def sample_env : Env where
  gettext := fun s => s
  qof_print_gdate := fun _ => "d"
  gdate_to_time64 := fun d => d
  printf_0_2f := fun _ => "n"
  xaccParseAmount := fun s => if s = "5" then some (gnc_numeric.number 5) else none
  update_sx_instances := fun m _ => m
  qof_book_is_readonly := false
  pref_run_at_fopen := true
  pref_show_at_fopen := true
  pref_set_review := false
  convert_path_to_child_path := fun p => some p
  convert_child_path_to_path := fun p => some p
  gnc_sx_get_current_instances := []
  summary_need_dialog := fun _ => false
  summary_num_auto_create_no_notify_instances := fun _ => 0
  remove_sx_instances := fun m sx => m.filter (fun g => decide (g.sx ≠ sx))
  safe_utf8_collate := sample_collate

/-- The sample environment with a read-only book. -/
def sample_env_readonly : Env :=
  { sample_env with qof_book_is_readonly := true }

/-- A collection of two groups: "A" has no instance, "B" has one instance in
state Reminder with one editable variable that has no value. -/
def sample_two_groups : GncSxInstanceModel :=
  [ { sx := { guid := 1, name := "A" }, instance_list := [] },
    { sx := { guid := 2, name := "B" },
      instance_list :=
        [ { date := 10, state := SX_INSTANCE_STATE_REMINDER,
            variable_bindings := [ { name := "x", value := gnc_numeric.error, editable := true } ] } ] } ]

/-- A collection of one group with three instances in state ToCreate, dated 1, 2
and 3, without variables. -/
def sample_three_to_create : GncSxInstanceModel :=
  [ { sx := { guid := 1, name := "A" },
      instance_list :=
        [ { date := 1, state := SX_INSTANCE_STATE_TO_CREATE, variable_bindings := [] },
          { date := 2, state := SX_INSTANCE_STATE_TO_CREATE, variable_bindings := [] },
          { date := 3, state := SX_INSTANCE_STATE_TO_CREATE, variable_bindings := [] } ] } ]

/-- A ledger in which the creation for the instance dated 2 fails and every other
creation succeeds, the new identifier being 100 plus the date. -/
def sample_ledger : Ledger where
  create := fun _ inst =>
    if inst.date = 2 then Except.error "instance 2: unbalanced"
    else Except.ok (100 + inst.date.toNat)
  auto_create_eligible := fun _ _ => false

/-! ## Status edits and the `removing` notification -/

/-- The states a status edit can name: those whose value is below
`SX_INSTANCE_STATE_CREATED`, in the order of the loop of
`instance_state_changed_cb`. -/
def settable_states : List GncSxInstanceState :=
  [SX_INSTANCE_STATE_IGNORED, SX_INSTANCE_STATE_POSTPONED, SX_INSTANCE_STATE_TO_CREATE,
   SX_INSTANCE_STATE_REMINDER]

/-- The loop of `instance_state_changed_cb` over `i < SX_INSTANCE_STATE_CREATED`:
the first state whose translated name equals the text (`strcmp (...) == 0`);
`none` when the loop ends with `i == SX_INSTANCE_STATE_CREATED`. -/
def label_to_state (E : Env) (value : String) : Option GncSxInstanceState :=
  settable_states.find? (fun s => value == E.gettext (gnc_sx_instance_state_names s))

/-- Source `instance_state_changed_cb`, the handler of an edit of a status cell;
`path` is the path of the edited row in the sorted view, `value` the text
chosen. -/
def instance_state_changed_cb (E : Env) (path : List Nat) (value : String)
    (dialog : GncSxSinceLastRunDialog) : Outcome GncSxSinceLastRunDialog :=
  let model_path := instance_get_model_path E path
  match label_to_state E value with
  | none => Outcome.ret dialog
  | some new_state =>
    match gtk_tree_model_get_iter dialog.editing_model model_path with
    | none => Outcome.ret dialog
    | some tree_iter =>
      match gnc_sx_slr_model_get_instance dialog.editing_model tree_iter with
      | Outcome.crash => Outcome.crash
      | Outcome.ret none => Outcome.ret dialog
      | Outcome.ret (some inst) =>
        Outcome.ret { dialog with
          editing_model := gnc_sx_instance_model_change_instance_state E dialog.editing_model
            inst new_state }

/-- The loop of `gsslrtma_removing_cb` that looks for the group of a scheduled
transaction: the position in the list of the first group with
`instances->sx == to_remove_sx`, counted from `index`; `none` when the loop
ends with `iter == NULL`. -/
def removing_index : List GncSxInstances → SchedXaction → Nat → Option Nat
  | [], _, _ => none
  | instances :: rest, to_remove_sx, index =>
    if instances.sx = to_remove_sx then some index
    else removing_index rest to_remove_sx (index + 1)

/-- Source `gsslrtma_removing_cb`, the handler of the collection's `removing`
signal. -/
def gsslrtma_removing_cb (E : Env) (model : GncSxSlrTreeModelAdapter)
    (to_remove_sx : SchedXaction) : GncSxSlrTreeModelAdapter :=
  match removing_index model.instances to_remove_sx 0 with
  | none => model
  | some index =>
    match gtk_tree_model_iter_nth_child model.real [] (index : Int) with
    | none => model
    | some tree_iter =>
      { model with
        real := (gtk_tree_store_remove model.real tree_iter).1
        instances := E.remove_sx_instances model.instances to_remove_sx }

/-- A collection of three groups: "E" has no instance; "B" has one instance, in
state Created, with the variables "n" (not editable) and "e" (editable, value
7); "A" has one instance, in state ToCreate, with the editable variables "e1"
and "e2". -/
def sample_three_groups : GncSxInstanceModel :=
  [ { sx := { guid := 1, name := "E" }, instance_list := [] },
    { sx := { guid := 2, name := "B" },
      instance_list :=
        [ { date := 10, state := SX_INSTANCE_STATE_CREATED,
            variable_bindings :=
              [ { name := "n", value := gnc_numeric.number 1, editable := false },
                { name := "e", value := gnc_numeric.number 7, editable := true } ] } ] },
    { sx := { guid := 3, name := "A" },
      instance_list :=
        [ { date := 20, state := SX_INSTANCE_STATE_TO_CREATE,
            variable_bindings :=
              [ { name := "e1", value := gnc_numeric.error, editable := true },
                { name := "e2", value := gnc_numeric.error, editable := true } ] } ] } ]

/-- A collection of one group, "B", with one instance in state Created that has
the variables "n" (not editable) and "e" (editable, value 7). -/
def sample_created : GncSxInstanceModel :=
  [ { sx := { guid := 2, name := "B" },
      instance_list :=
        [ { date := 10, state := SX_INSTANCE_STATE_CREATED,
            variable_bindings :=
              [ { name := "n", value := gnc_numeric.number 1, editable := false },
                { name := "e", value := gnc_numeric.number 7, editable := true } ] } ] } ]

/-! ## A closed form of the refresh

The three loops of the refresh have the same shape.  `level_step` is that shape;
`rebuildFrom` is what a loop followed by `_consume_excess_rows` leaves below its
parent row; `sx_rows` puts the three levels together. -/

/-- One round of a refresh loop at the level below `P`, for an item `x` with
columns `col x` and inner block `F x`. -/
def level_step {ι : Type} (col : ι → Cols) (F : ι → GtkTreeStore → GtkTreeIter → GtkTreeStore)
    (P : List Nat) (st : LoopState) (x : ι) : LoopState :=
  let idx := st.index + 1
  let r := nth_child_or_append st.store P idx
  let store := gtk_tree_store_set r.1 r.2 (col x)
  { store := F x store r.2, iter := some r.2, index := idx }

/-- What one round does to the list of rows it works on: row `w` is reused or
appended, gets the columns `c`, and its children are rewritten by `g`. -/
def writeAt (w : Nat) (c : Cols) (g : List Row → List Row) (cs : List Row) : List Row :=
  (if w < cs.length then cs else cs ++ [Row.mk Cols.unset []]).modify
    (fun r => Row.mk c (g r.children)) w

/-- The rows a refresh loop leaves, before the trailing rows are trimmed. -/
def fillFrom {ι : Type} (col : ι → Cols) (f : ι → List Row → List Row) :
    Nat → List ι → List Row → List Row
  | _, [], cs => cs
  | w, x :: xs, cs => fillFrom col f (w + 1) xs (writeAt w (col x) (f x) cs)

/-- The children of the `k`-th row of a list of rows (none if there is no such row). -/
def kidsOf (cs : List Row) (k : Nat) : List Row :=
  match cs[k]? with
  | some r => r.children
  | none => []

/-- The rows a level has after a refresh: one row per item, in order, with the
item's columns; the row's children are the old children at that position,
rewritten by the item's inner block. -/
def rebuildFrom {ι : Type} (col : ι → Cols) (f : ι → List Row → List Row) :
    Nat → List ι → List Row → List Row
  | _, [], _ => []
  | w, x :: xs, old => Row.mk (col x) (f x (kidsOf old w)) :: rebuildFrom col f (w + 1) xs old

/-- The rows below an instance row after a refresh: one per editable variable. -/
def var_rows (E : Env) (inst : GncSxInstance) (old : List Row) : List Row :=
  rebuildFrom (var_cols E) (fun _ kids => kids) 0
    ((gnc_sx_instance_get_variables inst).filter (fun v => v.editable)) old

/-- The rows below a group row after a refresh: one per instance. -/
def inst_rows (E : Env) (instances : GncSxInstances) (old : List Row) : List Row :=
  rebuildFrom (inst_cols E) (var_rows E) 0 instances.instance_list old

/-- The groups that have at least one instance. -/
def nonempty_groups (m : GncSxInstanceModel) : List GncSxInstances :=
  m.filter (fun g => decide (g.instance_list.length ≠ 0))

/-- The top-level rows after a refresh: one per group that has an instance. -/
def sx_rows (E : Env) (m : GncSxInstanceModel) (old : List Row) : List Row :=
  rebuildFrom sx_cols (inst_rows E) 0 (nonempty_groups m) old

/-- The identifiers a list of steps appends to the list of created transactions. -/
def steps_created : List CollectionStep → List GncGUID
  | [] => []
  | CollectionStep.created guid :: rest => guid :: steps_created rest
  | _ :: rest => steps_created rest

/-- The messages a list of steps appends to the list of creation errors. -/
def steps_errors : List CollectionStep → List String
  | [] => []
  | CollectionStep.creation_error message :: rest => message :: steps_errors rest
  | _ :: rest => steps_errors rest

/-- The collection after the state changes of a list of steps. -/
def steps_apply : List CollectionStep → GncSxInstanceModel → GncSxInstanceModel
  | [], m => m
  | CollectionStep.change_state p s :: rest, m => steps_apply rest (set_instance_state m p s)
  | _ :: rest, m => steps_apply rest m

/-- The assumption on `gnc_sx_instance_model_update_sx_instances` under which an
edit can be followed through the `updated` handler: re-deriving the instances of
a scheduled transaction leaves the instance lists (dates, states, variables) of
the collection as they are. -/
def Env.keeps_instances (E : Env) : Prop :=
  ∀ m sx, (E.update_sx_instances m sx).map (fun g => g.instance_list)
    = m.map (fun g => g.instance_list)

/-- The number an input text parses to, if `xaccParseAmount` accepts it and the
result passes `gnc_numeric_check`. -/
def valid_amount (E : Env) (value : String) : Option gnc_numeric :=
  match E.xaccParseAmount value with
  | none => none
  | some n => if gnc_numeric_check n = GNC_ERROR_OK then some n else none

/-- A collection of one group, "B", with one instance in state Reminder that has
one editable variable without a value. -/
def sample_reminder : GncSxInstanceModel :=
  [ { sx := { guid := 2, name := "B" },
      instance_list :=
        [ { date := 10, state := SX_INSTANCE_STATE_REMINDER,
            variable_bindings := [ { name := "x", value := gnc_numeric.error, editable := true } ] } ] } ]

/-- The order "group, then instance, then variable" on entries of `checkVariables`. -/
def needed_before (a b : GncSxVariableNeeded) : Prop :=
  a.inst.sx_index < b.inst.sx_index
  ∨ (a.inst.sx_index = b.inst.sx_index
      ∧ (a.inst.instance_index < b.inst.instance_index
          ∨ (a.inst.instance_index = b.inst.instance_index ∧ a.var < b.var)))

/-- The entry names a variable of the collection that is editable and holds the
unbound sentinel. -/
def unbound_editable_at (m : GncSxInstanceModel) (n : GncSxVariableNeeded) : Prop :=
  ∃ g inst var, m[n.inst.sx_index]? = some g
    ∧ g.instance_list[n.inst.instance_index]? = some inst
    ∧ (gnc_sx_instance_get_variables inst)[n.var]? = some var
    ∧ var.editable = true ∧ gnc_numeric_check var.value ≠ GNC_ERROR_OK

/-- The instances of a collection in order, each with the scheduled transaction
of its group. -/
def all_instances (m : GncSxInstanceModel) : List (SchedXaction × GncSxInstance) :=
  m.flatMap (fun g => g.instance_list.map (fun inst => (g.sx, inst)))

/-- The identifier of the transaction created for an instance by a run of the
primitive with `auto_create_only = false`: the instance is in state ToCreate and
the creation succeeds. -/
def created_id (L : Ledger) (x : SchedXaction × GncSxInstance) : Option GncGUID :=
  if x.2.state = SX_INSTANCE_STATE_TO_CREATE then
    match L.create x.1 x.2 with
    | Except.ok guid => some guid
    | Except.error _ => none
  else none

/-- The error message for an instance in a run of the primitive with
`auto_create_only = false`: the instance is in state ToCreate and the creation
fails. -/
def creation_failure (L : Ledger) (x : SchedXaction × GncSxInstance) : Option String :=
  if x.2.state = SX_INSTANCE_STATE_TO_CREATE then
    match L.create x.1 x.2 with
    | Except.ok _ => none
    | Except.error message => some message
  else none

/-- An instance after a run of the primitive with `auto_create_only = false`:
Created if it was in state ToCreate and its creation succeeds, unchanged if it
was in state ToCreate and its creation fails or if it was in any other state. -/
def materialized (L : Ledger) (sx : SchedXaction) (inst : GncSxInstance) : GncSxInstance :=
  if inst.state = SX_INSTANCE_STATE_TO_CREATE then
    match L.create sx inst with
    | Except.ok _ => GncSxInstance.mk inst.date SX_INSTANCE_STATE_CREATED inst.variable_bindings
    | Except.error _ => inst
  else inst

/-- The value a function call returned, if it returned. -/
def Outcome.returned {α : Type} : Outcome α → Option α
  | Outcome.ret a => some a
  | Outcome.crash => none

/-- The text a state is shown as: the translation of its name. -/
def display_name (E : Env) (s : GncSxInstanceState) : String :=
  E.gettext (gnc_sx_instance_state_names s)

/-! ## The sort functions -/

/-- Source `gtk_tree_model_iter_has_child (model, iter)`: whether the row at the iter
has a child row. -/
def gtk_tree_model_iter_has_child (model : GtkTreeStore) (iter : GtkTreeIter) : Bool :=
  decide (0 < n_children model iter.path)

/-- Source `gtk_tree_model_get (model, iter, ...)`: the column values of the row at
the iter; `none` when the iter points to no row of the model, for which the call
is not defined. -/
def gtk_tree_model_get (model : GtkTreeStore) (iter : GtkTreeIter) : Option Cols :=
  (rowAt model iter).map Row.cols

/-- The statement
`if (gtk_tree_model_iter_nth_child (model, &child_iter, iter, 0))
   gtk_tree_model_get (model, &child_iter, column, &x, -1);`
of the sort functions: the value of `x` after it, `x0` being its value before. -/
def get_first_child_column {β : Type} (model : GtkTreeStore) (iter : GtkTreeIter)
    (column : Cols → β) (x0 : β) : β :=
  match gtk_tree_model_iter_nth_child model iter.path 0 with
  | none => x0
  | some child_iter =>
    match gtk_tree_model_get model child_iter with
    | none => x0
    | some c => column c

/-- Source `_transaction_sort_func`, the comparison "by occurrence" the sort proxy
calls with two iters of rows of the adapter; `model` is the store of the adapter,
to which the adapter hands every call of the tree-model interface.  The result
is `none` when an iter the function reads points to no row of the model. -/
def _transaction_sort_func (E : Env) (model : GtkTreeStore) (iter_a iter_b : GtkTreeIter) :
    Option Int :=
  let rtn : Int := 0
  match gtk_tree_model_get model iter_a with
  | none => none
  | some cols_a =>
    if iter_a.path.length != 1 then some rtn
    else
      match gtk_tree_model_get model iter_b with
      | none => none
      | some cols_b =>
        let child_num_a : Int := if gtk_tree_model_iter_has_child model iter_a then 1 else 0
        let child_num_b : Int := if gtk_tree_model_iter_has_child model iter_b then 1 else 0
        let rtn := if child_num_a > child_num_b then -1 else rtn
        let rtn := if child_num_b > child_num_a then 1 else rtn
        let rtn :=
          if child_num_a = 1 ∧ child_num_b = 1 then
            let date_a : Int := get_first_child_column model iter_a (fun c => c.instance_date) 0
            let date_b : Int := get_first_child_column model iter_b (fun c => c.instance_date) 0
            let rtn := if date_a > date_b then 1 else rtn
            if date_b > date_a then -1 else rtn
          else rtn
        if (child_num_a = 0 ∧ child_num_b = 0) ∨ rtn = 0 then
          let name_text_a := cols_a.name
          let name_text_b := cols_b.name
          some (E.safe_utf8_collate name_text_a name_text_b)
        else some rtn

/-- Source `_status_sort_func`, the comparison "by status" the sort proxy calls
with two iters of rows of the adapter; `model` is the store of the adapter.  The
result is `none` when an iter the function reads points to no row of the model. -/
def _status_sort_func (E : Env) (model : GtkTreeStore) (iter_a iter_b : GtkTreeIter) :
    Option Int :=
  let rtn : Int := 0
  match gtk_tree_model_get model iter_a with
  | none => none
  | some cols_a =>
    if iter_a.path.length != 1 then some rtn
    else
      match gtk_tree_model_get model iter_b with
      | none => none
      | some cols_b =>
        let child_num_a : Int := if gtk_tree_model_iter_has_child model iter_a then 1 else 0
        let child_num_b : Int := if gtk_tree_model_iter_has_child model iter_b then 1 else 0
        let rtn := if child_num_a > child_num_b then -1 else rtn
        let rtn := if child_num_b > child_num_a then 1 else rtn
        let rtn :=
          if child_num_a = 1 ∧ child_num_b = 1 then
            let state_text_a : Option String :=
              get_first_child_column model iter_a (fun c => c.instance_state) none
            let state_text_b : Option String :=
              get_first_child_column model iter_b (fun c => c.instance_state) none
            E.safe_utf8_collate state_text_a state_text_b
          else rtn
        if (child_num_a = 0 ∧ child_num_b = 0) ∨ rtn = 0 then
          let name_text_a := cols_a.name
          let name_text_b := cols_b.name
          some (E.safe_utf8_collate name_text_a name_text_b)
        else some rtn

/-- A collection of five groups for the sort functions: "ab" and "aa" have one
instance each, both dated 10; "c" has instances dated 30 and 5; "d" has one
instance dated 10; "b" has one instance dated 20. -/
def sample_five_groups : GncSxInstanceModel :=
  [ { sx := { guid := 1, name := "ab" },
      instance_list := [ { date := 10, state := SX_INSTANCE_STATE_TO_CREATE, variable_bindings := [] } ] },
    { sx := { guid := 2, name := "aa" },
      instance_list := [ { date := 10, state := SX_INSTANCE_STATE_REMINDER, variable_bindings := [] } ] },
    { sx := { guid := 3, name := "c" },
      instance_list := [ { date := 30, state := SX_INSTANCE_STATE_TO_CREATE, variable_bindings := [] },
                         { date := 5, state := SX_INSTANCE_STATE_POSTPONED, variable_bindings := [] } ] },
    { sx := { guid := 4, name := "d" },
      instance_list := [ { date := 10, state := SX_INSTANCE_STATE_IGNORED, variable_bindings := [] } ] },
    { sx := { guid := 5, name := "b" },
      instance_list := [ { date := 20, state := SX_INSTANCE_STATE_TO_CREATE, variable_bindings := [] } ] } ]

/-- The date column of the first child row of a row, if the row has a child. -/
def first_child_date (r : Row) : Option Int :=
  (r.children[0]?).map (fun c => c.cols.instance_date)

/-- The status column of the first child row of a row, if the row has a child. -/
def first_child_state (r : Row) : Option (Option String) :=
  (r.children[0]?).map (fun c => c.cols.instance_state)

/-- The earliest date among the child rows of a row, if the row has a child. -/
def earliest_child_date (r : Row) : Option Int :=
  (r.children.map (fun c => c.cols.instance_date)).min?

/-- The comparison "by occurrence" in terms of the two rows compared. -/
def by_occurrence (E : Env) (row_a row_b : Row) : Int :=
  match first_child_date row_a, first_child_date row_b with
  | some date_a, some date_b =>
    if date_a < date_b then -1
    else if date_b < date_a then 1
    else E.safe_utf8_collate row_a.cols.name row_b.cols.name
  | some _, none => -1
  | none, some _ => 1
  | none, none => E.safe_utf8_collate row_a.cols.name row_b.cols.name

/-- The comparison "by status" in terms of the two rows compared. -/
def by_status (E : Env) (row_a row_b : Row) : Int :=
  match first_child_state row_a, first_child_state row_b with
  | some state_a, some state_b =>
    if E.safe_utf8_collate state_a state_b = 0 then
      E.safe_utf8_collate row_a.cols.name row_b.cols.name
    else E.safe_utf8_collate state_a state_b
  | some _, none => -1
  | none, some _ => 1
  | none, none => E.safe_utf8_collate row_a.cols.name row_b.cols.name

/-- The assumption on the collation under which the comparisons built on it can
order rows: it is a total preorder, that is, exchanging the two texts negates the
sign of the result, and "not after" is transitive. -/
def Env.collation_total_preorder (E : Env) : Prop :=
  (∀ x y, Int.sign (E.safe_utf8_collate x y) = - Int.sign (E.safe_utf8_collate y x))
  ∧ (∀ x y z, E.safe_utf8_collate x y ≤ 0 → E.safe_utf8_collate y z ≤ 0 →
      E.safe_utf8_collate x z ≤ 0)

/-! ## The projection built from an empty store -/

/-- The invariant of the store of an adapter: it has three levels, that is, a row
at depth 3 (a variable row) has no child rows.  The store `gtk_tree_store_new`
creates has no rows at all, and the refresh and the removal of a top-level row
keep the invariant. -/
def three_levels (real : GtkTreeStore) : Prop :=
  ∀ (p : List Nat) (cs : List Row), p.length = 3 → childrenAt real p = some cs → cs = []

/-- The rows of a projection built from a collection into an empty store: one row
per group that has an instance, below it one row per instance, below that one
row per editable variable, each with the columns the refresh writes. -/
def fresh_rows (E : Env) (m : GncSxInstanceModel) : List Row :=
  (nonempty_groups m).map (fun g =>
    Row.mk (sx_cols g) (g.instance_list.map (fun inst =>
      Row.mk (inst_cols E inst)
        (((gnc_sx_instance_get_variables inst).filter (fun v => v.editable)).map
          (fun v => Row.mk (var_cols E v) [])))))

/-- The number of editable variables before position `target` in a list of
variables: the index of the variable at `target` among the editable ones. -/
def editable_index (vars : List GncSxVariable) (target : Nat) : Nat :=
  (vars.take target).countP (fun v => v.editable)

/-! ## The string cache (`qof-string-cache.cpp`) -/

/-- The number of values of the type `guint` of a reference count (32 bits). -/
def GUINT_RANGE : Nat := 4294967296

/-- A `GHashTable` with `g_str_hash` and `g_str_equal`: for every text, the
reference count stored under it, if the text is a key of the table. -/
abbrev GHashTable := String → Option Nat

/-- Source `g_hash_table_new_full (...)`: a table without keys. -/
def g_hash_table_new_full : GHashTable := fun _ => none

/-- Source `g_hash_table_insert (cache, key, value)`; also what a change of the count
stored under a key, through the pointer to it, does to the table. -/
def g_hash_table_insert (cache : GHashTable) (key : String) (value : Nat) : GHashTable :=
  fun k => if k = key then some value else cache k

/-- Source `g_hash_table_remove (cache, key)`. -/
def g_hash_table_remove (cache : GHashTable) (key : String) : GHashTable :=
  fun k => if k = key then none else cache k

/-- Source `qof_get_string_cache`: the table of the static variable `qof_string_cache`
(`none`: NULL), a new one if there is none yet.  The variable holds the table
returned afterwards. -/
def qof_get_string_cache (qof_string_cache : Option GHashTable) : GHashTable :=
  match qof_string_cache with
  | none => g_hash_table_new_full
  | some cache => cache

/-- Source `qof_string_cache_remove (key)` (`key = none`: NULL), as a function of the
value of the static variable `qof_string_cache`; the result is its value after
the call.  The count is a `guint`, so `--(*refcount)` is taken modulo 2^32. -/
def qof_string_cache_remove (qof_string_cache : Option GHashTable) (key : Option String) :
    Option GHashTable :=
  match key with
  | none => qof_string_cache
  | some key =>
    if key = "" then qof_string_cache
    else
      let cache := qof_get_string_cache qof_string_cache
      match cache key with
      | some refcount =>
        if refcount = 1 then some (g_hash_table_remove cache key)
        else some (g_hash_table_insert cache key ((refcount + (GUINT_RANGE - 1)) % GUINT_RANGE))
      | none => some cache

/-- Source `qof_string_cache_insert (key)` (`key = none`: NULL), as a function of the
value of the static variable `qof_string_cache`; the result is its value after
the call and the text returned (`none`: NULL).  The count is a `guint`, so
`++(*refcount)` is taken modulo 2^32. -/
def qof_string_cache_insert (qof_string_cache : Option GHashTable) (key : Option String) :
    Option GHashTable × Option String :=
  match key with
  | none => (qof_string_cache, none)
  | some key =>
    if key = "" then (qof_string_cache, some "")
    else
      let cache := qof_get_string_cache qof_string_cache
      match cache key with
      | some refcount =>
        (some (g_hash_table_insert cache key ((refcount + 1) % GUINT_RANGE)), some key)
      | none => (some (g_hash_table_insert cache key 1), some key)

/-- The keys of the cache and the reference count of each: what the table of the
static variable holds, nothing when the variable is NULL. -/
def cache_entries (qof_string_cache : Option GHashTable) : GHashTable :=
  match qof_string_cache with
  | none => fun _ => none
  | some cache => cache

/-- The cache after `n` successive calls `qof_string_cache_insert (key)`. -/
def insert_times (key : String) : Nat → Option GHashTable → Option GHashTable
  | 0, c => c
  | n + 1, c => insert_times key n (qof_string_cache_insert c (some key)).1

/-- The cache after `n` successive calls `qof_string_cache_remove (key)`. -/
def remove_times (key : String) : Nat → Option GHashTable → Option GHashTable
  | 0, c => c
  | n + 1, c => remove_times key n (qof_string_cache_remove c (some key))

/-! ## Theorems -/

theorem childrenAt_update (f : List Row → List Row) :
    ∀ (P : List Nat) (s cs : List Row), childrenAt s P = some cs →
      childrenAt (updateChildrenAt f P s) P = some (f cs) := by
  intro P
  induction P with
  | nil => intro s cs h; simp [childrenAt] at h; simp [childrenAt, updateChildrenAt, h]
  | cons i p ih =>
    intro s cs h
    simp only [childrenAt] at h
    cases hr : s[i]? with
    | none => simp [hr] at h
    | some r =>
      simp only [hr] at h
      simp only [childrenAt, updateChildrenAt]
      have : (List.modify (fun r => Row.mk r.cols (updateChildrenAt f p r.children)) i s)[i]?
          = some (Row.mk r.cols (updateChildrenAt f p r.children)) := by
        simp [List.getElem?_modify, hr]
      simp only [this]
      exact ih _ _ h

theorem update_update (f g : List Row → List Row) :
    ∀ (P : List Nat) (s : List Row),
      updateChildrenAt g P (updateChildrenAt f P s) = updateChildrenAt (fun cs => g (f cs)) P s := by
  intro P
  induction P with
  | nil => intro s; rfl
  | cons i p ih =>
    intro s
    simp only [updateChildrenAt, List.modify_modify_eq]
    congr 1
    funext r
    simp [Row.cols, Row.children, ih]

theorem update_snoc (f : List Row → List Row) (k : Nat) :
    ∀ (P : List Nat) (s : List Row),
      updateChildrenAt f (P ++ [k]) s
        = updateChildrenAt (fun cs => cs.modify (fun r => Row.mk r.cols (f r.children)) k) P s := by
  intro P
  induction P with
  | nil => intro s; rfl
  | cons i p ih =>
    intro s
    simp only [List.cons_append, updateChildrenAt]
    congr 1
    funext r
    exact congrArg (Row.mk r.cols) (ih r.children)

theorem childrenAt_snoc (k : Nat) :
    ∀ (P : List Nat) (s : List Row),
      childrenAt s (P ++ [k]) = (childrenAt s P).bind (fun cs => (cs[k]?).map Row.children) := by
  intro P
  induction P with
  | nil =>
    intro s
    simp only [List.nil_append, childrenAt, Option.some_bind]
    cases s[k]? <;> rfl
  | cons i p ih =>
    intro s
    simp only [List.cons_append, childrenAt]
    cases s[i]? with
    | none => rfl
    | some r => exact ih _

theorem update_id : ∀ (P : List Nat) (s : List Row), updateChildrenAt (fun cs => cs) P s = s := by
  intro P
  induction P with
  | nil => intro s; rfl
  | cons i p ih =>
    intro s
    simp only [updateChildrenAt, ih]
    have : (fun r : Row => Row.mk r.cols r.children) = id := by
      funext r; cases r; rfl
    rw [this]
    simp

theorem update_congr (f g : List Row → List Row) :
    ∀ (P : List Nat) (s cs : List Row), childrenAt s P = some cs → f cs = g cs →
      updateChildrenAt f P s = updateChildrenAt g P s := by
  intro P
  induction P with
  | nil => intro s cs h hfg; simp only [childrenAt, Option.some.injEq] at h; subst h; exact hfg
  | cons i p ih =>
    intro s cs h hfg
    simp only [childrenAt] at h
    cases hr : s[i]? with
    | none => simp [hr] at h
    | some r =>
      simp only [hr] at h
      simp only [updateChildrenAt]
      apply List.ext_getElem?
      intro n
      simp only [List.getElem?_modify]
      by_cases hn : i = n
      · subst hn
        simp only [hr, if_true]
        exact congrArg (fun z => some (Row.mk r.cols z)) (ih _ _ h hfg)
      · simp [hn]

theorem nth_child_or_append_eq (s : GtkTreeStore) (P : List Nat) (cs : List Row) (w : Nat)
    (h : childrenAt s P = some cs) (hw : w ≤ cs.length) :
    nth_child_or_append s P (w : Int)
      = (updateChildrenAt (fun cs => if w < cs.length then cs else cs ++ [Row.mk Cols.unset []]) P s,
         ⟨P, w⟩) := by
  unfold nth_child_or_append gtk_tree_model_iter_nth_child
  simp only [h]
  by_cases hlt : w < cs.length
  · have h1 : (0 ≤ (w : Int) ∧ (w : Int) < (cs.length : Int)) := ⟨by omega, by omega⟩
    simp only [h1, and_self, if_true, Int.toNat_ofNat]
    congr 1
    rw [update_congr _ (fun cs => cs) P s cs h (by simp [hlt]), update_id]
  · have h1 : ¬ (0 ≤ (w : Int) ∧ (w : Int) < (cs.length : Int)) := by omega
    simp only [h1, if_false, gtk_tree_store_append, h]
    have : cs.length = w := by omega
    rw [this]
    congr 1
    exact update_congr _ _ P s cs h (by simp [hlt])

theorem level_step_eq {ι : Type} (col : ι → Cols)
    (F : ι → GtkTreeStore → GtkTreeIter → GtkTreeStore) (f : ι → List Row → List Row)
    (hF : ∀ x s it, (rowAt s it).isSome = true → F x s it = updateChildrenAt (f x) it.path s)
    (P : List Nat) (s : GtkTreeStore) (cs : List Row) (w : Nat) (it0 : Option GtkTreeIter) (x : ι)
    (h : childrenAt s P = some cs) (hw : w ≤ cs.length) :
    level_step col F P ⟨s, it0, (w : Int) - 1⟩ x
      = ⟨updateChildrenAt (writeAt w (col x) (f x)) P s, some ⟨P, w⟩, (w : Int)⟩ := by
  unfold level_step
  simp only [sub_add_cancel]
  rw [nth_child_or_append_eq s P cs w h hw]
  simp only [gtk_tree_store_set]
  rw [update_update]
  have hrow : (rowAt (updateChildrenAt (fun cs => List.modify (fun r => Row.mk (col x) r.children) w
        (if w < cs.length then cs else cs ++ [Row.mk Cols.unset []])) P s) ⟨P, w⟩).isSome = true := by
    unfold rowAt
    simp only [childrenAt_update _ P s cs h]
    by_cases hlt : w < cs.length
    · simp [hlt, List.getElem?_modify]
    · have : cs.length = w := by omega
      simp [hlt, List.getElem?_modify, this]
  rw [hF x _ _ hrow]
  simp only [GtkTreeIter.path]
  rw [update_snoc, update_update]
  congr 1
  apply update_congr _ _ P s cs h
  simp only [writeAt, List.modify_modify_eq]
  congr 1

theorem length_writeAt (w : Nat) (c : Cols) (g : List Row → List Row) (cs : List Row)
    (hw : w ≤ cs.length) : (writeAt w c g cs).length = max cs.length (w + 1) := by
  unfold writeAt
  by_cases hlt : w < cs.length
  · simp [hlt]; omega
  · simp [hlt]; omega

theorem level_fold_eq {ι : Type} (col : ι → Cols)
    (F : ι → GtkTreeStore → GtkTreeIter → GtkTreeStore) (f : ι → List Row → List Row)
    (hF : ∀ x s it, (rowAt s it).isSome = true → F x s it = updateChildrenAt (f x) it.path s)
    (P : List Nat) :
    ∀ (items : List ι) (s : GtkTreeStore) (cs : List Row) (w : Nat) (it0 : Option GtkTreeIter),
      childrenAt s P = some cs → w ≤ cs.length →
      items.foldl (level_step col F P) ⟨s, it0, (w : Int) - 1⟩
        = ⟨updateChildrenAt (fillFrom col f w items) P s,
           if items.length = 0 then it0 else some ⟨P, w + items.length - 1⟩,
           ((w + items.length : Nat) : Int) - 1⟩ := by
  intro items
  induction items with
  | nil =>
    intro s cs w it0 h hw
    simp only [List.foldl_nil, List.length_nil, if_true, Nat.add_zero]
    have : updateChildrenAt (fillFrom col f w ([] : List ι)) P s = s := by
      have : fillFrom col f w ([] : List ι) = fun cs => cs := by funext cs; rfl
      rw [this, update_id]
    rw [this]
  | cons x xs ih =>
    intro s cs w it0 h hw
    simp only [List.foldl_cons]
    rw [level_step_eq col F f hF P s cs w it0 x h hw]
    have h' := childrenAt_update (writeAt w (col x) (f x)) P s cs h
    have hlen := length_writeAt w (col x) (f x) cs hw
    have hcast : ((w : Int)) = ((w + 1 : Nat) : Int) - 1 := by push_cast; ring
    rw [hcast, ih _ _ (w + 1) (some ⟨P, w⟩) h' (by omega), update_update]
    have e1 : (fun cs => fillFrom col f (w + 1) xs (writeAt w (col x) (f x) cs))
        = fillFrom col f w (x :: xs) := by funext cs; rfl
    rw [e1]
    congr 1
    · by_cases hxs : xs.length = 0
      · simp [hxs]
      · simp [hxs]
    · simp only [List.length_cons]; congr 2; omega

theorem take_eraseIdx_self {α : Type} : ∀ (l : List α) (k : Nat), (l.eraseIdx k).take k = l.take k := by
  intro l
  induction l with
  | nil => intro k; simp
  | cons a l ih =>
    intro k
    cases k with
    | zero => simp
    | succ k => simp [ih]

theorem eraseIdx_last {α : Type} : ∀ (l : List α) (k : Nat), k + 1 = l.length → l.eraseIdx k = l.take k := by
  intro l
  induction l with
  | nil => intro k h; simp at h
  | cons a l ih =>
    intro k h
    cases k with
    | zero =>
      simp only [List.length_cons] at h
      have : l = [] := List.length_eq_zero.mp (by omega)
      subst this; rfl
    | succ k =>
      simp only [List.length_cons] at h
      simp [ih k (by omega)]

theorem remove_eq (s : GtkTreeStore) (P : List Nat) (cs : List Row) (k : Nat)
    (h : childrenAt s P = some cs) :
    gtk_tree_store_remove s ⟨P, k⟩
      = (updateChildrenAt (fun rows => rows.eraseIdx k) P s,
         if k < (cs.eraseIdx k).length then some ⟨P, k⟩ else none) := by
  unfold gtk_tree_store_remove
  simp only [childrenAt_update _ P s cs h]
  split <;> rfl

theorem remove_while_eq (P : List Nat) :
    ∀ (fuel : Nat) (s : GtkTreeStore) (cs : List Row) (k : Nat),
      childrenAt s P = some cs → k < cs.length → cs.length - k ≤ fuel →
      remove_while fuel s ⟨P, k⟩ = updateChildrenAt (fun rows => rows.take k) P s := by
  intro fuel
  induction fuel with
  | zero => intro s cs k _ hk hf; omega
  | succ fuel ih =>
    intro s cs k h hk hf
    have hlen : (cs.eraseIdx k).length = cs.length - 1 := List.length_eraseIdx_of_lt hk
    simp only [remove_while, remove_eq s P cs k h]
    by_cases hlt : k < (cs.eraseIdx k).length
    · simp only [hlt, if_true]
      rw [ih _ (cs.eraseIdx k) k (childrenAt_update _ P s cs h) hlt (by omega), update_update]
      exact update_congr _ _ P s cs h (take_eraseIdx_self cs k)
    · simp only [hlt, if_false]
      exact update_congr _ _ P s cs h (eraseIdx_last cs k (by omega))

theorem consume_excess_rows_eq (s : GtkTreeStore) (P : List Nat) (cs : List Row) (n : Nat)
    (iter : Option GtkTreeIter) (h : childrenAt s P = some cs) (hn : n ≤ cs.length)
    (hit : n ≠ 0 → iter = some ⟨P, n - 1⟩) :
    _consume_excess_rows s ((n : Int) - 1) P iter = updateChildrenAt (fun rows => rows.take n) P s := by
  unfold _consume_excess_rows
  by_cases h0 : n = 0
  · subst h0
    simp only [Nat.cast_zero, zero_sub, if_true, gtk_tree_model_iter_children,
      gtk_tree_model_iter_nth_child, h]
    by_cases hc : 0 < cs.length
    · have h1 : (0 ≤ (0 : Int) ∧ (0 : Int) < (cs.length : Int)) := ⟨by omega, by omega⟩
      simp only [h1, and_self, if_true, n_children, h]
      exact remove_while_eq P _ s cs 0 h hc (by simp)
    · have h1 : ¬ (0 ≤ (0 : Int) ∧ (0 : Int) < (cs.length : Int)) := by omega
      simp only [h1, if_false]
      have : cs = [] := List.length_eq_zero.mp (by omega)
      rw [update_congr _ (fun cs => cs) P s cs h (by simp [this]), update_id]
  · have hne : ¬ ((n : Int) - 1 = -1) := by omega
    simp only [hne, if_false, hit h0, gtk_tree_model_iter_next, h]
    have e : n - 1 + 1 = n := by omega
    simp only [e]
    by_cases hc : n < cs.length
    · simp only [hc, if_true, n_children, h]
      exact remove_while_eq P _ s cs n h hc (by omega)
    · simp only [hc, if_false]
      rw [update_congr _ (fun cs => cs) P s cs h (by simp; omega), update_id]

theorem getElem?_writeAt (w : Nat) (c : Cols) (g : List Row → List Row) (cs : List Row)
    (hw : w ≤ cs.length) (k : Nat) :
    (writeAt w c g cs)[k]? = if k = w then some (Row.mk c (g (kidsOf cs w))) else cs[k]? := by
  unfold writeAt kidsOf
  by_cases hlt : w < cs.length
  · simp only [hlt, if_true, List.getElem?_modify]
    by_cases hk : k = w
    · subst hk
      simp [List.getElem?_eq_getElem hlt]
    · have : ¬ w = k := fun e => hk e.symm
      simp [hk, this]
  · have hlen : cs.length = w := by omega
    simp only [hlt, if_false, List.getElem?_modify]
    by_cases hk : k = w
    · subst hk
      have h1 : cs[k]? = none := List.getElem?_eq_none (by omega)
      simp [h1, ← hlen, Row.children]
    · have : ¬ w = k := fun e => hk e.symm
      simp only [this, hk, if_false]
      by_cases hk2 : k < w
      · rw [List.getElem?_append_left (by omega)]
        cases cs[k]? <;> rfl
      · rw [List.getElem?_eq_none (by simp; omega), List.getElem?_eq_none (by omega)]
        rfl

theorem rebuildFrom_congr {ι : Type} (col : ι → Cols) (f : ι → List Row → List Row) :
    ∀ (xs : List ι) (w : Nat) (a b : List Row), (∀ k, w ≤ k → a[k]? = b[k]?) →
      rebuildFrom col f w xs a = rebuildFrom col f w xs b := by
  intro xs
  induction xs with
  | nil => intros; rfl
  | cons x xs ih =>
    intro w a b hab
    simp only [rebuildFrom, kidsOf, hab w (le_refl w)]
    rw [ih (w + 1) a b (fun k hk => hab k (by omega))]

theorem take_fillFrom {ι : Type} (col : ι → Cols) (f : ι → List Row → List Row) :
    ∀ (xs : List ι) (w : Nat) (cs : List Row), w ≤ cs.length →
      (fillFrom col f w xs cs).take (w + xs.length) = cs.take w ++ rebuildFrom col f w xs cs := by
  intro xs
  induction xs with
  | nil => intro w cs _; simp [fillFrom, rebuildFrom]
  | cons x xs ih =>
    intro w cs hw
    have hlen := length_writeAt w (col x) (f x) cs hw
    simp only [fillFrom, rebuildFrom, List.length_cons]
    have e : w + (xs.length + 1) = w + 1 + xs.length := by omega
    rw [e, ih (w + 1) _ (by omega)]
    rw [rebuildFrom_congr col f xs (w + 1) (writeAt w (col x) (f x) cs) cs
      (fun k hk => by rw [getElem?_writeAt w _ _ cs hw k]; simp; intro; omega)]
    have : (writeAt w (col x) (f x) cs).take (w + 1)
        = cs.take w ++ [Row.mk (col x) (f x (kidsOf cs w))] := by
      apply List.ext_getElem?
      intro k
      simp only [List.getElem?_take, getElem?_writeAt w _ _ cs hw k]
      by_cases hk : k = w
      · subst hk
        rw [List.getElem?_append_right (by simp)]
        simp [List.length_take, Nat.min_eq_left hw]
      · by_cases hk2 : k < w
        · have : k < w + 1 := by omega
          simp [hk, this, List.getElem?_append_left, hk2, List.getElem?_take]
          rw [List.getElem?_append_left (by simp; omega)]
          simp [List.getElem?_take, hk2]
        · have : ¬ k < w + 1 := by omega
          simp only [this, if_false]
          rw [List.getElem?_eq_none (by simp; omega)]
    rw [this]
    simp

theorem length_fillFrom {ι : Type} (col : ι → Cols) (f : ι → List Row → List Row) :
    ∀ (xs : List ι) (w : Nat) (cs : List Row), w ≤ cs.length →
      w + xs.length ≤ (fillFrom col f w xs cs).length := by
  intro xs
  induction xs with
  | nil => intro w cs hw; simpa [fillFrom] using hw
  | cons x xs ih =>
    intro w cs hw
    have hlen := length_writeAt w (col x) (f x) cs hw
    have := ih (w + 1) (writeAt w (col x) (f x) cs) (by omega)
    simp only [fillFrom, List.length_cons]
    omega

theorem level_loop_eq {ι : Type} (col : ι → Cols)
    (F : ι → GtkTreeStore → GtkTreeIter → GtkTreeStore) (f : ι → List Row → List Row)
    (hF : ∀ x s it, (rowAt s it).isSome = true → F x s it = updateChildrenAt (f x) it.path s)
    (P : List Nat) (items : List ι) (s : GtkTreeStore) (cs : List Row)
    (h : childrenAt s P = some cs) :
    _consume_excess_rows (items.foldl (level_step col F P) ⟨s, none, -1⟩).store
        (items.foldl (level_step col F P) ⟨s, none, -1⟩).index P
        (items.foldl (level_step col F P) ⟨s, none, -1⟩).iter
      = updateChildrenAt (rebuildFrom col f 0 items) P s := by
  have e : (-1 : Int) = ((0 : Nat) : Int) - 1 := by simp
  rw [e, level_fold_eq col F f hF P items s cs 0 none h (Nat.zero_le _)]
  simp only [Nat.zero_add]
  have hlen := length_fillFrom col f items 0 cs (Nat.zero_le _)
  rw [consume_excess_rows_eq _ P _ items.length _ (childrenAt_update _ P s cs h)
    (by simpa using hlen) (by intro hne; simp [hne]), update_update]
  apply update_congr _ _ P s cs h
  have := take_fillFrom col f items 0 cs (Nat.zero_le _)
  simpa using this

theorem rowAt_childrenAt (s : GtkTreeStore) (it : GtkTreeIter) (h : (rowAt s it).isSome = true) :
    ∃ cs, childrenAt s it.path = some cs := by
  unfold rowAt at h
  unfold GtkTreeIter.path
  rw [childrenAt_snoc]
  cases hc : childrenAt s it.parent with
  | none => simp [hc] at h
  | some cs =>
    simp only [hc] at h
    cases hr : cs[it.index]? with
    | none => simp [hr] at h
    | some r => exact ⟨r.children, by simp [hr]⟩

theorem populate_var_fold (E : Env) (it : GtkTreeIter) :
    ∀ (vars : List GncSxVariable) (st : LoopState),
      vars.foldl (populate_var E it) st
        = (vars.filter (fun v => v.editable)).foldl
            (level_step (var_cols E) (fun _ s _ => s) it.path) st := by
  intro vars
  induction vars with
  | nil => intro st; rfl
  | cons v vs ih =>
    intro st
    simp only [List.foldl_cons, List.filter_cons]
    cases hv : v.editable with
    | false =>
      have : populate_var E it st v = st := by simp [populate_var, hv]
      simp [this, ih]
    | true =>
      have : populate_var E it st v
          = level_step (var_cols E) (fun _ s _ => s) it.path st v := by
        simp [populate_var, hv, level_step]
      simp [this, ih]

theorem var_block_eq (E : Env) (inst : GncSxInstance) (s : GtkTreeStore) (it : GtkTreeIter)
    (h : (rowAt s it).isSome = true) :
    _consume_excess_rows
        ((gnc_sx_instance_get_variables inst).foldl (populate_var E it) ⟨s, none, -1⟩).store
        ((gnc_sx_instance_get_variables inst).foldl (populate_var E it) ⟨s, none, -1⟩).index
        it.path
        ((gnc_sx_instance_get_variables inst).foldl (populate_var E it) ⟨s, none, -1⟩).iter
      = updateChildrenAt (var_rows E inst) it.path s := by
  obtain ⟨cs, hcs⟩ := rowAt_childrenAt s it h
  rw [populate_var_fold]
  exact level_loop_eq (var_cols E) (fun _ s _ => s) (fun _ kids => kids)
    (fun _ s it _ => (update_id it.path s).symm) it.path _ s cs hcs

theorem populate_inst_eq (E : Env) (sx_it : GtkTreeIter) (st : LoopState) (inst : GncSxInstance) :
    populate_inst E sx_it st inst
      = level_step (inst_cols E)
          (fun inst s it =>
            _consume_excess_rows
              ((gnc_sx_instance_get_variables inst).foldl (populate_var E it) ⟨s, none, -1⟩).store
              ((gnc_sx_instance_get_variables inst).foldl (populate_var E it) ⟨s, none, -1⟩).index
              it.path
              ((gnc_sx_instance_get_variables inst).foldl (populate_var E it) ⟨s, none, -1⟩).iter)
          sx_it.path st inst := rfl

theorem inst_block_eq (E : Env) (g : GncSxInstances) (s : GtkTreeStore) (it : GtkTreeIter)
    (h : (rowAt s it).isSome = true) :
    _consume_excess_rows
        (g.instance_list.foldl (populate_inst E it) ⟨s, none, -1⟩).store
        (g.instance_list.foldl (populate_inst E it) ⟨s, none, -1⟩).index
        it.path
        (g.instance_list.foldl (populate_inst E it) ⟨s, none, -1⟩).iter
      = updateChildrenAt (inst_rows E g) it.path s := by
  obtain ⟨cs, hcs⟩ := rowAt_childrenAt s it h
  have hfun : populate_inst E it = level_step (inst_cols E)
          (fun inst s it =>
            _consume_excess_rows
              ((gnc_sx_instance_get_variables inst).foldl (populate_var E it) ⟨s, none, -1⟩).store
              ((gnc_sx_instance_get_variables inst).foldl (populate_var E it) ⟨s, none, -1⟩).index
              it.path
              ((gnc_sx_instance_get_variables inst).foldl (populate_var E it) ⟨s, none, -1⟩).iter)
          it.path := by
    funext st inst; rfl
  rw [hfun]
  exact level_loop_eq (inst_cols E) _ (var_rows E)
    (fun inst s it h => var_block_eq E inst s it h) it.path _ s cs hcs

theorem populate_sx_fold (E : Env) :
    ∀ (m : GncSxInstanceModel) (st : LoopState),
      m.foldl (populate_sx E) st
        = (nonempty_groups m).foldl
            (level_step sx_cols
              (fun g s it =>
                _consume_excess_rows
                  (g.instance_list.foldl (populate_inst E it) ⟨s, none, -1⟩).store
                  (g.instance_list.foldl (populate_inst E it) ⟨s, none, -1⟩).index
                  it.path
                  (g.instance_list.foldl (populate_inst E it) ⟨s, none, -1⟩).iter) []) st := by
  intro m
  induction m with
  | nil => intro st; rfl
  | cons g gs ih =>
    intro st
    simp only [List.foldl_cons, nonempty_groups, List.filter_cons]
    by_cases hg : g.instance_list.length = 0
    · have : populate_sx E st g = st := by simp [populate_sx, hg]
      rw [this, ih]
      simp [hg, nonempty_groups]
    · have : populate_sx E st g = level_step sx_cols
              (fun g s it =>
                _consume_excess_rows
                  (g.instance_list.foldl (populate_inst E it) ⟨s, none, -1⟩).store
                  (g.instance_list.foldl (populate_inst E it) ⟨s, none, -1⟩).index
                  it.path
                  (g.instance_list.foldl (populate_inst E it) ⟨s, none, -1⟩).iter) [] st g := by
        simp only [populate_sx, hg, if_false, level_step]
      rw [this, ih]
      simp [hg, nonempty_groups]

/-- The refresh leaves exactly the rows `sx_rows` describes. -/
theorem populate_eq (E : Env) (m : GncSxInstanceModel) (real : GtkTreeStore) :
    gsslrtma_populate_tree_store E m real = sx_rows E m real := by
  unfold gsslrtma_populate_tree_store
  simp only [populate_sx_fold]
  exact level_loop_eq sx_cols _ (inst_rows E)
    (fun g s it h => inst_block_eq E g s it h) [] _ real real rfl

theorem map_rebuildFrom {ι β : Type} (col : ι → Cols) (f : ι → List Row → List Row)
    (φ : Row → β) (ψ : ι → β) (h : ∀ x kids, φ (Row.mk (col x) (f x kids)) = ψ x) :
    ∀ (xs : List ι) (w : Nat) (old : List Row), (rebuildFrom col f w xs old).map φ = xs.map ψ := by
  intro xs
  induction xs with
  | nil => intros; rfl
  | cons x xs ih => intro w old; simp [rebuildFrom, h, ih]

theorem length_rebuildFrom {ι : Type} (col : ι → Cols) (f : ι → List Row → List Row)
    (xs : List ι) (w : Nat) (old : List Row) : (rebuildFrom col f w xs old).length = xs.length := by
  have := congrArg List.length (map_rebuildFrom col f (fun _ => ()) (fun _ => ()) (fun _ _ => rfl) xs w old)
  simpa using this

/-- C1. Row-count invariant of the refresh: whatever rows the store held before,
after `gsslrtma_populate_tree_store` there is one top-level row per group that
has at least one instance (none for a group without instances); the i-th
top-level row has as many children as the i-th such group has instances; and
each instance row has as many children as its instance has variables with
`editable = true`. -/
theorem populate_row_counts (E : Env) (m : GncSxInstanceModel) (real : GtkTreeStore) :
    (gsslrtma_populate_tree_store E m real).length
        = (m.filter (fun g => decide (0 < g.instance_list.length))).length
    ∧ (gsslrtma_populate_tree_store E m real).map (fun r => r.children.length)
        = (m.filter (fun g => decide (0 < g.instance_list.length))).map
            (fun g => g.instance_list.length)
    ∧ (gsslrtma_populate_tree_store E m real).map
          (fun r => r.children.map (fun c => c.children.length))
        = (m.filter (fun g => decide (0 < g.instance_list.length))).map
            (fun g => g.instance_list.map
              (fun inst => (gnc_sx_instance_get_variables inst).countP (fun v => v.editable))) := by
  have hfilter : m.filter (fun g => decide (0 < g.instance_list.length)) = nonempty_groups m := by
    unfold nonempty_groups
    congr 1
    funext g
    simp [Nat.pos_iff_ne_zero]
  rw [populate_eq, hfilter]
  unfold sx_rows
  refine ⟨length_rebuildFrom _ _ _ _ _, ?_, ?_⟩
  · apply map_rebuildFrom
    intro g kids
    simp [Row.children, inst_rows, length_rebuildFrom]
  · apply map_rebuildFrom
    intro g kids
    simp only [Row.children, inst_rows]
    apply map_rebuildFrom
    intro inst kids'
    simp [Row.children, var_rows, length_rebuildFrom, List.countP_eq_length_filter]

theorem rowAt_first_index (s : GtkTreeStore) (it : GtkTreeIter) (h : (rowAt s it).isSome = true) :
    ∃ i, it.path[0]? = some i ∧ i < s.length := by
  unfold rowAt at h
  unfold GtkTreeIter.path
  cases hp : it.parent with
  | nil =>
    simp only [hp, childrenAt] at h
    refine ⟨it.index, by simp, ?_⟩
    cases hr : s[it.index]? with
    | none => simp [hr] at h
    | some r =>
      by_contra hlt
      rw [List.getElem?_eq_none (by omega)] at hr
      cases hr
  | cons i p =>
    simp only [hp, childrenAt] at h
    refine ⟨i, by simp, ?_⟩
    cases hr : s[i]? with
    | none => simp [hr] at h
    | some r =>
      by_contra hlt
      rw [List.getElem?_eq_none (by omega)] at hr
      cases hr

theorem populate_length_le (E : Env) (m : GncSxInstanceModel) (real : GtkTreeStore) :
    (gsslrtma_populate_tree_store E m real).length ≤ m.length := by
  rw [populate_eq]
  unfold sx_rows nonempty_groups
  rw [length_rebuildFrom]
  exact List.length_filter_le _ _

theorem length_path (it : GtkTreeIter) : it.path.length = it.parent.length + 1 := by
  simp [GtkTreeIter.path]

/-- C10. Depth-checked lookups fail closed.  For the path of every row of the
refreshed store: the group lookup returns NULL unless the depth is exactly 1,
the instance lookup returns NULL unless the depth is exactly 2, and the variable
lookup returns FALSE unless the depth is exactly 3 (whatever integer the read
of `indices[1]` of a depth-1 path yields). -/
theorem lookups_fail_closed (E : Env) (model : GncSxSlrTreeModelAdapter)
    (real : GtkTreeStore) (iter : GtkTreeIter) (junk : Int)
    (hrow : (rowAt (gsslrtma_populate_tree_store E model.instances real) iter).isSome = true) :
    (iter.path.length ≠ 1 →
        gnc_sx_slr_tree_model_adapter_get_sx_instances model iter = none)
    ∧ (iter.path.length ≠ 2 →
        gnc_sx_slr_model_get_instance model iter = Outcome.ret none)
    ∧ (iter.path.length ≠ 3 →
        gnc_sx_slr_model_get_instance_and_variable model iter junk = Outcome.ret none) := by
  refine ⟨?_, ?_, ?_⟩
  · intro h
    simp [gnc_sx_slr_tree_model_adapter_get_sx_instances,
      _gnc_sx_slr_tree_model_adapter_get_sx_instances, h]
  · intro h
    simp [gnc_sx_slr_model_get_instance, _gnc_sx_slr_model_get_instance, h]
  · intro h
    obtain ⟨i, hi, hlt⟩ := rowAt_first_index _ _ hrow
    have hlt' : i < model.instances.length :=
      Nat.lt_of_lt_of_le hlt (populate_length_le E model.instances real)
    obtain ⟨g, hg⟩ : ∃ g, model.instances[i]? = some g :=
      ⟨model.instances[i], List.getElem?_eq_getElem hlt'⟩
    have hnth : g_list_nth_data model.instances (i : Int) = some g := by
      simp [g_list_nth_data, hg]
    have h0 : path_index iter.path 0 junk = (i : Int) := by simp [path_index, hi]
    unfold gnc_sx_slr_model_get_instance_and_variable _gnc_sx_slr_model_get_instance
    simp only [Bool.false_and, h0, hnth]
    generalize path_index iter.path 1 junk = j
    by_cases hb : j < 0 ∨ j ≥ (g.instance_list.length : Int)
    · simp [hb]
    · simp only [hb, if_false, Bool.false_eq_true]
      have hder : ∃ inst, GncSxInstancePtr.deref model.instances
          ⟨Int.toNat (i : Int), Int.toNat j⟩ = some inst := by
        simp only [GncSxInstancePtr.deref, Int.toNat_ofNat, hg]
        exact ⟨g.instance_list.get ⟨Int.toNat j, by omega⟩, List.getElem?_eq_getElem _⟩
      obtain ⟨inst, hinst⟩ := hder
      simp only [Int.toNat_ofNat] at hinst
      simp [hinst, h]

/-- C10, witness: the instance row [0, 0] of the refreshed one-group sample has
depth 2, so the variable lookup returns FALSE on it. -/
theorem lookups_fail_closed_witness :
    gnc_sx_slr_model_get_instance_and_variable
      (gnc_sx_slr_tree_model_adapter_new sample_env sample_reminder) ⟨[0], 0⟩ 7
      = Outcome.ret none :=
  (lookups_fail_closed sample_env
    (gnc_sx_slr_tree_model_adapter_new sample_env sample_reminder) [] ⟨[0], 0⟩ 7
    (by decide)).2.2 (by decide)

/-- C2, the failing input.  The collection has the group "A" without instances
followed by the group "B" with one instance.  After the refresh the row at path
[0] shows "B" and has the instance row [0, 0]; the group lookup at path [0]
returns the group at list position 0, whose name is "A", and the instance lookup
at path [0, 0] returns NULL. -/
theorem lookup_after_empty_group :
    (rowAt (gnc_sx_slr_tree_model_adapter_new sample_env sample_two_groups).real ⟨[], 0⟩).map
        (fun r => r.cols.name) = some (some "B")
    ∧ (rowAt (gnc_sx_slr_tree_model_adapter_new sample_env sample_two_groups).real
        ⟨[0], 0⟩).isSome = true
    ∧ (gnc_sx_slr_tree_model_adapter_get_sx_instances
        (gnc_sx_slr_tree_model_adapter_new sample_env sample_two_groups) ⟨[], 0⟩).bind
          (fun k => sample_two_groups[k]?.map (fun g => g.sx.name)) = some "A"
    ∧ gnc_sx_slr_model_get_instance
        (gnc_sx_slr_tree_model_adapter_new sample_env sample_two_groups) ⟨[0], 0⟩
        = Outcome.ret none := by
  decide

theorem run_steps_keep (E : Env) :
    ∀ (steps : List CollectionStep) (st : EffectState),
      (steps.foldl (run_step E) st).model.updated_cb_blocked = st.model.updated_cb_blocked
      ∧ (steps.foldl (run_step E) st).model.calls = st.model.calls := by
  intro steps
  induction steps with
  | nil => intro st; exact ⟨rfl, rfl⟩
  | cons s rest ih =>
    intro st
    simp only [List.foldl_cons]
    obtain ⟨h1, h2⟩ := ih (run_step E st s)
    rw [h1, h2]
    cases s with
    | change_state p s' => exact ⟨rfl, rfl⟩
    | emit_updated sx =>
      simp only [run_step, g_signal_emit_updated]
      split <;> exact ⟨rfl, rfl⟩
    | created guid => exact ⟨rfl, rfl⟩
    | creation_error msg => exact ⟨rfl, rfl⟩

theorem run_steps_blocked (E : Env) :
    ∀ (steps : List CollectionStep) (st : EffectState), st.model.updated_cb_blocked ≠ 0 →
      (steps.foldl (run_step E) st).model.refreshes = st.model.refreshes
      ∧ (steps.foldl (run_step E) st).model.real = st.model.real
      ∧ (steps.foldl (run_step E) st).model.instances = steps_apply steps st.model.instances
      ∧ (steps.foldl (run_step E) st).created_transaction_guids
          = st.created_transaction_guids ++ steps_created steps
      ∧ (steps.foldl (run_step E) st).creation_errors
          = st.creation_errors ++ steps_errors steps := by
  intro steps
  induction steps with
  | nil => intro st _; simp [steps_apply, steps_created, steps_errors]
  | cons s rest ih =>
    intro st hb
    simp only [List.foldl_cons]
    cases s with
    | change_state p s' =>
      obtain ⟨h1, h2, h3, h4, h5⟩ := ih (run_step E st (CollectionStep.change_state p s')) hb
      rw [h1, h2, h3, h4, h5]
      simp [run_step, steps_apply, steps_created, steps_errors]
    | emit_updated sx =>
      have e : run_step E st (CollectionStep.emit_updated sx) = st := by
        simp [run_step, g_signal_emit_updated, hb]
      rw [e]
      obtain ⟨h1, h2, h3, h4, h5⟩ := ih st hb
      rw [h1, h2, h3, h4, h5]
      simp [steps_apply, steps_created, steps_errors]
    | created guid =>
      obtain ⟨h1, h2, h3, h4, h5⟩ := ih (run_step E st (CollectionStep.created guid)) hb
      rw [h1, h2, h3, h4, h5]
      simp [run_step, steps_apply, steps_created, steps_errors]
    | creation_error msg =>
      obtain ⟨h1, h2, h3, h4, h5⟩ := ih (run_step E st (CollectionStep.creation_error msg)) hb
      rw [h1, h2, h3, h4, h5]
      simp [run_step, steps_apply, steps_created, steps_errors]

/-- What `gnc_sx_slr_model_effect_change` returns on a writable book. -/
theorem effect_change_writable (E : Env) (prim : Primitive) (model : GncSxSlrTreeModelAdapter)
    (auto_create_only : Bool) (guids : List GncGUID) (errors : List String)
    (hw : E.qof_book_is_readonly = false) :
    let r := gnc_sx_slr_model_effect_change E prim model auto_create_only guids errors
    r.model.updated_cb_blocked = model.updated_cb_blocked
    ∧ r.model.calls = model.calls ++ [Call.slr_model_effect_change auto_create_only,
        Call.instance_model_effect_change auto_create_only]
    ∧ r.model.refreshes = model.refreshes
    ∧ r.model.real = model.real
    ∧ r.model.instances = steps_apply (prim auto_create_only model.instances) model.instances
    ∧ r.created_transaction_guids = guids ++ steps_created (prim auto_create_only model.instances)
    ∧ r.creation_errors = errors ++ steps_errors (prim auto_create_only model.instances) := by
  intro r
  have hr : r = gnc_sx_slr_model_effect_change E prim model auto_create_only guids errors := rfl
  simp only [gnc_sx_slr_model_effect_change, hw, Bool.false_eq_true, if_false] at hr
  have hk := run_steps_keep E (prim auto_create_only model.instances)
    { model := { g_signal_handler_block { model with
          calls := model.calls ++ [Call.slr_model_effect_change auto_create_only] } with
        calls := (g_signal_handler_block { model with
          calls := model.calls ++ [Call.slr_model_effect_change auto_create_only] }).calls
            ++ [Call.instance_model_effect_change auto_create_only] },
      created_transaction_guids := guids, creation_errors := errors }
  have hb := run_steps_blocked E (prim auto_create_only model.instances)
    { model := { g_signal_handler_block { model with
          calls := model.calls ++ [Call.slr_model_effect_change auto_create_only] } with
        calls := (g_signal_handler_block { model with
          calls := model.calls ++ [Call.slr_model_effect_change auto_create_only] }).calls
            ++ [Call.instance_model_effect_change auto_create_only] },
      created_transaction_guids := guids, creation_errors := errors }
    (by simp [g_signal_handler_block])
  simp only [g_signal_handler_block] at hk hb hr
  obtain ⟨k1, k2⟩ := hk
  obtain ⟨b1, b2, b3, b4, b5⟩ := hb
  rw [hr]
  simp only [g_signal_handler_unblock]
  refine ⟨?_, ?_, b1, b2, b3, b4, b5⟩
  · rw [k1]; simp
  · rw [k2]; simp

/-- C4. Read-only guard.  On a read-only book, for either value of
`auto_create_only`, any collection and any behaviour of the primitive,
`gnc_sx_slr_model_effect_change` does not invoke the primitive (only its own
entry is recorded), leaves both result lists as they were passed, and changes
neither the collection nor the store; and `gnc_sx_sxsincelast_book_opened`
returns at once: no invocation of the primitive, no collection touched, no
created transaction, no creation error, no dialog. -/
theorem read_only_guard (E : Env) (prim : Primitive) (model : GncSxSlrTreeModelAdapter)
    (auto_create_only : Bool) (guids : List GncGUID) (errors : List String)
    (hro : E.qof_book_is_readonly = true) :
    (gnc_sx_slr_model_effect_change E prim model auto_create_only guids errors).model.calls
        = model.calls ++ [Call.slr_model_effect_change auto_create_only]
    ∧ (gnc_sx_slr_model_effect_change E prim model auto_create_only guids errors).created_transaction_guids
        = guids
    ∧ (gnc_sx_slr_model_effect_change E prim model auto_create_only guids errors).creation_errors
        = errors
    ∧ (gnc_sx_slr_model_effect_change E prim model auto_create_only guids errors).model.instances
        = model.instances
    ∧ (gnc_sx_slr_model_effect_change E prim model auto_create_only guids errors).model.real
        = model.real
    ∧ (gnc_sx_sxsincelast_book_opened E prim).primitive_calls = []
    ∧ (gnc_sx_sxsincelast_book_opened E prim).inst_model = none
    ∧ (gnc_sx_sxsincelast_book_opened E prim).auto_created_txns = []
    ∧ (gnc_sx_sxsincelast_book_opened E prim).creation_errors = []
    ∧ (gnc_sx_sxsincelast_book_opened E prim).error_report = none
    ∧ (gnc_sx_sxsincelast_book_opened E prim).dialog.isNone = true := by
  have h1 : gnc_sx_slr_model_effect_change E prim model auto_create_only guids errors
      = { model := { model with
            calls := model.calls ++ [Call.slr_model_effect_change auto_create_only] },
          created_transaction_guids := guids, creation_errors := errors } := by
    simp [gnc_sx_slr_model_effect_change, hro]
  have h2 : gnc_sx_sxsincelast_book_opened E prim = BookOpened.nothing := by
    unfold gnc_sx_sxsincelast_book_opened
    simp [hro]
  rw [h1, h2]
  simp [BookOpened.nothing]

/-- C4, witness: on the read-only sample book the three ToCreate instances stay
as they are and opening the book invokes nothing. -/
theorem read_only_guard_witness :
    (gnc_sx_slr_model_effect_change sample_env_readonly
        (gnc_sx_instance_model_effect_change sample_ledger)
        (gnc_sx_slr_tree_model_adapter_new sample_env_readonly sample_three_to_create)
        false [] []).model.instances = sample_three_to_create
    ∧ (gnc_sx_sxsincelast_book_opened sample_env_readonly
        (gnc_sx_instance_model_effect_change sample_ledger)).primitive_calls = [] :=
  have h := read_only_guard sample_env_readonly
    (gnc_sx_instance_model_effect_change sample_ledger)
    (gnc_sx_slr_tree_model_adapter_new sample_env_readonly sample_three_to_create)
    false [] [] rfl
  ⟨h.2.2.2.1, h.2.2.2.2.2.1⟩

/-- C6. Re-entrancy suppression.  On a writable book, whatever steps the
primitive performs (state changes and any number of `updated` emissions), the
run of `gnc_sx_slr_model_effect_change` triggers no refresh: the count of
refreshes is the one before the call.  On every path through the function
(read-only or writable) the block count of the handler is on return what it was
before; so if the handler was delivering before the call, an `updated` emitted
after the return runs `gsslrtma_updated_cb` again. -/
theorem effect_change_suppresses_updated (E : Env) (prim : Primitive)
    (model : GncSxSlrTreeModelAdapter) (auto_create_only : Bool) (guids : List GncGUID)
    (errors : List String) :
    (E.qof_book_is_readonly = false →
      (gnc_sx_slr_model_effect_change E prim model auto_create_only guids errors).model.refreshes
        = model.refreshes)
    ∧ (gnc_sx_slr_model_effect_change E prim model auto_create_only guids errors).model.updated_cb_blocked
        = model.updated_cb_blocked
    ∧ (model.updated_cb_blocked = 0 → ∀ sx,
        g_signal_emit_updated E
            (gnc_sx_slr_model_effect_change E prim model auto_create_only guids errors).model sx
          = gsslrtma_updated_cb E
            (gnc_sx_slr_model_effect_change E prim model auto_create_only guids errors).model sx) := by
  have hblk : (gnc_sx_slr_model_effect_change E prim model auto_create_only guids errors).model.updated_cb_blocked
      = model.updated_cb_blocked := by
    cases hro : E.qof_book_is_readonly with
    | true => simp [gnc_sx_slr_model_effect_change, hro]
    | false => exact (effect_change_writable E prim model auto_create_only guids errors hro).1
  refine ⟨?_, hblk, ?_⟩
  · intro hw
    exact (effect_change_writable E prim model auto_create_only guids errors hw).2.2.1
  · intro h0 sx
    simp [g_signal_emit_updated, hblk, h0]

/-- C6, witness: on the writable sample book the batch makes no refresh, and an
`updated` emitted after the return makes one. -/
theorem effect_change_suppresses_updated_witness :
    (gnc_sx_slr_model_effect_change sample_env
        (gnc_sx_instance_model_effect_change sample_ledger)
        (gnc_sx_slr_tree_model_adapter_new sample_env sample_three_to_create)
        false [] []).model.refreshes = 0
    ∧ (g_signal_emit_updated sample_env
        (gnc_sx_slr_model_effect_change sample_env
          (gnc_sx_instance_model_effect_change sample_ledger)
          (gnc_sx_slr_tree_model_adapter_new sample_env sample_three_to_create)
          false [] []).model ⟨1, "A"⟩).refreshes = 1 :=
  have h := effect_change_suppresses_updated sample_env
    (gnc_sx_instance_model_effect_change sample_ledger)
    (gnc_sx_slr_tree_model_adapter_new sample_env sample_three_to_create) false [] []
  ⟨h.1 rfl, by rw [h.2.2 rfl ⟨1, "A"⟩]; simp only [gsslrtma_updated_cb]; rw [h.1 rfl]; rfl⟩

/-- C7, as the code has it.  A run of `gnc_sx_slr_model_effect_change`, on a
read-only or a writable book, makes no refresh at all: on return the count of
refreshes and the rows of the store are exactly those from before the call,
whatever the primitive did to the collection. -/
theorem effect_change_leaves_rows (E : Env) (prim : Primitive)
    (model : GncSxSlrTreeModelAdapter) (auto_create_only : Bool) (guids : List GncGUID)
    (errors : List String) :
    (gnc_sx_slr_model_effect_change E prim model auto_create_only guids errors).model.refreshes
        = model.refreshes
    ∧ (gnc_sx_slr_model_effect_change E prim model auto_create_only guids errors).model.real
        = model.real := by
  cases hro : E.qof_book_is_readonly with
  | true => simp [gnc_sx_slr_model_effect_change, hro]
  | false =>
    have h := effect_change_writable E prim model auto_create_only guids errors hro
    exact ⟨h.2.2.1, h.2.2.2.1⟩

/-- C7, counterexample.  Three instances in state ToCreate on a writable book, the
creation of the second failing: after the call the first instance is Created in
the collection, no refresh has been made (the count is 0, not 1), and the row of
the first instance still shows the label "To-Create" with the state cell
sensitive. -/
theorem effect_change_no_refresh_example :
    (gnc_sx_slr_model_effect_change sample_env
        (gnc_sx_instance_model_effect_change sample_ledger)
        (gnc_sx_slr_tree_model_adapter_new sample_env sample_three_to_create)
        false [] []).model.refreshes
      ≠ (gnc_sx_slr_tree_model_adapter_new sample_env sample_three_to_create).refreshes + 1
    ∧ (gnc_sx_slr_model_effect_change sample_env
        (gnc_sx_instance_model_effect_change sample_ledger)
        (gnc_sx_slr_tree_model_adapter_new sample_env sample_three_to_create)
        false [] []).model.refreshes = 0
    ∧ (GncSxInstancePtr.deref
        (gnc_sx_slr_model_effect_change sample_env
          (gnc_sx_instance_model_effect_change sample_ledger)
          (gnc_sx_slr_tree_model_adapter_new sample_env sample_three_to_create)
          false [] []).model.instances ⟨0, 0⟩).map (fun i => i.state)
        = some SX_INSTANCE_STATE_CREATED
    ∧ (rowAt
        (gnc_sx_slr_model_effect_change sample_env
          (gnc_sx_instance_model_effect_change sample_ledger)
          (gnc_sx_slr_tree_model_adapter_new sample_env sample_three_to_create)
          false [] []).model.real ⟨[0], 0⟩).map
          (fun r => (r.cols.instance_state, r.cols.instance_state_sensitivity))
        = some (some "To-Create", true) := by
  decide

/-- C5. Pre-commit gate of `dialog_response_cb` for the OK response.  If
`checkVariables` returns a non-empty list, the handler returns with the adapter
untouched (no call of `gnc_sx_slr_model_effect_change` or of the primitive is
recorded, no instance state changes), the list of created transactions
unchanged and the dialog not closed.  If the list is empty,
`gnc_sx_slr_model_effect_change` is entered exactly once, with
`auto_create_only = false` (and on a writable book it invokes the primitive
once), and the dialog is closed. -/
theorem pre_commit_gate (E : Env) (prim : Primitive) (app_dialog : GncSxSinceLastRunDialog) :
    (gnc_sx_instance_model_check_variables app_dialog.editing_model.instances ≠ [] →
      ∃ d, dialog_response_cb E prim GTK_RESPONSE_OK app_dialog = Outcome.ret d
        ∧ d.editing_model = app_dialog.editing_model
        ∧ d.created_txns = app_dialog.created_txns
        ∧ d.closed = app_dialog.closed)
    ∧ (gnc_sx_instance_model_check_variables app_dialog.editing_model.instances = [] →
      ∃ d, dialog_response_cb E prim GTK_RESPONSE_OK app_dialog = Outcome.ret d
        ∧ d.editing_model.calls = app_dialog.editing_model.calls
            ++ (Call.slr_model_effect_change false ::
                (if E.qof_book_is_readonly then []
                 else [Call.instance_model_effect_change false]))
        ∧ d.closed = true) := by
  constructor
  · intro hne
    cases hc : gnc_sx_instance_model_check_variables app_dialog.editing_model.instances with
    | nil => exact absurd hc hne
    | cons first rest =>
      simp only [dialog_response_cb, hc]
      exact ⟨_, rfl, rfl, rfl, rfl⟩
  · intro he
    simp only [dialog_response_cb, he]
    refine ⟨_, rfl, ?_, ?_⟩
    · have hcalls : (gnc_sx_slr_model_effect_change E prim app_dialog.editing_model false
          app_dialog.created_txns []).model.calls
          = app_dialog.editing_model.calls
            ++ (Call.slr_model_effect_change false ::
                (if E.qof_book_is_readonly then []
                 else [Call.instance_model_effect_change false])) := by
        cases hro : E.qof_book_is_readonly with
        | true => simp [gnc_sx_slr_model_effect_change, hro]
        | false =>
          simpa using (effect_change_writable E prim app_dialog.editing_model false
            app_dialog.created_txns [] hro).2.1
      rw [← hcalls]
      simp only [dialog_close]
      split <;> split <;> rfl
    · simp only [dialog_close]

/-- C5, witness: with the unbound variable of the two-group sample the OK
response leaves adapter, list and dialog as they are; with the three ToCreate
instances (no variable) it enters the materialization once and closes. -/
theorem pre_commit_gate_witness :
    (∃ d, dialog_response_cb sample_env (gnc_sx_instance_model_effect_change sample_ledger)
        GTK_RESPONSE_OK (gnc_ui_sx_since_last_run_dialog sample_env sample_two_groups [])
          = Outcome.ret d
        ∧ d.editing_model
            = (gnc_ui_sx_since_last_run_dialog sample_env sample_two_groups []).editing_model
        ∧ d.created_txns = (gnc_ui_sx_since_last_run_dialog sample_env sample_two_groups []).created_txns
        ∧ d.closed = (gnc_ui_sx_since_last_run_dialog sample_env sample_two_groups []).closed)
    ∧ (∃ d, dialog_response_cb sample_env (gnc_sx_instance_model_effect_change sample_ledger)
        GTK_RESPONSE_OK (gnc_ui_sx_since_last_run_dialog sample_env sample_three_to_create [])
          = Outcome.ret d
        ∧ d.editing_model.calls
            = (gnc_ui_sx_since_last_run_dialog sample_env sample_three_to_create []).editing_model.calls
              ++ (Call.slr_model_effect_change false ::
                  (if sample_env.qof_book_is_readonly then []
                   else [Call.instance_model_effect_change false]))
        ∧ d.closed = true) :=
  ⟨(pre_commit_gate sample_env (gnc_sx_instance_model_effect_change sample_ledger)
      (gnc_ui_sx_since_last_run_dialog sample_env sample_two_groups [])).1 (by decide),
   (pre_commit_gate sample_env (gnc_sx_instance_model_effect_change sample_ledger)
      (gnc_ui_sx_since_last_run_dialog sample_env sample_three_to_create [])).2 (by decide)⟩

theorem deref_eq (m : GncSxInstanceModel) (p : GncSxInstancePtr) :
    p.deref m = ((m.map (fun g => g.instance_list))[p.sx_index]?).bind
      (fun l => l[p.instance_index]?) := by
  simp only [GncSxInstancePtr.deref, List.getElem?_map]
  cases m[p.sx_index]? <;> rfl

theorem deref_congr (m m' : GncSxInstanceModel) (p : GncSxInstancePtr)
    (h : m'.map (fun g => g.instance_list) = m.map (fun g => g.instance_list)) :
    p.deref m' = p.deref m := by
  rw [deref_eq, deref_eq, h]

theorem deref_set_instance_state (m : GncSxInstanceModel) (p : GncSxInstancePtr)
    (s : GncSxInstanceState) :
    p.deref (set_instance_state m p s)
      = (p.deref m).map (fun i => GncSxInstance.mk i.date s i.variable_bindings) := by
  simp only [GncSxInstancePtr.deref, set_instance_state, List.getElem?_modify]
  cases m[p.sx_index]? with
  | none => rfl
  | some g =>
    simp only [if_true, Option.map_eq_map, Option.map_some', List.getElem?_modify]

theorem deref_set_variable_value (m : GncSxInstanceModel) (p : GncSxInstancePtr) (v : Nat)
    (x : gnc_numeric) :
    p.deref (set_variable_value m p v x)
      = (p.deref m).map (fun i => GncSxInstance.mk i.date i.state
          (i.variable_bindings.modify (fun y => GncSxVariable.mk y.name x y.editable) v)) := by
  simp only [GncSxInstancePtr.deref, set_variable_value, List.getElem?_modify]
  cases m[p.sx_index]? with
  | none => rfl
  | some g =>
    simp only [if_true, Option.map_eq_map, Option.map_some', List.getElem?_modify]

theorem deref_emit_updated (E : Env) (hupd : E.keeps_instances)
    (model : GncSxSlrTreeModelAdapter) (sx : SchedXaction) (p : GncSxInstancePtr) :
    p.deref (g_signal_emit_updated E model sx).instances = p.deref model.instances := by
  unfold g_signal_emit_updated
  split
  · exact deref_congr _ _ p (hupd model.instances sx)
  · rfl

theorem deref_change_instance_state (E : Env) (hupd : E.keeps_instances)
    (model : GncSxSlrTreeModelAdapter) (p : GncSxInstancePtr) (s : GncSxInstanceState) :
    p.deref (gnc_sx_instance_model_change_instance_state E model p s).instances
      = (p.deref model.instances).map (fun i => GncSxInstance.mk i.date s i.variable_bindings) := by
  unfold gnc_sx_instance_model_change_instance_state
  simp only
  split
  · exact deref_set_instance_state _ _ _
  · rw [deref_emit_updated E hupd]
    exact deref_set_instance_state _ _ _

theorem deref_set_variable (E : Env) (hupd : E.keeps_instances)
    (model : GncSxSlrTreeModelAdapter) (p : GncSxInstancePtr) (v : Nat) (x : gnc_numeric) :
    ∃ model', gnc_sx_instance_model_set_variable E model p (some v) x = Outcome.ret model'
      ∧ p.deref model'.instances
        = (p.deref model.instances).map (fun i => GncSxInstance.mk i.date i.state
            (i.variable_bindings.modify (fun y => GncSxVariable.mk y.name x y.editable) v)) := by
  unfold gnc_sx_instance_model_set_variable
  simp only
  split
  · exact ⟨_, rfl, deref_set_variable_value _ _ _ _⟩
  · refine ⟨_, rfl, ?_⟩
    rw [deref_emit_updated E hupd]
    exact deref_set_variable_value _ _ _ _

theorem select_variable_lt :
    ∀ (vars : List GncSxVariable) (k : Int) (pos q : Nat),
      select_variable vars k pos = some q → pos ≤ q ∧ q < pos + vars.length := by
  intro vars
  induction vars with
  | nil => intro k pos q h; simp [select_variable] at h
  | cons v vs ih =>
    intro k pos q h
    simp only [select_variable] at h
    simp only [List.length_cons]
    split at h
    · have := ih _ _ _ h; omega
    · split at h
      · simp only [Option.some.injEq] at h; omega
      · have := ih _ _ _ h; omega

theorem lookup_variable_inv (model : GncSxSlrTreeModelAdapter) (iter : GtkTreeIter) (junk : Int)
    (p : GncSxInstancePtr) (v : Nat) (i : GncSxInstance)
    (hlook : gnc_sx_slr_model_get_instance_and_variable model iter junk
      = Outcome.ret (some (p, some v)))
    (hi : p.deref model.instances = some i) :
    v < i.variable_bindings.length := by
  unfold gnc_sx_slr_model_get_instance_and_variable at hlook
  cases h1 : _gnc_sx_slr_model_get_instance model iter false junk with
  | crash => simp [h1] at hlook
  | ret o =>
    cases o with
    | none => simp [h1] at hlook
    | some q =>
      simp only [h1] at hlook
      cases h2 : q.deref model.instances with
      | none => simp [h2] at hlook
      | some i2 =>
        simp only [h2] at hlook
        split at hlook
        · simp at hlook
        · split at hlook
          · simp at hlook
          · simp only [Outcome.ret.injEq, Option.some.injEq, Prod.mk.injEq] at hlook
            obtain ⟨hq, hsel⟩ := hlook
            subst hq
            rw [hi] at h2
            simp only [Option.some.injEq] at h2
            subst h2
            have := select_variable_lt _ _ _ _ hsel
            simpa [gnc_sx_instance_get_variables] using this.2

theorem modify_value_get (vars : List GncSxVariable) (v : Nat) (x : gnc_numeric)
    (hv : v < vars.length) :
    ((vars.modify (fun y => GncSxVariable.mk y.name x y.editable) v)[v]?).map (fun y => y.value)
      = some x := by
  simp [List.getElem?_modify, List.getElem?_eq_getElem hv]

/-- State-transition law of a variable edit on a row that resolves.  Let the
edited row resolve, by `gnc_sx_slr_model_get_instance_and_variable`, to an
instance and one of its variables.  Then `variable_value_changed_cb` returns, and afterwards the state of
that instance is ToCreate if it was Reminder and the input parses to a valid
number, and in every other case (another state, or an input that is empty or
does not parse to a valid number) exactly the state it had before; when the
input parses to a valid number the variable holds the parsed value. -/
theorem variable_edit_state_law (E : Env) (hupd : E.keeps_instances)
    (dialog : GncSxSinceLastRunDialog) (path : List Nat) (value : String) (junk : Int)
    (tree_iter : GtkTreeIter) (inst : GncSxInstancePtr) (var : Nat) (i : GncSxInstance)
    (hiter : gtk_tree_model_get_iter dialog.editing_model (instance_get_model_path E path)
      = some tree_iter)
    (hlook : gnc_sx_slr_model_get_instance_and_variable dialog.editing_model tree_iter junk
      = Outcome.ret (some (inst, some var)))
    (hi : inst.deref dialog.editing_model.instances = some i) :
    ∃ d i', variable_value_changed_cb E path value junk dialog = Outcome.ret d
      ∧ inst.deref d.editing_model.instances = some i'
      ∧ i'.state = (if i.state = SX_INSTANCE_STATE_REMINDER ∧ (valid_amount E value).isSome = true
                    then SX_INSTANCE_STATE_TO_CREATE else i.state)
      ∧ (∀ n, valid_amount E value = some n →
          (i'.variable_bindings[var]?).map (fun y => y.value) = some n) := by
  have hv := lookup_variable_inv _ _ _ _ _ _ hlook hi
  unfold variable_value_changed_cb
  simp only [hiter, hlook]
  -- the two branches in which the input is not a valid number
  have hbad : valid_amount E value = none →
      ∃ d i', (if strip_is_empty value = true then
          match gnc_sx_instance_model_set_variable E dialog.editing_model inst (some var)
              (gnc_numeric_error GNC_ERROR_ARG) with
          | Outcome.crash => Outcome.crash
          | Outcome.ret model => Outcome.ret
              ({ ({ dialog with temp_ce := false } : GncSxSinceLastRunDialog) with
                editing_model := model })
        else Outcome.ret ({ dialog with temp_ce := false } : GncSxSinceLastRunDialog))
          = Outcome.ret d
        ∧ inst.deref d.editing_model.instances = some i'
        ∧ i'.state = (if i.state = SX_INSTANCE_STATE_REMINDER ∧ (valid_amount E value).isSome = true
                    then SX_INSTANCE_STATE_TO_CREATE else i.state)
        ∧ (∀ n, valid_amount E value = some n →
          (i'.variable_bindings[var]?).map (fun y => y.value) = some n) := by
    intro hnone
    by_cases hs : strip_is_empty value = true
    · obtain ⟨model', hm, hd⟩ := deref_set_variable E hupd dialog.editing_model inst var
        (gnc_numeric_error GNC_ERROR_ARG)
      simp only [hs, if_true, hm]
      rw [hi] at hd
      refine ⟨_, _, rfl, hd, ?_, ?_⟩
      · simp [hnone]
      · intro n hn; rw [hnone] at hn; cases hn
    · simp only [hs, if_false, Bool.false_eq_true]
      refine ⟨_, i, rfl, hi, ?_, ?_⟩
      · simp [hnone]
      · intro n hn; rw [hnone] at hn; cases hn
  cases hp : E.xaccParseAmount value with
  | none =>
    have hnone : valid_amount E value = none := by simp [valid_amount, hp]
    simpa using hbad hnone
  | some n =>
    by_cases hc : gnc_numeric_check n = GNC_ERROR_OK
    · have hval : valid_amount E value = some n := by simp [valid_amount, hp, hc]
      simp only [hc, bne_self_eq_false, Bool.false_eq_true, if_false, hi]
      by_cases hr : i.state = SX_INSTANCE_STATE_REMINDER
      · simp only [hr, if_true]
        obtain ⟨model', hm, hd⟩ := deref_set_variable E hupd
          (gnc_sx_instance_model_change_instance_state E dialog.editing_model inst
            SX_INSTANCE_STATE_TO_CREATE) inst var n
        rw [deref_change_instance_state E hupd, hi] at hd
        simp only [hm]
        refine ⟨_, _, rfl, hd, ?_, ?_⟩
        · simp [hval]
        · intro n' hn'
          rw [hval] at hn'
          simp only [Option.some.injEq] at hn'
          subst hn'
          exact modify_value_get _ _ _ hv
      · simp only [hr, if_false]
        obtain ⟨model', hm, hd⟩ := deref_set_variable E hupd dialog.editing_model inst var n
        rw [hi] at hd
        simp only [hm]
        refine ⟨_, _, rfl, hd, ?_, ?_⟩
        · simp [hr]
        · intro n' hn'
          rw [hval] at hn'
          simp only [Option.some.injEq] at hn'
          subst hn'
          exact modify_value_get _ _ _ hv
    · have hnone : valid_amount E value = none := by simp [valid_amount, hp, hc]
      have hne : (gnc_numeric_check n != GNC_ERROR_OK) = true := by simp [hc]
      simp only [hne, if_true]
      exact hbad hnone

/-- Example of the law on a row that resolves: entering "5" in the variable row
[0, 0, 0] of the Reminder sample turns the instance to ToCreate. -/
theorem variable_edit_state_law_witness :
    ∃ d i', variable_value_changed_cb sample_env [0, 0, 0] "5" 0
          (gnc_ui_sx_since_last_run_dialog sample_env sample_reminder []) = Outcome.ret d
      ∧ GncSxInstancePtr.deref d.editing_model.instances ⟨0, 0⟩ = some i'
      ∧ i'.state = SX_INSTANCE_STATE_TO_CREATE := by
  obtain ⟨d, i', h1, h2, h3, _⟩ := variable_edit_state_law sample_env (fun _ _ => rfl)
    (gnc_ui_sx_since_last_run_dialog sample_env sample_reminder []) [0, 0, 0] "5" 0
    ⟨[0, 0], 0⟩ ⟨0, 0⟩ 0
    { date := 10, state := SX_INSTANCE_STATE_REMINDER,
      variable_bindings := [ { name := "x", value := gnc_numeric.error, editable := true } ] }
    (by decide) (by decide) (by decide)
  exact ⟨d, i', h1, h2, by rw [h3]; decide⟩

theorem mem_check_instance_variables (p : GncSxInstancePtr) :
    ∀ (vars : List GncSxVariable) (pos : Nat) (n : GncSxVariableNeeded),
      n ∈ check_instance_variables p vars pos ↔
        n.inst = p ∧ pos ≤ n.var ∧ ∃ var, vars[n.var - pos]? = some var
          ∧ var.editable = true ∧ gnc_numeric_check var.value ≠ GNC_ERROR_OK := by
  intro vars
  induction vars with
  | nil => intro pos n; simp [check_instance_variables]
  | cons v vs ih =>
    intro pos n
    have hrec := ih (pos + 1) n
    have key : (n.inst = p ∧ pos ≤ n.var ∧ ∃ var, (v :: vs)[n.var - pos]? = some var
          ∧ var.editable = true ∧ gnc_numeric_check var.value ≠ GNC_ERROR_OK)
        ↔ ((n = ⟨p, pos⟩ ∧ v.editable = true ∧ gnc_numeric_check v.value ≠ GNC_ERROR_OK)
            ∨ n ∈ check_instance_variables p vs (pos + 1)) := by
      rw [hrec]
      constructor
      · rintro ⟨h1, h2, var, h3, h4, h5⟩
        by_cases he : n.var = pos
        · left
          rw [he, Nat.sub_self] at h3
          simp only [List.getElem?_cons_zero, Option.some.injEq] at h3
          subst h3
          refine ⟨?_, h4, h5⟩
          cases n
          simp only [GncSxVariableNeeded.mk.injEq]
          exact ⟨h1, he⟩
        · right
          have e : n.var - pos = (n.var - (pos + 1)) + 1 := by omega
          rw [e, List.getElem?_cons_succ] at h3
          exact ⟨h1, by omega, var, h3, h4, h5⟩
      · rintro (⟨h1, h2, h3⟩ | ⟨h1, h2, var, h3, h4, h5⟩)
        · subst h1
          exact ⟨rfl, le_refl _, v, by simp, h2, h3⟩
        · have e : n.var - pos = (n.var - (pos + 1)) + 1 := by omega
          refine ⟨h1, by omega, var, ?_, h4, h5⟩
          rw [e, List.getElem?_cons_succ]
          exact h3
    rw [key]
    simp only [check_instance_variables]
    by_cases hc : v.editable = true ∧ gnc_numeric_check v.value ≠ GNC_ERROR_OK
    · have : (v.editable && gnc_numeric_check v.value != GNC_ERROR_OK) = true := by
        simp [hc.1, hc.2]
      simp [this, hc.1, hc.2]
    · have : (v.editable && gnc_numeric_check v.value != GNC_ERROR_OK) = false := by
        by_cases h1 : v.editable = true
        · have h2 : gnc_numeric_check v.value = GNC_ERROR_OK := by
            by_contra h2; exact hc ⟨h1, h2⟩
          simp [h1, h2]
        · simp [h1]
      simp only [this, Bool.false_eq_true, if_false]
      constructor
      · intro h; exact Or.inr h
      · rintro (⟨_, h2, h3⟩ | h)
        · exact absurd ⟨h2, h3⟩ hc
        · exact h

theorem pairwise_check_instance_variables (p : GncSxInstancePtr) :
    ∀ (vars : List GncSxVariable) (pos : Nat),
      (check_instance_variables p vars pos).Pairwise needed_before := by
  intro vars
  induction vars with
  | nil => intro pos; simp [check_instance_variables]
  | cons v vs ih =>
    intro pos
    simp only [check_instance_variables]
    split
    · refine List.Pairwise.cons ?_ (ih (pos + 1))
      intro b hb
      have := (mem_check_instance_variables p vs (pos + 1) b).mp hb
      right
      refine ⟨by rw [this.1], Or.inr ⟨by rw [this.1], ?_⟩⟩
      have := this.2.1
      show pos < b.var
      omega
    · exact ih (pos + 1)

theorem mem_check_group_instances (g : Nat) :
    ∀ (insts : List GncSxInstance) (i : Nat) (n : GncSxVariableNeeded),
      n ∈ check_group_instances g insts i ↔
        n.inst.sx_index = g ∧ i ≤ n.inst.instance_index
          ∧ ∃ inst var, insts[n.inst.instance_index - i]? = some inst
            ∧ (gnc_sx_instance_get_variables inst)[n.var]? = some var
            ∧ var.editable = true ∧ gnc_numeric_check var.value ≠ GNC_ERROR_OK := by
  intro insts
  induction insts with
  | nil => intro i n; simp [check_group_instances]
  | cons x xs ih =>
    intro i n
    simp only [check_group_instances, List.mem_append, mem_check_instance_variables, ih (i + 1) n,
      Nat.sub_zero, Nat.zero_le, true_and]
    constructor
    · rintro (⟨h1, var, h3, h4, h5⟩ | ⟨h1, h2, inst, var, h3, h4, h5, h6⟩)
      · refine ⟨by rw [h1], by rw [h1], x, var, ?_, h3, h4, h5⟩
        rw [h1]; simp
      · have e : n.inst.instance_index - i = (n.inst.instance_index - (i + 1)) + 1 := by omega
        refine ⟨h1, by omega, inst, var, ?_, h4, h5, h6⟩
        rw [e, List.getElem?_cons_succ]; exact h3
    · rintro ⟨h1, h2, inst, var, h3, h4, h5, h6⟩
      by_cases he : n.inst.instance_index = i
      · left
        rw [he, Nat.sub_self] at h3
        simp only [List.getElem?_cons_zero, Option.some.injEq] at h3
        subst h3
        refine ⟨?_, var, h4, h5, h6⟩
        cases hn : n.inst
        rw [hn] at h1 he
        simp only at h1 he
        rw [h1, he]
      · right
        have e : n.inst.instance_index - i = (n.inst.instance_index - (i + 1)) + 1 := by omega
        rw [e, List.getElem?_cons_succ] at h3
        exact ⟨h1, by omega, inst, var, h3, h4, h5, h6⟩

theorem pairwise_check_group_instances (g : Nat) :
    ∀ (insts : List GncSxInstance) (i : Nat),
      (check_group_instances g insts i).Pairwise needed_before := by
  intro insts
  induction insts with
  | nil => intro i; simp [check_group_instances]
  | cons x xs ih =>
    intro i
    simp only [check_group_instances]
    rw [List.pairwise_append]
    refine ⟨pairwise_check_instance_variables _ _ _, ih (i + 1), ?_⟩
    intro a ha b hb
    have h1 := ((mem_check_instance_variables _ _ _ a).mp ha).1
    have h2 := (mem_check_group_instances g xs (i + 1) b).mp hb
    right
    refine ⟨by rw [h1, h2.1], Or.inl ?_⟩
    rw [h1]
    show i < b.inst.instance_index
    have := h2.2.1
    omega

theorem mem_check_groups :
    ∀ (gs : List GncSxInstances) (g : Nat) (n : GncSxVariableNeeded),
      n ∈ check_groups gs g ↔
        g ≤ n.inst.sx_index
          ∧ ∃ grp inst var, gs[n.inst.sx_index - g]? = some grp
            ∧ grp.instance_list[n.inst.instance_index]? = some inst
            ∧ (gnc_sx_instance_get_variables inst)[n.var]? = some var
            ∧ var.editable = true ∧ gnc_numeric_check var.value ≠ GNC_ERROR_OK := by
  intro gs
  induction gs with
  | nil => intro g n; simp [check_groups]
  | cons x xs ih =>
    intro g n
    simp only [check_groups, List.mem_append, mem_check_group_instances, ih (g + 1) n,
      Nat.sub_zero, Nat.zero_le, true_and]
    constructor
    · rintro (⟨h1, inst, var, h3, h4, h5, h6⟩ | ⟨h1, grp, inst, var, h2, h3, h4, h5, h6⟩)
      · refine ⟨by omega, x, inst, var, ?_, h3, h4, h5, h6⟩
        rw [h1]; simp
      · have e : n.inst.sx_index - g = (n.inst.sx_index - (g + 1)) + 1 := by omega
        refine ⟨by omega, grp, inst, var, ?_, h3, h4, h5, h6⟩
        rw [e, List.getElem?_cons_succ]; exact h2
    · rintro ⟨h1, grp, inst, var, h2, h3, h4, h5, h6⟩
      by_cases he : n.inst.sx_index = g
      · left
        rw [he, Nat.sub_self] at h2
        simp only [List.getElem?_cons_zero, Option.some.injEq] at h2
        subst h2
        exact ⟨he, inst, var, h3, h4, h5, h6⟩
      · right
        have e : n.inst.sx_index - g = (n.inst.sx_index - (g + 1)) + 1 := by omega
        rw [e, List.getElem?_cons_succ] at h2
        exact ⟨by omega, grp, inst, var, h2, h3, h4, h5, h6⟩

theorem pairwise_check_groups :
    ∀ (gs : List GncSxInstances) (g : Nat), (check_groups gs g).Pairwise needed_before := by
  intro gs
  induction gs with
  | nil => intro g; simp [check_groups]
  | cons x xs ih =>
    intro g
    simp only [check_groups]
    rw [List.pairwise_append]
    refine ⟨pairwise_check_group_instances _ _ _, ih (g + 1), ?_⟩
    intro a ha b hb
    have h1 := ((mem_check_group_instances _ _ _ a).mp ha).1
    have h2 := ((mem_check_groups xs (g + 1) b).mp hb).1
    left
    omega

/-- C9. Validator completeness.  The list `checkVariables` returns holds an
entry {instance, variable} exactly for the variables of the collection that are
editable and hold the unbound sentinel, whatever the state of the instance; the
entries are strictly ordered by group, then instance, then variable (so none
occurs twice); and the list is empty if and only if every editable variable of
every instance holds a valid value. -/
theorem check_variables_complete (m : GncSxInstanceModel) :
    (∀ n, n ∈ gnc_sx_instance_model_check_variables m ↔ unbound_editable_at m n)
    ∧ (gnc_sx_instance_model_check_variables m).Pairwise needed_before
    ∧ (gnc_sx_instance_model_check_variables m = [] ↔
        ∀ g ∈ m, ∀ inst ∈ g.instance_list, ∀ var ∈ gnc_sx_instance_get_variables inst,
          var.editable = true → gnc_numeric_check var.value = GNC_ERROR_OK) := by
  have hmem : ∀ n, n ∈ gnc_sx_instance_model_check_variables m ↔ unbound_editable_at m n := by
    intro n
    simp [gnc_sx_instance_model_check_variables, mem_check_groups, unbound_editable_at]
  refine ⟨hmem, pairwise_check_groups m 0, ?_⟩
  rw [List.eq_nil_iff_forall_not_mem]
  constructor
  · intro h g hg inst hinst var hvar hed
    by_contra hne
    obtain ⟨gi, hgi⟩ := List.mem_iff_getElem?.mp hg
    obtain ⟨ii, hii⟩ := List.mem_iff_getElem?.mp hinst
    obtain ⟨vi, hvi⟩ := List.mem_iff_getElem?.mp hvar
    exact h ⟨⟨gi, ii⟩, vi⟩ ((hmem _).mpr ⟨g, inst, var, hgi, hii, hvi, hed, hne⟩)
  · intro h n hn
    obtain ⟨g, inst, var, hg, hinst, hvar, hed, hne⟩ := (hmem n).mp hn
    exact hne (h g (List.getElem?_mem hg) inst (List.getElem?_mem hinst) var
      (List.getElem?_mem hvar) hed)

theorem steps_created_append (a b : List CollectionStep) :
    steps_created (a ++ b) = steps_created a ++ steps_created b := by
  induction a with
  | nil => rfl
  | cons s rest ih => cases s <;> simp [steps_created, ih]

theorem steps_errors_append (a b : List CollectionStep) :
    steps_errors (a ++ b) = steps_errors a ++ steps_errors b := by
  induction a with
  | nil => rfl
  | cons s rest ih => cases s <;> simp [steps_errors, ih]

theorem steps_apply_append (a b : List CollectionStep) :
    ∀ m, steps_apply (a ++ b) m = steps_apply b (steps_apply a m) := by
  induction a with
  | nil => intro m; rfl
  | cons s rest ih => intro m; cases s <;> simp [steps_apply, ih]

theorem eligible_false (L : Ledger) (sx : SchedXaction) (inst : GncSxInstance) :
    materialization_eligible L false sx inst = decide (inst.state = SX_INSTANCE_STATE_TO_CREATE) := by
  simp [materialization_eligible]

theorem instance_steps_created (L : Ledger) (sx : SchedXaction) (p : GncSxInstancePtr)
    (inst : GncSxInstance) :
    steps_created (effect_change_instance L false sx p inst) = (created_id L (sx, inst)).toList := by
  simp only [effect_change_instance, eligible_false, created_id]
  by_cases h : inst.state = SX_INSTANCE_STATE_TO_CREATE
  · simp only [h, decide_True, if_true]
    cases L.create sx inst <;> simp [steps_created]
  · simp [h, steps_created]

theorem instance_steps_errors (L : Ledger) (sx : SchedXaction) (p : GncSxInstancePtr)
    (inst : GncSxInstance) :
    steps_errors (effect_change_instance L false sx p inst)
      = (creation_failure L (sx, inst)).toList := by
  simp only [effect_change_instance, eligible_false, creation_failure]
  by_cases h : inst.state = SX_INSTANCE_STATE_TO_CREATE
  · simp only [h, decide_True, if_true]
    cases L.create sx inst <;> simp [steps_errors]
  · simp [h, steps_errors]

theorem filterMap_cons_toList {α β : Type} (f : α → Option β) (x : α) (xs : List α) :
    (x :: xs).filterMap f = (f x).toList ++ xs.filterMap f := by
  simp only [List.filterMap_cons]
  cases f x <;> rfl

theorem instances_steps_lists (L : Ledger) (sx : SchedXaction) (g : Nat) :
    ∀ (insts : List GncSxInstance) (i : Nat),
      steps_created (effect_change_instances L false sx g insts i)
          = (insts.map (fun inst => (sx, inst))).filterMap (created_id L)
      ∧ steps_errors (effect_change_instances L false sx g insts i)
          = (insts.map (fun inst => (sx, inst))).filterMap (creation_failure L) := by
  intro insts
  induction insts with
  | nil => intro i; exact ⟨rfl, rfl⟩
  | cons x xs ih =>
    intro i
    simp only [effect_change_instances, steps_created_append, steps_errors_append,
      instance_steps_created, instance_steps_errors, List.map_cons, filterMap_cons_toList,
      (ih (i + 1)).1, (ih (i + 1)).2, and_self]

theorem groups_steps_lists (L : Ledger) :
    ∀ (gs : List GncSxInstances) (g : Nat),
      steps_created (effect_change_groups L false gs g) = (all_instances gs).filterMap (created_id L)
      ∧ steps_errors (effect_change_groups L false gs g)
          = (all_instances gs).filterMap (creation_failure L) := by
  intro gs
  induction gs with
  | nil => intro g; exact ⟨rfl, rfl⟩
  | cons x xs ih =>
    intro g
    have h1 := instances_steps_lists L x.sx g x.instance_list 0
    have h2 := ih (g + 1)
    unfold all_instances at h2 ⊢
    simp only [effect_change_groups, steps_created_append, steps_errors_append, h1.1, h1.2,
      h2.1, h2.2, List.flatMap_cons, List.filterMap_append, and_self]

theorem modify_at_length {α : Type} (f : α → α) (x : α) (post : List α) :
    ∀ (pre : List α), List.modify f pre.length (pre ++ x :: post) = pre ++ f x :: post := by
  intro pre
  induction pre with
  | nil => rfl
  | cons a pre ih => simp only [List.length_cons, List.cons_append, List.modify_succ_cons, ih]

theorem set_instance_state_at (gpre gpost : List GncSxInstances) (sx : SchedXaction)
    (ipre ipost : List GncSxInstance) (inst : GncSxInstance) (s : GncSxInstanceState) :
    set_instance_state (gpre ++ GncSxInstances.mk sx (ipre ++ inst :: ipost) :: gpost)
        ⟨gpre.length, ipre.length⟩ s
      = gpre ++ GncSxInstances.mk sx
          (ipre ++ GncSxInstance.mk inst.date s inst.variable_bindings :: ipost) :: gpost := by
  simp only [set_instance_state, modify_at_length]

theorem instance_steps_apply (L : Ledger) (gpre gpost : List GncSxInstances) (sx : SchedXaction)
    (ipre ipost : List GncSxInstance) (inst : GncSxInstance) :
    steps_apply (effect_change_instance L false sx ⟨gpre.length, ipre.length⟩ inst)
        (gpre ++ GncSxInstances.mk sx (ipre ++ inst :: ipost) :: gpost)
      = gpre ++ GncSxInstances.mk sx (ipre ++ materialized L sx inst :: ipost) :: gpost := by
  simp only [effect_change_instance, eligible_false, materialized]
  by_cases h : inst.state = SX_INSTANCE_STATE_TO_CREATE
  · simp only [h, decide_True, if_true]
    cases L.create sx inst with
    | ok guid => simp only [steps_apply, set_instance_state_at]
    | error msg => simp only [steps_apply]
  · simp [h, steps_apply]

theorem instances_steps_apply (L : Ledger) (gpre gpost : List GncSxInstances)
    (sx : SchedXaction) :
    ∀ (rest ipre : List GncSxInstance),
      steps_apply (effect_change_instances L false sx gpre.length rest ipre.length)
          (gpre ++ GncSxInstances.mk sx (ipre ++ rest) :: gpost)
        = gpre ++ GncSxInstances.mk sx (ipre ++ rest.map (materialized L sx)) :: gpost := by
  intro rest
  induction rest with
  | nil => intro ipre; simp [effect_change_instances, steps_apply]
  | cons x xs ih =>
    intro ipre
    simp only [effect_change_instances, steps_apply_append, instance_steps_apply]
    have e : ipre.length + 1 = (ipre ++ [materialized L sx x]).length := by simp
    have e2 : ipre ++ materialized L sx x :: xs = (ipre ++ [materialized L sx x]) ++ xs := by simp
    rw [e, e2, ih]
    simp

theorem groups_steps_apply (L : Ledger) :
    ∀ (rest gpre : List GncSxInstances),
      steps_apply (effect_change_groups L false rest gpre.length) (gpre ++ rest)
        = gpre ++ rest.map
            (fun g => GncSxInstances.mk g.sx (g.instance_list.map (materialized L g.sx))) := by
  intro rest
  induction rest with
  | nil => intro gpre; simp [effect_change_groups, steps_apply]
  | cons x xs ih =>
    intro gpre
    simp only [effect_change_groups, steps_apply_append]
    have h := instances_steps_apply L gpre xs x.sx x.instance_list []
    simp only [List.length_nil, List.nil_append] at h
    have hx : gpre ++ x :: xs = gpre ++ GncSxInstances.mk x.sx x.instance_list :: xs := by
      cases x; rfl
    rw [hx, h]
    have e : gpre.length + 1
        = (gpre ++ [GncSxInstances.mk x.sx (x.instance_list.map (materialized L x.sx))]).length := by
      simp
    have e2 : gpre ++ GncSxInstances.mk x.sx (x.instance_list.map (materialized L x.sx)) :: xs
        = (gpre ++ [GncSxInstances.mk x.sx (x.instance_list.map (materialized L x.sx))]) ++ xs := by
      simp
    rw [e, e2, ih]
    simp

/-- C8. Materialization batch semantics.  On a writable book, a run of
`gnc_sx_slr_model_effect_change` with `auto_create_only = false` over the
primitive makes one pass over all instances, a failure not stopping it: the list
of created transactions gains, in order, the new identifier of exactly each
instance in state ToCreate whose creation succeeds; the list of creation errors
gains exactly one message for each instance in state ToCreate whose creation
fails; and afterwards every instance whose creation succeeded is Created while
every other instance (failed, Ignored, Postponed, Reminder, Created) is as it
was. -/
theorem materialization_batch (E : Env) (L : Ledger) (model : GncSxSlrTreeModelAdapter)
    (guids : List GncGUID) (errors : List String) (hw : E.qof_book_is_readonly = false) :
    (gnc_sx_slr_model_effect_change E (gnc_sx_instance_model_effect_change L) model false
        guids errors).created_transaction_guids
        = guids ++ (all_instances model.instances).filterMap (created_id L)
    ∧ (gnc_sx_slr_model_effect_change E (gnc_sx_instance_model_effect_change L) model false
        guids errors).creation_errors
        = errors ++ (all_instances model.instances).filterMap (creation_failure L)
    ∧ (gnc_sx_slr_model_effect_change E (gnc_sx_instance_model_effect_change L) model false
        guids errors).model.instances
        = model.instances.map
            (fun g => GncSxInstances.mk g.sx (g.instance_list.map (materialized L g.sx))) := by
  have h := effect_change_writable E (gnc_sx_instance_model_effect_change L) model false
    guids errors hw
  obtain ⟨_, _, _, _, h5, h6, h7⟩ := h
  have hl := groups_steps_lists L model.instances 0
  have ha := groups_steps_apply L model.instances []
  simp only [List.length_nil, List.nil_append] at ha
  refine ⟨?_, ?_, ?_⟩
  · rw [h6]; simp only [gnc_sx_instance_model_effect_change, hl.1]
  · rw [h7]; simp only [gnc_sx_instance_model_effect_change, hl.2]
  · rw [h5]; simp only [gnc_sx_instance_model_effect_change, ha]

/-- C8, witness: three instances in state ToCreate of which the second fails: the
identifiers of the first and the third are returned, one error message is
returned, and the states are Created, ToCreate, Created. -/
theorem materialization_batch_witness :
    (gnc_sx_slr_model_effect_change sample_env (gnc_sx_instance_model_effect_change sample_ledger)
        (gnc_sx_slr_tree_model_adapter_new sample_env sample_three_to_create) false
        [] []).created_transaction_guids = [101, 103]
    ∧ (gnc_sx_slr_model_effect_change sample_env (gnc_sx_instance_model_effect_change sample_ledger)
        (gnc_sx_slr_tree_model_adapter_new sample_env sample_three_to_create) false
        [] []).creation_errors = ["instance 2: unbalanced"]
    ∧ (gnc_sx_slr_model_effect_change sample_env (gnc_sx_instance_model_effect_change sample_ledger)
        (gnc_sx_slr_tree_model_adapter_new sample_env sample_three_to_create) false
        [] []).model.instances.map (fun g => g.instance_list.map (fun i => i.state))
        = [[SX_INSTANCE_STATE_CREATED, SX_INSTANCE_STATE_TO_CREATE, SX_INSTANCE_STATE_CREATED]] :=
  have h := materialization_batch sample_env sample_ledger
    (gnc_sx_slr_tree_model_adapter_new sample_env sample_three_to_create) [] [] rfl
  ⟨h.1.trans (by decide), h.2.1.trans (by decide),
   (congrArg (List.map (fun g => g.instance_list.map (fun i => i.state))) h.2.2).trans (by decide)⟩

theorem getElem?_rebuildFrom {ι : Type} (col : ι → Cols) (f : ι → List Row → List Row) :
    ∀ (xs : List ι) (w : Nat) (old : List Row) (j : Nat),
      (rebuildFrom col f w xs old)[j]?
        = (xs[j]?).map (fun x => Row.mk (col x) (f x (kidsOf old (w + j)))) := by
  intro xs
  induction xs with
  | nil => intro w old j; simp [rebuildFrom]
  | cons x xs ih =>
    intro w old j
    cases j with
    | zero => simp [rebuildFrom]
    | succ j =>
      simp only [rebuildFrom, List.getElem?_cons_succ, ih]
      have e : w + 1 + j = w + (j + 1) := by omega
      rw [e]

theorem rebuildFrom_idem {ι : Type} (col : ι → Cols) (f : ι → List Row → List Row)
    (hf : ∀ x kids, f x (f x kids) = f x kids) (xs : List ι) (old : List Row) :
    rebuildFrom col f 0 xs (rebuildFrom col f 0 xs old) = rebuildFrom col f 0 xs old := by
  apply List.ext_getElem?
  intro j
  simp only [getElem?_rebuildFrom, Nat.zero_add]
  cases hx : xs[j]? with
  | none => rfl
  | some x =>
    simp only [Option.map_some', Option.some.injEq]
    have hk : kidsOf (rebuildFrom col f 0 xs old) j = f x (kidsOf old j) := by
      unfold kidsOf
      simp only [getElem?_rebuildFrom, hx, Option.map_some', Nat.zero_add]
      rfl
    rw [hk, hf]

theorem var_rows_idem (E : Env) (inst : GncSxInstance) (kids : List Row) :
    var_rows E inst (var_rows E inst kids) = var_rows E inst kids :=
  rebuildFrom_idem _ _ (fun _ _ => rfl) _ _

theorem inst_rows_idem (E : Env) (g : GncSxInstances) (kids : List Row) :
    inst_rows E g (inst_rows E g kids) = inst_rows E g kids :=
  rebuildFrom_idem _ _ (var_rows_idem E) _ _

/-- C13. The refresh is idempotent: for every collection and every content of the
store, a second run of `gsslrtma_populate_tree_store` over the same collection
leaves exactly the store the first run left (the same rows at the same paths,
with the same seven column values). -/
theorem populate_idempotent (E : Env) (m : GncSxInstanceModel) (real : GtkTreeStore) :
    gsslrtma_populate_tree_store E m (gsslrtma_populate_tree_store E m real)
      = gsslrtma_populate_tree_store E m real := by
  simp only [populate_eq]
  exact rebuildFrom_idem _ _ (inst_rows_idem E) _ _

/-- C18. State sensitivity of rows.  After a refresh the rows below the row of
each group that has instances are one per instance of the group, in order,
Created instances included; the state-sensitivity flag of an instance row is
true exactly when the state of its instance is not Created; the flag of every
group row and of every variable row is false. -/
theorem populate_state_sensitivity (E : Env) (m : GncSxInstanceModel) (real : GtkTreeStore) :
    (gsslrtma_populate_tree_store E m real).map
        (fun r => (r.cols.instance_state_sensitivity,
          r.children.map (fun c => (c.cols.instance_state_sensitivity,
            c.children.map (fun v => v.cols.instance_state_sensitivity)))))
      = (m.filter (fun g => decide (0 < g.instance_list.length))).map
        (fun g => (false,
          g.instance_list.map (fun inst =>
            (decide (inst.state ≠ SX_INSTANCE_STATE_CREATED),
              ((gnc_sx_instance_get_variables inst).filter (fun v => v.editable)).map
                (fun _ => false))))) := by
  have hfilter : m.filter (fun g => decide (0 < g.instance_list.length)) = nonempty_groups m := by
    unfold nonempty_groups
    congr 1
    funext g
    simp [Nat.pos_iff_ne_zero]
  rw [populate_eq, hfilter]
  unfold sx_rows
  apply map_rebuildFrom
  intro g kids
  simp only [Row.cols, Row.children, sx_cols, inst_rows, Prod.mk.injEq, true_and]
  apply map_rebuildFrom
  intro inst kids2
  simp only [Row.cols, Row.children, inst_cols, var_rows, Prod.mk.injEq, true_and]
  apply map_rebuildFrom
  intro v kids3
  simp [Row.cols, var_cols]

/-- C19. Variable rows show exactly the editable variables.  After a refresh the
rows below each instance row are, in list order, one per variable of the instance
with `editable = true` (a variable that is not editable has no row and takes no
index); each shows the name of its variable, and in the value column the
placeholder "(Need Value)" when the value fails `gnc_numeric_check`, otherwise
the formatted value.  When no formatted value reads like the placeholder, the
value cell is the placeholder if and only if the value fails the check. -/
theorem populate_variable_rows (E : Env) (m : GncSxInstanceModel) (real : GtkTreeStore) :
    (gsslrtma_populate_tree_store E m real).map
        (fun r => r.children.map (fun c => c.children.map
          (fun v => (v.cols.name, v.cols.variable_value))))
      = (m.filter (fun g => decide (0 < g.instance_list.length))).map
        (fun g => g.instance_list.map (fun inst =>
          ((gnc_sx_instance_get_variables inst).filter (fun v => v.editable)).map
            (fun v => (some v.name,
              some (if gnc_numeric_check v.value = GNC_ERROR_OK then E.printf_0_2f v.value
                    else E.gettext "(Need Value)")))))
    ∧ ((∀ x, E.printf_0_2f x ≠ E.gettext "(Need Value)") →
      (gsslrtma_populate_tree_store E m real).map
          (fun r => r.children.map (fun c => c.children.map
            (fun v => decide (v.cols.variable_value = some (E.gettext "(Need Value)")))))
        = (m.filter (fun g => decide (0 < g.instance_list.length))).map
          (fun g => g.instance_list.map (fun inst =>
            ((gnc_sx_instance_get_variables inst).filter (fun v => v.editable)).map
              (fun v => decide (gnc_numeric_check v.value ≠ GNC_ERROR_OK))))) := by
  have hfilter : m.filter (fun g => decide (0 < g.instance_list.length)) = nonempty_groups m := by
    unfold nonempty_groups
    congr 1
    funext g
    simp [Nat.pos_iff_ne_zero]
  rw [populate_eq, hfilter]
  unfold sx_rows
  constructor
  · apply map_rebuildFrom
    intro g kids
    simp only [Row.children, inst_rows]
    apply map_rebuildFrom
    intro inst kids2
    simp only [Row.children, var_rows]
    apply map_rebuildFrom
    intro v kids3
    simp [Row.cols, var_cols, _var_numeric_to_string]
  · intro hne
    apply map_rebuildFrom
    intro g kids
    simp only [Row.children, inst_rows]
    apply map_rebuildFrom
    intro inst kids2
    simp only [Row.children, var_rows]
    apply map_rebuildFrom
    intro v kids3
    simp only [Row.cols, var_cols, _var_numeric_to_string, Option.some.injEq]
    by_cases hc : gnc_numeric_check v.value = GNC_ERROR_OK
    · simp [hc, hne]
    · simp [hc]

/-- C19, witness: in the sample environment no number prints as the placeholder;
the one variable row of the three-group sample that has a value does not show
the placeholder, the two without a value do. -/
theorem populate_variable_rows_witness :
    (gsslrtma_populate_tree_store sample_env sample_three_groups []).map
        (fun r => r.children.map (fun c => c.children.map
          (fun v => decide (v.cols.variable_value = some (sample_env.gettext "(Need Value)")))))
      = [[[false]], [[true, true]]] :=
  ((populate_variable_rows sample_env sample_three_groups []).2
    (fun _ => by show ("n" : String) ≠ "(Need Value)"; decide)).trans (by decide)

theorem select_variable_spec :
    ∀ (vars : List GncSxVariable) (k pos : Nat),
      k < (vars.filter (fun v => v.editable)).length →
      ∃ q var, select_variable vars (k : Int) pos = some (pos + q)
        ∧ vars[q]? = some var ∧ var.editable = true
        ∧ (vars.take q).countP (fun v => v.editable) = k
        ∧ (vars.filter (fun v => v.editable))[k]? = some var := by
  intro vars
  induction vars with
  | nil => intro k pos h; simp at h
  | cons v vs ih =>
    intro k pos h
    cases hv : v.editable with
    | false =>
      simp only [List.filter_cons, hv, Bool.false_eq_true, if_false] at h
      obtain ⟨q, var, h1, h2, h3, h4, h5⟩ := ih k (pos + 1) h
      refine ⟨q + 1, var, ?_, ?_, h3, ?_, ?_⟩
      · simp only [select_variable, hv, Bool.not_false, if_true, h1]
        congr 1; omega
      · simpa using h2
      · simp [List.take_succ_cons, List.countP_cons, hv, h4]
      · simp only [List.filter_cons, hv, Bool.false_eq_true, if_false, h5]
    | true =>
      cases k with
      | zero =>
        refine ⟨0, v, ?_, by simp, hv, by simp, ?_⟩
        · simp [select_variable, hv]
        · simp [List.filter_cons, hv]
      | succ k =>
        simp only [List.filter_cons, hv, if_true, List.length_cons] at h
        obtain ⟨q, var, h1, h2, h3, h4, h5⟩ := ih k (pos + 1) (by omega)
        refine ⟨q + 1, var, ?_, ?_, h3, ?_, ?_⟩
        · have hne : ¬ (((k + 1 : Nat) : Int) = 0) := by omega
          have e : ((k + 1 : Nat) : Int) - 1 = (k : Int) := by omega
          simp only [select_variable, hv, Bool.not_true, Bool.false_eq_true, if_false, hne, e, h1]
          congr 1; omega
        · simpa using h2
        · simp [List.take_succ_cons, List.countP_cons, hv, h4]
        · simp only [List.filter_cons, hv, if_true, List.getElem?_cons_succ, h5]

/-- C11. The variable lookup uses the editable-variable index.  For a path
[g, i, k] of depth 3 in which g and i select a group and an instance of the
collection and k is less than the number of editable variables of that
instance, `gnc_sx_slr_model_get_instance_and_variable` returns TRUE with that
instance and the variable at the list position of the k-th editable variable:
the variable there is editable, exactly k editable variables precede it, and
it is the k-th element of the list of editable variables. -/
theorem variable_lookup_editable_index (model : GncSxSlrTreeModelAdapter) (g i k : Nat)
    (junk : Int) (grp : GncSxInstances) (inst : GncSxInstance)
    (hg : model.instances[g]? = some grp) (hi : grp.instance_list[i]? = some inst)
    (hk : k < ((gnc_sx_instance_get_variables inst).filter (fun v => v.editable)).length) :
    ∃ pos var,
      gnc_sx_slr_model_get_instance_and_variable model ⟨[g, i], k⟩ junk
        = Outcome.ret (some (⟨g, i⟩, some pos))
      ∧ (gnc_sx_instance_get_variables inst)[pos]? = some var
      ∧ var.editable = true
      ∧ ((gnc_sx_instance_get_variables inst).take pos).countP (fun v => v.editable) = k
      ∧ ((gnc_sx_instance_get_variables inst).filter (fun v => v.editable))[k]? = some var := by
  obtain ⟨q, var, h1, h2, h3, h4, h5⟩ :=
    select_variable_spec (gnc_sx_instance_get_variables inst) k 0 hk
  refine ⟨q, var, ?_, h2, h3, h4, h5⟩
  have hilt : i < grp.instance_list.length := by
    by_contra hc
    rw [List.getElem?_eq_none (by omega)] at hi
    cases hi
  have hklt : k < (gnc_sx_instance_get_variables inst).length :=
    Nat.lt_of_lt_of_le hk (List.length_filter_le _ _)
  have hnth : g_list_nth_data model.instances (g : Int) = some grp := by
    simp [g_list_nth_data, hg]
  have hder : GncSxInstancePtr.deref model.instances ⟨g, i⟩ = some inst := by
    simp [GncSxInstancePtr.deref, hg, hi]
  have hb1 : ¬ ((i : Int) < 0 ∨ (i : Int) ≥ (grp.instance_list.length : Int)) := by omega
  have hb2 : ¬ ((k : Int) < 0 ∨ (k : Int) ≥ ((gnc_sx_instance_get_variables inst).length : Int)) := by
    omega
  have hget : _gnc_sx_slr_model_get_instance model ⟨[g, i], k⟩ false junk
      = Outcome.ret (some ⟨g, i⟩) := by
    simp only [_gnc_sx_slr_model_get_instance, GtkTreeIter.path, Bool.false_and, path_index,
      List.cons_append, List.nil_append, List.getElem?_cons_zero, List.getElem?_cons_succ,
      hnth, hb1, if_false, Bool.false_eq_true, Int.toNat_ofNat]
  simp only [gnc_sx_slr_model_get_instance_and_variable, hget, hder]
  simp only [GtkTreeIter.path, path_index, List.cons_append, List.nil_append, List.length_cons,
    List.length_nil, List.getElem?_cons_zero, List.getElem?_cons_succ]
  simp only [hb2, if_false]
  simp at h1
  simp [h1]

/-- C11, witness: in the one-group sample with the variables "n" (not editable)
and "e" (editable), the path [0, 0, 0] yields the variable at list position 1. -/
theorem variable_lookup_editable_index_witness :
    ∃ (pos : Nat) (var : GncSxVariable),
      gnc_sx_slr_model_get_instance_and_variable
          (gnc_sx_slr_tree_model_adapter_new sample_env sample_created) ⟨[0, 0], 0⟩ 0
        = Outcome.ret (some (⟨0, 0⟩, some pos))
      ∧ pos = 1 ∧ var.name = "e" := by
  obtain ⟨pos, var, h1, h2, _, _, h5⟩ := variable_lookup_editable_index
    (gnc_sx_slr_tree_model_adapter_new sample_env sample_created) 0 0 0 0
    { sx := { guid := 2, name := "B" },
      instance_list :=
        [ { date := 10, state := SX_INSTANCE_STATE_CREATED,
            variable_bindings :=
              [ { name := "n", value := gnc_numeric.number 1, editable := false },
                { name := "e", value := gnc_numeric.number 7, editable := true } ] } ] }
    { date := 10, state := SX_INSTANCE_STATE_CREATED,
      variable_bindings :=
        [ { name := "n", value := gnc_numeric.number 1, editable := false },
          { name := "e", value := gnc_numeric.number 7, editable := true } ] }
    (by decide) (by decide) (by decide)
  have hd : gnc_sx_slr_model_get_instance_and_variable
      (gnc_sx_slr_tree_model_adapter_new sample_env sample_created) ⟨[0, 0], 0⟩ 0
      = Outcome.ret (some (⟨0, 0⟩, some 1)) := by decide
  rw [hd] at h1
  simp only [Outcome.ret.injEq, Option.some.injEq, Prod.mk.injEq, true_and] at h1
  subst h1
  refine ⟨1, var, hd, rfl, ?_⟩
  have h6 : var = { name := "e", value := gnc_numeric.number 7, editable := true } := by
    simpa [gnc_sx_instance_get_variables] using h5.symm
  rw [h6]

/-- C12, the failing input.  In the three-group sample the row at path [1, 0, 1]
exists (the second variable row of group "A"); the lookup resolves the path to
the instance of group "B", which has two variables of which one is editable,
and returns TRUE without having stored a variable. -/
theorem variable_lookup_beyond_editable :
    (rowAt (gnc_sx_slr_tree_model_adapter_new sample_env sample_three_groups).real
        ⟨[1, 0], 1⟩).isSome = true
    ∧ gnc_sx_slr_model_get_instance_and_variable
        (gnc_sx_slr_tree_model_adapter_new sample_env sample_three_groups) ⟨[1, 0], 1⟩ 0
        = Outcome.ret (some (⟨1, 0⟩, none))
    ∧ (GncSxInstancePtr.deref sample_three_groups ⟨1, 0⟩).map
        (fun i => ((gnc_sx_instance_get_variables i).length,
          ((gnc_sx_instance_get_variables i).filter (fun v => v.editable)).length))
        = some (2, 1)
    ∧ gnc_sx_slr_model_get_instance_and_variable
        (gnc_sx_slr_tree_model_adapter_new sample_env sample_created) ⟨[0, 0], 1⟩ 0
        = Outcome.ret (some (⟨0, 0⟩, none)) := by
  decide

theorem label_to_state_some (E : Env) (value : String) (s : GncSxInstanceState)
    (h : label_to_state E value = some s) :
    s ≠ SX_INSTANCE_STATE_CREATED ∧ value = display_name E s := by
  unfold label_to_state at h
  have hm := List.mem_of_find?_eq_some h
  have hp := List.find?_some h
  refine ⟨?_, by simpa [display_name] using hp⟩
  intro hc
  rw [hc] at hm
  simp [settable_states] at hm

theorem label_to_state_none (E : Env) (value : String)
    (h : ∀ s, s ≠ SX_INSTANCE_STATE_CREATED → value ≠ display_name E s) :
    label_to_state E value = none := by
  cases hl : label_to_state E value with
  | none => rfl
  | some s =>
    obtain ⟨h1, h2⟩ := label_to_state_some E value s hl
    exact absurd h2 (h s h1)

theorem label_to_state_of_display (E : Env) (hnames : Function.Injective (display_name E))
    (s : GncSxInstanceState) (hs : s ≠ SX_INSTANCE_STATE_CREATED) :
    label_to_state E (display_name E s) = some s := by
  cases hl : label_to_state E (display_name E s) with
  | none =>
    unfold label_to_state at hl
    rw [List.find?_eq_none] at hl
    have hmem : s ∈ settable_states := by
      cases s <;> simp [settable_states] at hs ⊢
    have := hl s hmem
    simp [display_name] at this
  | some t =>
    obtain ⟨_, h2⟩ := label_to_state_some E _ t hl
    rw [hnames h2]

theorem status_edit_resolved (E : Env) (hupd : E.keeps_instances)
    (dialog : GncSxSinceLastRunDialog) (path : List Nat) (value : String)
    (tree_iter : GtkTreeIter) (inst : GncSxInstancePtr) (i : GncSxInstance)
    (s : GncSxInstanceState)
    (hiter : gtk_tree_model_get_iter dialog.editing_model (instance_get_model_path E path)
      = some tree_iter)
    (hlook : gnc_sx_slr_model_get_instance dialog.editing_model tree_iter
      = Outcome.ret (some inst))
    (hi : inst.deref dialog.editing_model.instances = some i)
    (hl : label_to_state E value = some s) :
    ∃ d, instance_state_changed_cb E path value dialog = Outcome.ret d
      ∧ inst.deref d.editing_model.instances
          = some (GncSxInstance.mk i.date s i.variable_bindings) := by
  simp only [instance_state_changed_cb, hl, hiter, hlook]
  refine ⟨_, rfl, ?_⟩
  simp only [deref_change_instance_state E hupd, hi, Option.map_some']

theorem status_edit_unknown (E : Env) (dialog : GncSxSinceLastRunDialog) (path : List Nat)
    (value : String) (hl : label_to_state E value = none) :
    instance_state_changed_cb E path value dialog = Outcome.ret dialog := by
  simp only [instance_state_changed_cb, hl]

/-- A status edit on a row that resolves can never produce Created.  Let the
display names of the five states be pairwise different and let the edited row
resolve, by `gnc_sx_slr_model_get_instance`, to an instance.  If the text equals the display
name of Ignored, Postponed, ToCreate or Reminder, `instance_state_changed_cb`
gives the instance that state; for every other text, the display name of
Created included, it returns with the dialog and the collection exactly as they
were, having requested no state change. -/
theorem status_edit_law (E : Env) (hupd : E.keeps_instances)
    (hnames : Function.Injective (display_name E))
    (dialog : GncSxSinceLastRunDialog) (path : List Nat) (value : String)
    (tree_iter : GtkTreeIter) (inst : GncSxInstancePtr) (i : GncSxInstance)
    (hiter : gtk_tree_model_get_iter dialog.editing_model (instance_get_model_path E path)
      = some tree_iter)
    (hlook : gnc_sx_slr_model_get_instance dialog.editing_model tree_iter
      = Outcome.ret (some inst))
    (hi : inst.deref dialog.editing_model.instances = some i) :
    (∀ s, s ≠ SX_INSTANCE_STATE_CREATED → value = display_name E s →
      ∃ d i', instance_state_changed_cb E path value dialog = Outcome.ret d
        ∧ inst.deref d.editing_model.instances = some i' ∧ i'.state = s)
    ∧ ((∀ s, s ≠ SX_INSTANCE_STATE_CREATED → value ≠ display_name E s) →
      instance_state_changed_cb E path value dialog = Outcome.ret dialog)
    ∧ (value = display_name E SX_INSTANCE_STATE_CREATED →
      instance_state_changed_cb E path value dialog = Outcome.ret dialog) := by
  refine ⟨?_, ?_, ?_⟩
  · intro s hs hv
    have hl : label_to_state E value = some s := by
      rw [hv]; exact label_to_state_of_display E hnames s hs
    obtain ⟨d, h1, h2⟩ := status_edit_resolved E hupd dialog path value tree_iter inst i s
      hiter hlook hi hl
    exact ⟨d, _, h1, h2, rfl⟩
  · intro hne
    exact status_edit_unknown E dialog path value (label_to_state_none E value hne)
  · intro hv
    apply status_edit_unknown
    apply label_to_state_none
    intro s hs hc
    rw [hv] at hc
    exact hs (hnames hc).symm

theorem sample_display_names_injective : Function.Injective (display_name sample_env) := by
  intro a b h
  cases a <;> cases b <;> first | rfl | exact absurd h (by decide)

/-- Example of a status edit on a row that resolves: in the Reminder sample the
text "Postponed" on the instance row [0, 0] makes the instance Postponed, and
the text "Created" changes nothing. -/
theorem status_edit_law_witness :
    (∃ d i', instance_state_changed_cb sample_env [0, 0] "Postponed"
          (gnc_ui_sx_since_last_run_dialog sample_env sample_reminder []) = Outcome.ret d
        ∧ GncSxInstancePtr.deref d.editing_model.instances ⟨0, 0⟩ = some i'
        ∧ i'.state = SX_INSTANCE_STATE_POSTPONED)
    ∧ instance_state_changed_cb sample_env [0, 0] "Created"
          (gnc_ui_sx_since_last_run_dialog sample_env sample_reminder [])
        = Outcome.ret (gnc_ui_sx_since_last_run_dialog sample_env sample_reminder []) :=
  have h := fun value => status_edit_law sample_env (fun _ _ => rfl)
    sample_display_names_injective
    (gnc_ui_sx_since_last_run_dialog sample_env sample_reminder []) [0, 0] value
    ⟨[0], 0⟩ ⟨0, 0⟩
    { date := 10, state := SX_INSTANCE_STATE_REMINDER,
      variable_bindings := [ { name := "x", value := gnc_numeric.error, editable := true } ] }
    (by decide) (by decide) (by decide)
  ⟨(h "Postponed").1 SX_INSTANCE_STATE_POSTPONED (by decide) rfl, (h "Created").2.2 rfl⟩

theorem variable_edit_valid (E : Env) (hupd : E.keeps_instances)
    (dialog : GncSxSinceLastRunDialog) (path : List Nat) (value : String) (junk : Int)
    (tree_iter : GtkTreeIter) (inst : GncSxInstancePtr) (var : Nat) (i : GncSxInstance)
    (n : gnc_numeric)
    (hiter : gtk_tree_model_get_iter dialog.editing_model (instance_get_model_path E path)
      = some tree_iter)
    (hlook : gnc_sx_slr_model_get_instance_and_variable dialog.editing_model tree_iter junk
      = Outcome.ret (some (inst, some var)))
    (hi : inst.deref dialog.editing_model.instances = some i)
    (hval : valid_amount E value = some n) :
    ∃ d, variable_value_changed_cb E path value junk dialog = Outcome.ret d
      ∧ inst.deref d.editing_model.instances
        = some (GncSxInstance.mk i.date
            (if i.state = SX_INSTANCE_STATE_REMINDER then SX_INSTANCE_STATE_TO_CREATE
             else i.state)
            (i.variable_bindings.modify
              (fun y => GncSxVariable.mk y.name n y.editable) var)) := by
  unfold variable_value_changed_cb
  simp only [hiter, hlook]
  cases hp : E.xaccParseAmount value with
  | none => simp [valid_amount, hp] at hval
  | some m =>
    by_cases hc : gnc_numeric_check m = GNC_ERROR_OK
    · have hmn : m = n := by simpa [valid_amount, hp, hc] using hval
      subst hmn
      simp only [hc, bne_self_eq_false, Bool.false_eq_true, if_false, hi]
      by_cases hr : i.state = SX_INSTANCE_STATE_REMINDER
      · simp only [hr, if_true]
        obtain ⟨model', hm, hd⟩ := deref_set_variable E hupd
          (gnc_sx_instance_model_change_instance_state E dialog.editing_model inst
            SX_INSTANCE_STATE_TO_CREATE) inst var m
        rw [deref_change_instance_state E hupd, hi] at hd
        simp only [hm]
        exact ⟨_, rfl, hd⟩
      · simp only [hr, if_false]
        obtain ⟨model', hm, hd⟩ := deref_set_variable E hupd dialog.editing_model inst var m
        rw [hi] at hd
        simp only [hm]
        exact ⟨_, rfl, hd⟩
    · simp [valid_amount, hp, hc] at hval

theorem variable_edit_rejected (E : Env) (dialog : GncSxSinceLastRunDialog) (path : List Nat)
    (value : String) (junk : Int) (tree_iter : GtkTreeIter) (inst : GncSxInstancePtr)
    (var : Option Nat)
    (hiter : gtk_tree_model_get_iter dialog.editing_model (instance_get_model_path E path)
      = some tree_iter)
    (hlook : gnc_sx_slr_model_get_instance_and_variable dialog.editing_model tree_iter junk
      = Outcome.ret (some (inst, var)))
    (hval : valid_amount E value = none) :
    variable_value_changed_cb E path value junk dialog
      = if strip_is_empty value = true then
          match gnc_sx_instance_model_set_variable E dialog.editing_model inst var
              (gnc_numeric_error GNC_ERROR_ARG) with
          | Outcome.crash => Outcome.crash
          | Outcome.ret model =>
            Outcome.ret (GncSxSinceLastRunDialog.mk model dialog.review_created_txns_toggle
              dialog.created_txns false dialog.closed dialog.cursor dialog.error_reports
              dialog.shown_created dialog.help_shown)
        else
          Outcome.ret (GncSxSinceLastRunDialog.mk dialog.editing_model
            dialog.review_created_txns_toggle dialog.created_txns false dialog.closed
            dialog.cursor dialog.error_reports dialog.shown_created dialog.help_shown) := by
  unfold variable_value_changed_cb
  simp only [hiter, hlook]
  cases hp : E.xaccParseAmount value with
  | none => rfl
  | some m =>
    by_cases hc : gnc_numeric_check m = GNC_ERROR_OK
    · simp [valid_amount, hp, hc] at hval
    · have hne : (gnc_numeric_check m != GNC_ERROR_OK) = true := by simp [hc]
      simp only [hne, if_true]

/-- Empty input on a row that resolves clears to unbound.  Let the edited row
resolve to an instance and one of its variables, and let the input be empty or white space
only and not parse to a valid number.  Then `variable_value_changed_cb` makes
exactly one request to the collection, `setVariable` with the unbound sentinel:
it returns with the adapter that call returns, the variable holds the sentinel,
and the state of the instance is the one it had. -/
theorem empty_input_clears (E : Env) (hupd : E.keeps_instances)
    (dialog : GncSxSinceLastRunDialog) (path : List Nat) (value : String) (junk : Int)
    (tree_iter : GtkTreeIter) (inst : GncSxInstancePtr) (var : Nat) (i : GncSxInstance)
    (hiter : gtk_tree_model_get_iter dialog.editing_model (instance_get_model_path E path)
      = some tree_iter)
    (hlook : gnc_sx_slr_model_get_instance_and_variable dialog.editing_model tree_iter junk
      = Outcome.ret (some (inst, some var)))
    (hi : inst.deref dialog.editing_model.instances = some i)
    (hblank : strip_is_empty value = true) (hrej : valid_amount E value = none) :
    ∃ model' d i',
      gnc_sx_instance_model_set_variable E dialog.editing_model inst (some var)
          (gnc_numeric_error GNC_ERROR_ARG) = Outcome.ret model'
      ∧ variable_value_changed_cb E path value junk dialog = Outcome.ret d
      ∧ d.editing_model = model'
      ∧ inst.deref d.editing_model.instances = some i'
      ∧ i'.state = i.state
      ∧ (i'.variable_bindings[var]?).map (fun y => y.value) = some gnc_numeric.error := by
  have hv := lookup_variable_inv _ _ _ _ _ _ hlook hi
  obtain ⟨model', hm, hd⟩ := deref_set_variable E hupd dialog.editing_model inst var
    (gnc_numeric_error GNC_ERROR_ARG)
  rw [hi] at hd
  have hcb := variable_edit_rejected E dialog path value junk tree_iter inst (some var) hiter
    hlook hrej
  simp only [hblank, if_true, hm] at hcb
  exact ⟨model', _, _, hm, hcb, rfl, hd, rfl, modify_value_get _ _ _ hv⟩

/-- Example of an empty input on a row that resolves: in the sample with the
variable "e" of value 7, the input " " on the row [0, 0, 0] leaves the variable
(at list position 1) with the sentinel and the instance Created. -/
theorem empty_input_clears_witness :
    ∃ (d : GncSxSinceLastRunDialog) (i' : GncSxInstance),
      variable_value_changed_cb sample_env [0, 0, 0] " " 0
          (gnc_ui_sx_since_last_run_dialog sample_env sample_created []) = Outcome.ret d
      ∧ GncSxInstancePtr.deref d.editing_model.instances ⟨0, 0⟩ = some i'
      ∧ i'.state = SX_INSTANCE_STATE_CREATED
      ∧ (i'.variable_bindings[1]?).map (fun y => y.value) = some gnc_numeric.error := by
  obtain ⟨_, d, i', _, h2, _, h4, h5, h6⟩ := empty_input_clears sample_env (fun _ _ => rfl)
    (gnc_ui_sx_since_last_run_dialog sample_env sample_created []) [0, 0, 0] " " 0
    ⟨[0, 0], 0⟩ ⟨0, 0⟩ 1
    { date := 10, state := SX_INSTANCE_STATE_CREATED,
      variable_bindings :=
        [ { name := "n", value := gnc_numeric.number 1, editable := false },
          { name := "e", value := gnc_numeric.number 7, editable := true } ] }
    (by decide) (by decide) (by decide) (by decide) (by decide)
  exact ⟨d, i', h2, h4, h5, h6⟩

/-- C16, as the code has it.  Let the edited row resolve to an instance and a
variable, and let the input be non-empty after trimming white space and not
parse to a valid number.  Then `variable_value_changed_cb` makes no request to
the collection: it returns with the adapter (collection and store) exactly as it
was, so the variable keeps the value it had before the edit. -/
theorem invalid_input_keeps_value (E : Env) (dialog : GncSxSinceLastRunDialog)
    (path : List Nat) (value : String) (junk : Int) (tree_iter : GtkTreeIter)
    (inst : GncSxInstancePtr) (var : Option Nat)
    (hiter : gtk_tree_model_get_iter dialog.editing_model (instance_get_model_path E path)
      = some tree_iter)
    (hlook : gnc_sx_slr_model_get_instance_and_variable dialog.editing_model tree_iter junk
      = Outcome.ret (some (inst, var)))
    (hnonblank : strip_is_empty value = false) (hrej : valid_amount E value = none) :
    ∃ d, variable_value_changed_cb E path value junk dialog = Outcome.ret d
      ∧ d.editing_model = dialog.editing_model := by
  rw [variable_edit_rejected E dialog path value junk tree_iter inst var hiter hlook hrej]
  simp only [hnonblank, Bool.false_eq_true, if_false]
  exact ⟨_, rfl, rfl⟩

/-- C16, witness: the input "x" on the row [0, 0, 0] of the sample with the
variable "e" leaves the adapter as it was. -/
theorem invalid_input_keeps_value_witness :
    ∃ d, variable_value_changed_cb sample_env [0, 0, 0] "x" 0
          (gnc_ui_sx_since_last_run_dialog sample_env sample_created []) = Outcome.ret d
      ∧ d.editing_model
          = (gnc_ui_sx_since_last_run_dialog sample_env sample_created []).editing_model :=
  invalid_input_keeps_value sample_env
    (gnc_ui_sx_since_last_run_dialog sample_env sample_created []) [0, 0, 0] "x" 0
    ⟨[0, 0], 0⟩ ⟨0, 0⟩ (some 1) (by decide) (by decide) (by decide) (by decide)

/-- C16, counterexample.  The variable "e" holds the value 7; the input "x" is not
empty after trimming and is rejected by the parser; after
`variable_value_changed_cb` on the variable's row the variable still holds 7,
not the unbound sentinel. -/
theorem invalid_input_example :
    strip_is_empty "x" = false
    ∧ valid_amount sample_env "x" = none
    ∧ ((variable_value_changed_cb sample_env [0, 0, 0] "x" 0
          (gnc_ui_sx_since_last_run_dialog sample_env sample_created [])).returned.bind
        (fun d => (GncSxInstancePtr.deref d.editing_model.instances ⟨0, 0⟩).bind
          (fun i => (i.variable_bindings[1]?).map (fun y => y.value))))
        = some (gnc_numeric.number 7)
    ∧ gnc_numeric.number 7 ≠ gnc_numeric_error GNC_ERROR_ARG := by
  decide

/-- C15, as the code has it.  Let an instance be in state Created.  A variable
edit on a row that resolves to it, with any input, leaves it Created.  A status
edit leaves it Created (and everything else as it was) for every text that is
not the display name of Ignored, Postponed, ToCreate or Reminder.
`instance_state_changed_cb` does not look at the current state: with a text the
label loop maps to a state, on a row that resolves to the instance, it gives
the instance that state. -/
theorem created_under_edits (E : Env) (hupd : E.keeps_instances)
    (dialog : GncSxSinceLastRunDialog) (inst : GncSxInstancePtr) (i : GncSxInstance)
    (hi : inst.deref dialog.editing_model.instances = some i)
    (hcreated : i.state = SX_INSTANCE_STATE_CREATED) :
    (∀ path value junk tree_iter var,
      gtk_tree_model_get_iter dialog.editing_model (instance_get_model_path E path)
        = some tree_iter →
      gnc_sx_slr_model_get_instance_and_variable dialog.editing_model tree_iter junk
        = Outcome.ret (some (inst, some var)) →
      ∃ d i', variable_value_changed_cb E path value junk dialog = Outcome.ret d
        ∧ inst.deref d.editing_model.instances = some i'
        ∧ i'.state = SX_INSTANCE_STATE_CREATED)
    ∧ (∀ path value, (∀ s, s ≠ SX_INSTANCE_STATE_CREATED → value ≠ display_name E s) →
      instance_state_changed_cb E path value dialog = Outcome.ret dialog)
    ∧ (∀ path value tree_iter s,
      gtk_tree_model_get_iter dialog.editing_model (instance_get_model_path E path)
        = some tree_iter →
      gnc_sx_slr_model_get_instance dialog.editing_model tree_iter
        = Outcome.ret (some inst) →
      label_to_state E value = some s →
      ∃ d i', instance_state_changed_cb E path value dialog = Outcome.ret d
        ∧ inst.deref d.editing_model.instances = some i'
        ∧ i'.state = s) := by
  refine ⟨?_, ?_, ?_⟩
  · intro path value junk tree_iter var hiter hlook
    cases hval : valid_amount E value with
    | some n =>
      obtain ⟨d, h1, h2⟩ := variable_edit_valid E hupd dialog path value junk tree_iter inst var
        i n hiter hlook hi hval
      refine ⟨d, _, h1, h2, ?_⟩
      simp [hcreated]
    | none =>
      rw [variable_edit_rejected E dialog path value junk tree_iter inst (some var) hiter
        hlook hval]
      by_cases hb : strip_is_empty value = true
      · obtain ⟨model', hm, hd⟩ := deref_set_variable E hupd dialog.editing_model inst var
          (gnc_numeric_error GNC_ERROR_ARG)
        rw [hi] at hd
        simp only [hb, if_true, hm]
        exact ⟨_, _, rfl, hd, hcreated⟩
      · simp only [hb, if_false]
        exact ⟨_, i, rfl, hi, hcreated⟩
  · intro path value hne
    exact status_edit_unknown E dialog path value (label_to_state_none E value hne)
  · intro path value tree_iter s hiter hlook hl
    obtain ⟨d, h1, h2⟩ := status_edit_resolved E hupd dialog path value tree_iter inst i s
      hiter hlook hi hl
    exact ⟨d, _, h1, h2, rfl⟩

/-- C15, witness: in the sample with a Created instance, the input "5" on its
variable row [0, 0, 0] leaves it Created, and the text "Created" on its row
[0, 0] changes nothing. -/
theorem created_under_edits_witness :
    (∃ d i', variable_value_changed_cb sample_env [0, 0, 0] "5" 0
          (gnc_ui_sx_since_last_run_dialog sample_env sample_created []) = Outcome.ret d
        ∧ GncSxInstancePtr.deref d.editing_model.instances ⟨0, 0⟩ = some i'
        ∧ i'.state = SX_INSTANCE_STATE_CREATED)
    ∧ instance_state_changed_cb sample_env [0, 0] "Created"
          (gnc_ui_sx_since_last_run_dialog sample_env sample_created [])
        = Outcome.ret (gnc_ui_sx_since_last_run_dialog sample_env sample_created []) :=
  have h := created_under_edits sample_env (fun _ _ => rfl)
    (gnc_ui_sx_since_last_run_dialog sample_env sample_created []) ⟨0, 0⟩
    { date := 10, state := SX_INSTANCE_STATE_CREATED,
      variable_bindings :=
        [ { name := "n", value := gnc_numeric.number 1, editable := false },
          { name := "e", value := gnc_numeric.number 7, editable := true } ] }
    (by decide) rfl
  ⟨h.1 [0, 0, 0] "5" 0 ⟨[0, 0], 0⟩ 1 (by decide) (by decide),
   h.2.1 [0, 0] "Created"
     (fun s hs => by cases s <;> first | exact absurd rfl hs | decide)⟩

/-- C15, counterexample.  The instance of the sample is Created; the status edit
with the text "Ignored" on its row [0, 0] leaves it Ignored. -/
theorem status_edit_changes_created :
    (GncSxInstancePtr.deref sample_created ⟨0, 0⟩).map (fun i => i.state)
        = some SX_INSTANCE_STATE_CREATED
    ∧ ((instance_state_changed_cb sample_env [0, 0] "Ignored"
          (gnc_ui_sx_since_last_run_dialog sample_env sample_created [])).returned.bind
        (fun d => (GncSxInstancePtr.deref d.editing_model.instances ⟨0, 0⟩).map
          (fun i => i.state)))
        = some SX_INSTANCE_STATE_IGNORED := by
  decide

/-- C20, the failing input.  The collection has the group "E" without instances,
then "B", then "A", each with one instance; the refreshed store has the rows
"B" and "A".  The `removing` handler for "B" removes the row at index 1, the
row of "A", and leaves the row of "B", while "B" leaves the collection.  The
handler for "E", which has no row, removes the row of "B".  The handler for
"A" finds no row at index 2 and returns with store and collection as they
were. -/
theorem removing_after_empty_group :
    (gnc_sx_slr_tree_model_adapter_new sample_env sample_three_groups).real.map
        (fun r => r.cols.name) = [some "B", some "A"]
    ∧ (gsslrtma_removing_cb sample_env
        (gnc_sx_slr_tree_model_adapter_new sample_env sample_three_groups)
        { guid := 2, name := "B" }).real.map (fun r => r.cols.name) = [some "B"]
    ∧ (gsslrtma_removing_cb sample_env
        (gnc_sx_slr_tree_model_adapter_new sample_env sample_three_groups)
        { guid := 2, name := "B" }).instances.map (fun g => g.sx.name) = ["E", "A"]
    ∧ (gsslrtma_removing_cb sample_env
        (gnc_sx_slr_tree_model_adapter_new sample_env sample_three_groups)
        { guid := 1, name := "E" }).real.map (fun r => r.cols.name) = [some "A"]
    ∧ (gsslrtma_removing_cb sample_env
        (gnc_sx_slr_tree_model_adapter_new sample_env sample_three_groups)
        { guid := 3, name := "A" }).real.map (fun r => r.cols.name) = [some "B", some "A"]
    ∧ (gsslrtma_removing_cb sample_env
        (gnc_sx_slr_tree_model_adapter_new sample_env sample_three_groups)
        { guid := 3, name := "A" }).instances.map (fun g => g.sx.name) = ["E", "B", "A"] := by
  decide

theorem childrenAt_path_of_rowAt (model : GtkTreeStore) (it : GtkTreeIter) (r : Row)
    (h : rowAt model it = some r) : childrenAt model it.path = some r.children := by
  unfold rowAt at h
  unfold GtkTreeIter.path
  rw [childrenAt_snoc]
  cases hc : childrenAt model it.parent with
  | none => simp [hc] at h
  | some cs =>
    simp only [hc] at h
    simp [h]

theorem has_child_of_rowAt (model : GtkTreeStore) (it : GtkTreeIter) (r : Row)
    (h : rowAt model it = some r) :
    gtk_tree_model_iter_has_child model it = !r.children.isEmpty := by
  unfold gtk_tree_model_iter_has_child n_children
  rw [childrenAt_path_of_rowAt model it r h]
  cases r.children <;> simp

theorem first_child_read (model : GtkTreeStore) (it : GtkTreeIter) (r : Row)
    (h : rowAt model it = some r) {β : Type} (d : β) (φ : Cols → β) :
    get_first_child_column model it φ d = ((r.children[0]?).map (fun c => φ c.cols)).getD d := by
  unfold get_first_child_column gtk_tree_model_iter_nth_child gtk_tree_model_get rowAt
  rw [childrenAt_path_of_rowAt model it r h]
  cases hk : r.children with
  | nil => simp
  | cons c cs => simp [childrenAt_path_of_rowAt model it r h, hk]

theorem transaction_sort_eq (E : Env) (model : GtkTreeStore) (a b : GtkTreeIter) (ra rb : Row)
    (ha : a.parent = []) (hra : rowAt model a = some ra) (hrb : rowAt model b = some rb) :
    _transaction_sort_func E model a b = some (by_occurrence E ra rb) := by
  have hlen : a.path.length = 1 := by simp [GtkTreeIter.path, ha]
  unfold _transaction_sort_func
  simp only [first_child_read model a ra hra, first_child_read model b rb hrb,
    has_child_of_rowAt model a ra hra, has_child_of_rowAt model b rb hrb,
    gtk_tree_model_get, hra, hrb, Option.map_some', hlen]
  unfold by_occurrence first_child_date
  cases hka : ra.children with
  | nil =>
    cases hkb : rb.children with
    | nil => simp
    | cons cb cbs => simp
  | cons ca cas =>
    cases hkb : rb.children with
    | nil => simp
    | cons cb cbs =>
      simp only [List.getElem?_cons_zero, Option.map_some', Option.getD_some]
      rcases lt_trichotomy ca.cols.instance_date cb.cols.instance_date with h | h | h
      · simp [h, not_lt_of_gt h]
      · simp [h]
      · simp [h, not_lt_of_gt h]

theorem status_sort_eq (E : Env) (model : GtkTreeStore) (a b : GtkTreeIter) (ra rb : Row)
    (ha : a.parent = []) (hra : rowAt model a = some ra) (hrb : rowAt model b = some rb) :
    _status_sort_func E model a b = some (by_status E ra rb) := by
  have hlen : a.path.length = 1 := by simp [GtkTreeIter.path, ha]
  unfold _status_sort_func
  simp only [first_child_read model a ra hra, first_child_read model b rb hrb,
    has_child_of_rowAt model a ra hra, has_child_of_rowAt model b rb hrb,
    gtk_tree_model_get, hra, hrb, Option.map_some', hlen]
  unfold by_status first_child_state
  cases hka : ra.children with
  | nil =>
    cases hkb : rb.children with
    | nil => simp
    | cons cb cbs => simp
  | cons ca cas =>
    cases hkb : rb.children with
    | nil => simp
    | cons cb cbs =>
      simp only [List.getElem?_cons_zero, Option.map_some', Option.getD_some]
      by_cases h : E.safe_utf8_collate ca.cols.instance_state cb.cols.instance_state = 0
      · simp [h]
      · simp [h]

theorem by_occurrence_sign (E : Env) (hE : E.collation_total_preorder) (ra rb : Row) :
    Int.sign (by_occurrence E ra rb) = - Int.sign (by_occurrence E rb ra) := by
  unfold by_occurrence
  cases first_child_date ra with
  | none =>
    cases first_child_date rb with
    | none => exact hE.1 _ _
    | some db => simp
  | some da =>
    cases first_child_date rb with
    | none => simp
    | some db =>
      rcases lt_trichotomy da db with h | h | h
      · simp [h, not_lt_of_gt h]
      · simp [h, hE.1 ra.cols.name rb.cols.name]
      · simp [h, not_lt_of_gt h]

theorem by_occurrence_trans (E : Env) (hE : E.collation_total_preorder) (ra rb rc : Row)
    (hab : by_occurrence E ra rb ≤ 0) (hbc : by_occurrence E rb rc ≤ 0) :
    by_occurrence E ra rc ≤ 0 := by
  unfold by_occurrence at hab hbc ⊢
  cases ha : first_child_date ra with
  | none =>
    cases hb : first_child_date rb with
    | none =>
      cases hc : first_child_date rc with
      | none =>
        simp only [ha, hb, hc] at hab hbc ⊢
        exact hE.2 _ _ _ hab hbc
      | some dc => simp [hb, hc] at hbc
    | some db => simp [ha, hb] at hab
  | some da =>
    cases hb : first_child_date rb with
    | none =>
      cases hc : first_child_date rc with
      | none => simp
      | some dc => simp [hb, hc] at hbc
    | some db =>
      cases hc : first_child_date rc with
      | none => simp
      | some dc =>
        simp only [ha, hb, hc] at hab hbc ⊢
        have h1 : da ≤ db := by
          by_contra hcon
          have hlt : db < da := lt_of_not_ge hcon
          simp [hlt, not_lt_of_gt hlt] at hab
        have h2 : db ≤ dc := by
          by_contra hcon
          have hlt : dc < db := lt_of_not_ge hcon
          simp [hlt, not_lt_of_gt hlt] at hbc
        by_cases h3 : da < dc
        · simp [h3]
        · have e1 : da = db := by omega
          have e2 : db = dc := by omega
          subst e1
          subst e2
          simp only [lt_self_iff_false, if_false] at hab hbc ⊢
          exact hE.2 _ _ _ hab hbc

theorem foldl_min_of_le (x : Int) : ∀ (xs : List Int), (∀ y ∈ xs, x ≤ y) → xs.foldl min x = x := by
  intro xs
  induction xs with
  | nil => intro _; rfl
  | cons y ys ih =>
    intro h
    have hy : x ≤ y := h y (List.mem_cons_self _ _)
    simp only [List.foldl_cons, min_eq_left hy]
    exact ih (fun z hz => h z (List.mem_cons_of_mem _ hz))

theorem earliest_eq_first (r : Row)
    (h : (r.children.map (fun c => c.cols.instance_date)).Pairwise (fun x y => x ≤ y)) :
    earliest_child_date r = first_child_date r := by
  unfold earliest_child_date first_child_date
  cases hk : r.children with
  | nil => rfl
  | cons c cs =>
    rw [hk] at h
    simp only [List.map_cons, List.pairwise_cons] at h
    simp only [List.map_cons, List.min?_cons', List.getElem?_cons_zero, Option.map_some']
    rw [foldl_min_of_le _ _ h.1]

/-- C21. Sort tie-break by name.  For a top-level row `a` and a row `b` that each
have exactly one child row, the two children carrying the same date,
`_transaction_sort_func` returns exactly the collation of the names of the two
rows, so its result is zero if and only if the names collate equal.  In
particular, after a refresh, for two groups with one instance each on the same
date the result is the collation of the names of the two scheduled
transactions. -/
theorem transaction_sort_tie_break (E : Env) :
    (∀ (model : GtkTreeStore) (a b : GtkTreeIter) (ra rb ca cb : Row),
      a.parent = [] → rowAt model a = some ra → rowAt model b = some rb →
      ra.children = [ca] → rb.children = [cb] →
      ca.cols.instance_date = cb.cols.instance_date →
      _transaction_sort_func E model a b
          = some (E.safe_utf8_collate ra.cols.name rb.cols.name)
        ∧ (_transaction_sort_func E model a b = some 0
            ↔ E.safe_utf8_collate ra.cols.name rb.cols.name = 0))
    ∧ (∀ (m : GncSxInstanceModel) (real : GtkTreeStore) (i j : Nat) (ga gb : GncSxInstances)
        (ia ib : GncSxInstance),
      (nonempty_groups m)[i]? = some ga → (nonempty_groups m)[j]? = some gb →
      ga.instance_list = [ia] → gb.instance_list = [ib] → ia.date = ib.date →
      _transaction_sort_func E (gsslrtma_populate_tree_store E m real) ⟨[], i⟩ ⟨[], j⟩
        = some (E.safe_utf8_collate (some ga.sx.name) (some gb.sx.name))) := by
  have key : ∀ (model : GtkTreeStore) (a b : GtkTreeIter) (ra rb ca cb : Row),
      a.parent = [] → rowAt model a = some ra → rowAt model b = some rb →
      ra.children = [ca] → rb.children = [cb] →
      ca.cols.instance_date = cb.cols.instance_date →
      _transaction_sort_func E model a b
          = some (E.safe_utf8_collate ra.cols.name rb.cols.name) := by
    intro model a b ra rb ca cb ha hra hrb hca hcb hdate
    rw [transaction_sort_eq E model a b ra rb ha hra hrb]
    simp [by_occurrence, first_child_date, hca, hcb, hdate]
  refine ⟨?_, ?_⟩
  · intro model a b ra rb ca cb ha hra hrb hca hcb hdate
    have h := key model a b ra rb ca cb ha hra hrb hca hcb hdate
    refine ⟨h, ?_⟩
    rw [h]
    simp
  · intro m real i j ga gb ia ib hga hgb hia hib hdate
    have hrow : ∀ (k : Nat) (g : GncSxInstances) (inst : GncSxInstance),
        (nonempty_groups m)[k]? = some g → g.instance_list = [inst] →
        rowAt (gsslrtma_populate_tree_store E m real) ⟨[], k⟩
          = some (Row.mk (sx_cols g)
              [Row.mk (inst_cols E inst) (var_rows E inst (kidsOf (kidsOf real k) 0))]) := by
      intro k g inst hg hinst
      rw [populate_eq]
      simp only [rowAt, childrenAt, sx_rows, getElem?_rebuildFrom, hg, Option.map_some',
        Nat.zero_add, inst_rows, hinst, rebuildFrom]
    have h := key _ ⟨[], i⟩ ⟨[], j⟩ _ _ _ _ rfl (hrow i ga ia hga hia) (hrow j gb ib hgb hib)
      rfl rfl (by simp [Row.cols, inst_cols, hdate])
    simpa [Row.cols, sx_cols] using h

/-- C22. The comparison "by occurrence" is a total preorder on top-level rows when
the collation of names is one: for top-level rows `a`, `b` and a row `c`, the
sign of the result for `(a, b)` is the negation of the sign of the result for
`(b, a)`, and when `a` does not come after `b` and `b` does not come after `c`,
`a` does not come after `c`. -/
theorem transaction_sort_total_preorder (E : Env) (hE : E.collation_total_preorder)
    (model : GtkTreeStore) (a b c : GtkTreeIter) (ra rb rc : Row)
    (ha : a.parent = []) (hb : b.parent = [])
    (hra : rowAt model a = some ra) (hrb : rowAt model b = some rb)
    (hrc : rowAt model c = some rc) :
    ∃ ab ba bc ac : Int,
      _transaction_sort_func E model a b = some ab
      ∧ _transaction_sort_func E model b a = some ba
      ∧ _transaction_sort_func E model b c = some bc
      ∧ _transaction_sort_func E model a c = some ac
      ∧ Int.sign ab = - Int.sign ba
      ∧ (ab ≤ 0 → bc ≤ 0 → ac ≤ 0) :=
  ⟨_, _, _, _, transaction_sort_eq E model a b ra rb ha hra hrb,
    transaction_sort_eq E model b a rb ra hb hrb hra,
    transaction_sort_eq E model b c rb rc hb hrb hrc,
    transaction_sort_eq E model a c ra rc ha hra hrc,
    by_occurrence_sign E hE ra rb, by_occurrence_trans E hE ra rb rc⟩

/-- C23, amended. The comparison "by occurrence" of a top-level row `a` with a row
`b`: a row that has children comes before a row that has none; when both have
children the row whose first child carries the smaller date comes first, and
when these two dates are equal, or neither row has children, the result is the
collation of the names.  The date of the first child is the earliest date among
the children of a row whose children are in ascending order of date. -/
theorem transaction_sort_law (E : Env) (model : GtkTreeStore) (a b : GtkTreeIter) (ra rb : Row)
    (ha : a.parent = []) (hra : rowAt model a = some ra) (hrb : rowAt model b = some rb) :
    (ra.children ≠ [] → rb.children = [] → _transaction_sort_func E model a b = some (-1))
    ∧ (ra.children = [] → rb.children ≠ [] → _transaction_sort_func E model a b = some 1)
    ∧ (∀ date_a date_b, first_child_date ra = some date_a → first_child_date rb = some date_b →
        (date_a < date_b → _transaction_sort_func E model a b = some (-1))
        ∧ (date_b < date_a → _transaction_sort_func E model a b = some 1)
        ∧ (date_a = date_b → _transaction_sort_func E model a b
            = some (E.safe_utf8_collate ra.cols.name rb.cols.name)))
    ∧ (ra.children = [] → rb.children = [] → _transaction_sort_func E model a b
        = some (E.safe_utf8_collate ra.cols.name rb.cols.name))
    ∧ (∀ r : Row, (r.children.map (fun c => c.cols.instance_date)).Pairwise (fun x y => x ≤ y) →
        earliest_child_date r = first_child_date r) := by
  rw [transaction_sort_eq E model a b ra rb ha hra hrb]
  unfold by_occurrence
  refine ⟨?_, ?_, ?_, ?_, earliest_eq_first⟩
  · intro h1 h2
    cases hk : ra.children with
    | nil => exact absurd hk h1
    | cons x xs => simp [first_child_date, hk, h2]
  · intro h1 h2
    cases hk : rb.children with
    | nil => exact absurd hk h2
    | cons x xs => simp [first_child_date, hk, h1]
  · intro da db hda hdb
    simp only [hda, hdb]
    refine ⟨?_, ?_, ?_⟩
    · intro h; simp [h]
    · intro h; simp [h, not_lt_of_gt h]
    · intro h; simp [h]
  · intro h1 h2
    simp [first_child_date, h1, h2]

/-- C24. The comparison "by status" of a top-level row `a` with a row `b`: a row
that has children comes before a row that has none; when both have children the
result is the collation of the status labels of their first children, unless
that is zero; when it is zero, or neither row has children, the result is the
collation of the names of the two rows. -/
theorem status_sort_law (E : Env) (model : GtkTreeStore) (a b : GtkTreeIter) (ra rb : Row)
    (ha : a.parent = []) (hra : rowAt model a = some ra) (hrb : rowAt model b = some rb) :
    (ra.children ≠ [] → rb.children = [] → _status_sort_func E model a b = some (-1))
    ∧ (ra.children = [] → rb.children ≠ [] → _status_sort_func E model a b = some 1)
    ∧ (∀ state_a state_b, first_child_state ra = some state_a →
        first_child_state rb = some state_b →
        (E.safe_utf8_collate state_a state_b ≠ 0 → _status_sort_func E model a b
            = some (E.safe_utf8_collate state_a state_b))
        ∧ (E.safe_utf8_collate state_a state_b = 0 → _status_sort_func E model a b
            = some (E.safe_utf8_collate ra.cols.name rb.cols.name)))
    ∧ (ra.children = [] → rb.children = [] → _status_sort_func E model a b
        = some (E.safe_utf8_collate ra.cols.name rb.cols.name)) := by
  rw [status_sort_eq E model a b ra rb ha hra hrb]
  unfold by_status
  refine ⟨?_, ?_, ?_, ?_⟩
  · intro h1 h2
    cases hk : ra.children with
    | nil => exact absurd hk h1
    | cons x xs => simp [first_child_state, hk, h2]
  · intro h1 h2
    cases hk : rb.children with
    | nil => exact absurd hk h2
    | cons x xs => simp [first_child_state, hk, h1]
  · intro sa sb hsa hsb
    simp only [hsa, hsb]
    refine ⟨?_, ?_⟩
    · intro h; simp [h]
    · intro h; simp [h]
  · intro h1 h2
    simp [first_child_state, h1, h2]

theorem sample_collate_chars_sign :
    ∀ (x y : List Char), Int.sign (sample_collate_chars x y) = - Int.sign (sample_collate_chars y x) := by
  intro x
  induction x with
  | nil => intro y; cases y <;> simp [sample_collate_chars]
  | cons a as ih =>
    intro y
    cases y with
    | nil => simp [sample_collate_chars]
    | cons b bs =>
      simp only [sample_collate_chars]
      rcases lt_trichotomy a.toNat b.toNat with h | h | h
      · simp [h, not_lt_of_gt h]
      · simp [h, ih bs]
      · simp [h, not_lt_of_gt h]

theorem sample_collate_chars_trans :
    ∀ (x y z : List Char), sample_collate_chars x y ≤ 0 → sample_collate_chars y z ≤ 0 →
      sample_collate_chars x z ≤ 0 := by
  intro x
  induction x with
  | nil => intro y z _ _; cases z <;> simp [sample_collate_chars]
  | cons a as ih =>
    intro y z hxy hyz
    cases y with
    | nil => simp [sample_collate_chars] at hxy
    | cons b bs =>
      cases z with
      | nil => simp [sample_collate_chars] at hyz
      | cons c cs =>
        simp only [sample_collate_chars] at hxy hyz ⊢
        have h1 : a.toNat ≤ b.toNat := by
          by_contra hcon
          have hlt : b.toNat < a.toNat := lt_of_not_ge hcon
          simp [hlt, not_lt_of_gt hlt] at hxy
        have h2 : b.toNat ≤ c.toNat := by
          by_contra hcon
          have hlt : c.toNat < b.toNat := lt_of_not_ge hcon
          simp [hlt, not_lt_of_gt hlt] at hyz
        by_cases h3 : a.toNat < c.toNat
        · simp [h3]
        · have e1 : a.toNat = b.toNat := by omega
          have e2 : b.toNat = c.toNat := by omega
          have e3 : a.toNat = c.toNat := by omega
          simp only [e1, e2, e3, lt_self_iff_false, if_false] at hxy hyz ⊢
          exact ih bs cs hxy hyz

theorem sample_collation_total_preorder : sample_env.collation_total_preorder :=
  ⟨fun _ _ => sample_collate_chars_sign _ _, fun _ _ _ => sample_collate_chars_trans _ _ _⟩

/-- C21, witness: in the five-group sample the groups "ab" and "aa" have one
instance each, both dated 10, so their comparison is the collation of the two
names; likewise for "ab" and "d". -/
theorem transaction_sort_tie_break_witness :
    (_transaction_sort_func sample_env
        (gsslrtma_populate_tree_store sample_env sample_five_groups []) ⟨[], 0⟩ ⟨[], 1⟩
          = some (sample_collate (some "ab") (some "aa"))
      ∧ (_transaction_sort_func sample_env
          (gsslrtma_populate_tree_store sample_env sample_five_groups []) ⟨[], 0⟩ ⟨[], 1⟩ = some 0
          ↔ sample_collate (some "ab") (some "aa") = 0))
    ∧ _transaction_sort_func sample_env
        (gsslrtma_populate_tree_store sample_env sample_five_groups []) ⟨[], 0⟩ ⟨[], 3⟩
          = some (sample_collate (some "ab") (some "d")) :=
  ⟨(transaction_sort_tie_break sample_env).1
      (gsslrtma_populate_tree_store sample_env sample_five_groups []) ⟨[], 0⟩ ⟨[], 1⟩
      _ _ _ _ rfl rfl rfl rfl rfl rfl,
    (transaction_sort_tie_break sample_env).2 sample_five_groups [] 0 3 _ _ _ _
      rfl rfl rfl rfl rfl⟩

/-- C22, witness: the code-point collation of the sample is a total preorder; in
the five-group sample, where three groups have their instance on the same date,
"aa" does not come after "ab", "ab" does not come after "d", and "aa" does not
come after "d". -/
theorem transaction_sort_total_preorder_witness :
    sample_env.collation_total_preorder
    ∧ ∃ ab ba bc ac : Int,
      _transaction_sort_func sample_env
          (gsslrtma_populate_tree_store sample_env sample_five_groups []) ⟨[], 1⟩ ⟨[], 0⟩ = some ab
      ∧ _transaction_sort_func sample_env
          (gsslrtma_populate_tree_store sample_env sample_five_groups []) ⟨[], 0⟩ ⟨[], 1⟩ = some ba
      ∧ _transaction_sort_func sample_env
          (gsslrtma_populate_tree_store sample_env sample_five_groups []) ⟨[], 0⟩ ⟨[], 3⟩ = some bc
      ∧ _transaction_sort_func sample_env
          (gsslrtma_populate_tree_store sample_env sample_five_groups []) ⟨[], 1⟩ ⟨[], 3⟩ = some ac
      ∧ Int.sign ab = - Int.sign ba
      ∧ ab ≤ 0 ∧ bc ≤ 0 ∧ ac ≤ 0 :=
  ⟨sample_collation_total_preorder,
    match transaction_sort_total_preorder sample_env sample_collation_total_preorder
      (gsslrtma_populate_tree_store sample_env sample_five_groups []) ⟨[], 1⟩ ⟨[], 0⟩ ⟨[], 3⟩
      _ _ _ rfl rfl rfl rfl rfl with
    | ⟨ab, ba, bc, ac, h1, h2, h3, h4, hs, ht⟩ =>
      have hab : ab ≤ 0 := by
        have e : (some ab : Option Int) = some (-1) := h1.symm.trans (by decide)
        simp only [Option.some.injEq] at e
        omega
      have hbc : bc ≤ 0 := by
        have e : (some bc : Option Int) = some (-1) := h3.symm.trans (by decide)
        simp only [Option.some.injEq] at e
        omega
      ⟨ab, ba, bc, ac, h1, h2, h3, h4, hs, hab, hbc, ht hab hbc⟩⟩

/-- The results of the comparison "by occurrence" for every pair of rows of the
five-group sample: the order is "aa", "ab", "d" (date 10), "b" (date 20), "c"
(first date 30). -/
theorem transaction_sort_five_groups :
    (List.range 5).map (fun i => (List.range 5).map (fun j =>
        _transaction_sort_func sample_env
          (gsslrtma_populate_tree_store sample_env sample_five_groups []) ⟨[], i⟩ ⟨[], j⟩))
      = [ [some 0, some 1, some (-1), some (-1), some (-1)],
          [some (-1), some 0, some (-1), some (-1), some (-1)],
          [some 1, some 1, some 0, some 1, some 1],
          [some 1, some 1, some (-1), some 0, some (-1)],
          [some 1, some 1, some (-1), some 1, some 0] ] := by
  decide

/-- C23, counterexample: in the five-group sample the earliest date below the row
of "c" is 5 and the earliest date below the row of "b" is 20, but the row of "c",
whose first child is dated 30, is placed after the row of "b". -/
theorem transaction_sort_first_child_example :
    (rowAt (gsslrtma_populate_tree_store sample_env sample_five_groups []) ⟨[], 2⟩).bind
        earliest_child_date = some 5
    ∧ (rowAt (gsslrtma_populate_tree_store sample_env sample_five_groups []) ⟨[], 4⟩).bind
        earliest_child_date = some 20
    ∧ _transaction_sort_func sample_env
        (gsslrtma_populate_tree_store sample_env sample_five_groups []) ⟨[], 2⟩ ⟨[], 4⟩ = some 1 := by
  decide

/-- C23, witness: the first children of the rows of "c" and "b" are dated 30 and
20, so the result for them is 1. -/
theorem transaction_sort_law_witness :
    _transaction_sort_func sample_env
      (gsslrtma_populate_tree_store sample_env sample_five_groups []) ⟨[], 2⟩ ⟨[], 4⟩ = some 1 :=
  ((transaction_sort_law sample_env
      (gsslrtma_populate_tree_store sample_env sample_five_groups []) ⟨[], 2⟩ ⟨[], 4⟩ _ _
      rfl rfl rfl).2.2.1 30 20 rfl rfl).2.1 (by decide)

/-- C24, witness: the first children of the rows of "ab" and "aa" have the labels
"To-Create" and "Reminder", which do not collate equal, so the result is their
collation. -/
theorem status_sort_law_witness :
    _status_sort_func sample_env
      (gsslrtma_populate_tree_store sample_env sample_five_groups []) ⟨[], 0⟩ ⟨[], 1⟩
        = some (sample_collate (some "To-Create") (some "Reminder")) :=
  ((status_sort_law sample_env
      (gsslrtma_populate_tree_store sample_env sample_five_groups []) ⟨[], 0⟩ ⟨[], 1⟩ _ _
      rfl rfl rfl).2.2.1 (some "To-Create") (some "Reminder") rfl rfl).1 (by decide)

theorem stringjoin_toList (sep : String) :
    ∀ (list : List String),
      (gnc_g_list_stringjoin list sep).toList = List.intercalate sep.toList (list.map String.toList) := by
  intro list
  induction list with
  | nil => simp [gnc_g_list_stringjoin, List.intercalate]
  | cons s rest ih =>
    cases rest with
    | nil => simp [gnc_g_list_stringjoin, List.intercalate]
    | cons t rest2 =>
      simp only [gnc_g_list_stringjoin, String.toList, String.data_append] at ih ⊢
      rw [ih]
      simp [List.intercalate, List.intersperse]

theorem stringjoin_contains (sep : String) :
    ∀ (list : List String) (e : String), e ∈ list →
      ∃ before after, gnc_g_list_stringjoin list sep = before ++ e ++ after := by
  intro list
  induction list with
  | nil => intro e he; simp at he
  | cons s rest ih =>
    intro e he
    cases rest with
    | nil =>
      simp only [List.mem_singleton] at he
      subst he
      exact ⟨"", "", by simp [gnc_g_list_stringjoin]⟩
    | cons t rest2 =>
      rcases List.mem_cons.mp he with h | h
      · subst h
        exact ⟨"", sep ++ gnc_g_list_stringjoin (t :: rest2) sep,
          by simp [gnc_g_list_stringjoin, String.append_assoc]⟩
      · obtain ⟨pre, post, hj⟩ := ih e h
        exact ⟨s ++ sep ++ pre, post, by
          simp only [gnc_g_list_stringjoin, hj, String.append_assoc]⟩

/-- C25. Creation errors are aggregated without loss.  For the empty list
`gnc_ui_sx_creation_error_dialog` shows nothing.  For a list that is not empty it
shows one report, whose text consists of the messages of the list, in order,
with a line break between each two of them; every message of the list is a part
of that text.  After the response OK with no unbound variable, the reports the
dialog has shown are those shown before followed by that one report for the
errors of the materialization, if there are any. -/
theorem creation_errors_report (E : Env) (prim : Primitive) :
    gnc_ui_sx_creation_error_dialog [] = none
    ∧ (∀ creation_errors : List String, creation_errors ≠ [] →
        ∃ message, gnc_ui_sx_creation_error_dialog creation_errors = some message
          ∧ message = gnc_g_list_stringjoin creation_errors "\n"
          ∧ message.toList
              = List.intercalate ['\n'] (creation_errors.map String.toList)
          ∧ ∀ e ∈ creation_errors, ∃ before after, message = before ++ e ++ after)
    ∧ (∀ app_dialog : GncSxSinceLastRunDialog,
        gnc_sx_instance_model_check_variables app_dialog.editing_model.instances = [] →
        ∃ d, dialog_response_cb E prim GTK_RESPONSE_OK app_dialog = Outcome.ret d
          ∧ d.error_reports = app_dialog.error_reports ++
              (gnc_ui_sx_creation_error_dialog
                (gnc_sx_slr_model_effect_change E prim app_dialog.editing_model false
                  app_dialog.created_txns []).creation_errors).toList) := by
  refine ⟨rfl, ?_, ?_⟩
  · intro creation_errors hne
    cases hk : creation_errors with
    | nil => exact absurd hk hne
    | cons s rest =>
      refine ⟨_, rfl, rfl, ?_, ?_⟩
      · exact stringjoin_toList "\n" (s :: rest)
      · intro e he
        exact stringjoin_contains "\n" (s :: rest) e he
  · intro app_dialog hcheck
    simp only [dialog_response_cb, hcheck]
    cases gnc_ui_sx_creation_error_dialog
        (gnc_sx_slr_model_effect_change E prim app_dialog.editing_model false
          app_dialog.created_txns []).creation_errors with
    | none =>
      refine ⟨_, rfl, ?_⟩
      simp only [dialog_close]
      split <;> simp
    | some message =>
      refine ⟨_, rfl, ?_⟩
      simp only [dialog_close]
      split <;> simp

/-- C25, witness: the report for two messages, and the report shown after the
response OK for the three-instance sample with the ledger in which the second
creation fails. -/
theorem creation_errors_report_witness :
    (∃ message, gnc_ui_sx_creation_error_dialog ["first", "second"] = some message
      ∧ message = gnc_g_list_stringjoin ["first", "second"] "\n"
      ∧ message.toList = List.intercalate ['\n'] (["first", "second"].map String.toList)
      ∧ ∃ before after, message = before ++ "second" ++ after)
    ∧ ∃ d, dialog_response_cb sample_env (gnc_sx_instance_model_effect_change sample_ledger)
          GTK_RESPONSE_OK (gnc_ui_sx_since_last_run_dialog sample_env sample_three_to_create [])
        = Outcome.ret d
      ∧ d.error_reports = ["instance 2: unbalanced"] :=
  ⟨match (creation_errors_report sample_env
        (gnc_sx_instance_model_effect_change sample_ledger)).2.1
        ["first", "second"] (by simp) with
    | ⟨message, h1, h2, h3, h4⟩ => ⟨message, h1, h2, h3, h4 "second" (by simp)⟩,
    match (creation_errors_report sample_env
        (gnc_sx_instance_model_effect_change sample_ledger)).2.2
        (gnc_ui_sx_since_last_run_dialog sample_env sample_three_to_create []) (by decide) with
    | ⟨d, h1, h2⟩ => ⟨d, h1, h2.trans (by decide)⟩⟩

theorem rebuildFrom_eq_map {ι : Type} (col : ι → Cols) (f : ι → List Row → List Row)
    (g : ι → List Row) :
    ∀ (xs : List ι) (w : Nat) (old : List Row),
      (∀ x, x ∈ xs → ∀ k, f x (kidsOf old k) = g x) →
      rebuildFrom col f w xs old = xs.map (fun x => Row.mk (col x) (g x)) := by
  intro xs
  induction xs with
  | nil => intros; rfl
  | cons x xs ih =>
    intro w old h
    simp only [rebuildFrom, List.map_cons]
    rw [h x (List.mem_cons_self _ _) w, ih (w + 1) old (fun y hy => h y (List.mem_cons_of_mem _ hy))]

theorem kidsOf_nil (k : Nat) : kidsOf [] k = [] := by simp [kidsOf]

theorem kidsOf_three_levels (real : GtkTreeStore) (h : three_levels real) (a b c : Nat) :
    kidsOf (kidsOf (kidsOf real a) b) c = [] := by
  unfold kidsOf
  cases h1 : real[a]? with
  | none => simp
  | some r1 =>
    simp only []
    cases h2 : r1.children[b]? with
    | none => simp
    | some r2 =>
      simp only []
      cases h3 : r2.children[c]? with
      | none => rfl
      | some r3 =>
        simp only []
        exact h [a, b, c] r3.children rfl (by simp [childrenAt, h1, h2, h3])

theorem sx_rows_fresh (E : Env) (m : GncSxInstanceModel) (real : GtkTreeStore)
    (h : three_levels real) : sx_rows E m real = fresh_rows E m := by
  unfold sx_rows fresh_rows
  apply rebuildFrom_eq_map
  intro g _ a
  unfold inst_rows
  apply rebuildFrom_eq_map
  intro inst _ b
  unfold var_rows
  apply rebuildFrom_eq_map
  intro v _ c
  exact kidsOf_three_levels real h a b c

theorem three_levels_nil : three_levels [] := by
  intro p cs hp hc
  cases p with
  | nil => simp at hp
  | cons i p => simp [childrenAt] at hc

theorem three_levels_fresh (E : Env) (m : GncSxInstanceModel) : three_levels (fresh_rows E m) := by
  intro p cs hp hc
  match p, hp with
  | [a, b, c], _ =>
    simp only [childrenAt, fresh_rows, List.getElem?_map] at hc
    cases h1 : (nonempty_groups m)[a]? with
    | none => simp [h1] at hc
    | some g =>
      simp only [h1, Option.map_some', Row.children, List.getElem?_map] at hc
      cases h2 : g.instance_list[b]? with
      | none => simp [h2] at hc
      | some inst =>
        simp only [h2, Option.map_some', Row.children, List.getElem?_map] at hc
        cases h3 : ((gnc_sx_instance_get_variables inst).filter (fun v => v.editable))[c]? with
        | none => simp [h3] at hc
        | some v =>
          simp only [h3, Option.map_some', Row.children] at hc
          exact (Option.some.inj hc).symm

theorem populate_three_levels (E : Env) (m : GncSxInstanceModel) (real : GtkTreeStore)
    (h : three_levels real) : three_levels (gsslrtma_populate_tree_store E m real) := by
  rw [populate_eq, sx_rows_fresh E m real h]
  exact three_levels_fresh E m

theorem three_levels_history (E : Env) :
    ∀ (history : List GncSxInstanceModel) (real : GtkTreeStore), three_levels real →
      three_levels (history.foldl (fun s C => gsslrtma_populate_tree_store E C s) real) := by
  intro history
  induction history with
  | nil => intro real h; exact h
  | cons C rest ih =>
    intro real h
    exact ih _ (populate_three_levels E C real h)

theorem populate_fresh (E : Env) (m : GncSxInstanceModel) (real : GtkTreeStore)
    (h : three_levels real) : gsslrtma_populate_tree_store E m real = fresh_rows E m := by
  rw [populate_eq, sx_rows_fresh E m real h]

theorem fresh_row_kind (E : Env) (m : GncSxInstanceModel) (it : GtkTreeIter) (r : Row)
    (hrow : rowAt (fresh_rows E m) it = some r) :
    (it.parent.length = 0 ∧ ∃ g, r.cols = sx_cols g)
    ∨ (it.parent.length = 1 ∧ ∃ inst, r.cols = inst_cols E inst)
    ∨ (it.parent.length = 2 ∧ ∃ v, r.cols = var_cols E v) := by
  unfold rowAt at hrow
  match hp : it.parent with
  | [] =>
    left
    simp only [hp, childrenAt, fresh_rows, List.getElem?_map] at hrow
    cases h1 : (nonempty_groups m)[it.index]? with
    | none => simp [h1] at hrow
    | some g =>
      simp only [h1, Option.map_some', Option.some.injEq] at hrow
      exact ⟨rfl, g, by rw [← hrow]; rfl⟩
  | [a] =>
    right; left
    simp only [hp, childrenAt, fresh_rows, List.getElem?_map] at hrow
    cases h1 : (nonempty_groups m)[a]? with
    | none => simp [h1] at hrow
    | some g =>
      simp only [h1, Option.map_some', Row.children, List.getElem?_map] at hrow
      cases h2 : g.instance_list[it.index]? with
      | none => simp [h2] at hrow
      | some inst =>
        simp only [h2, Option.map_some', Option.some.injEq] at hrow
        exact ⟨rfl, inst, by rw [← hrow]; rfl⟩
  | [a, b] =>
    right; right
    simp only [hp, childrenAt, fresh_rows, List.getElem?_map] at hrow
    cases h1 : (nonempty_groups m)[a]? with
    | none => simp [h1] at hrow
    | some g =>
      simp only [h1, Option.map_some', Row.children, List.getElem?_map] at hrow
      cases h2 : g.instance_list[b]? with
      | none => simp [h2] at hrow
      | some inst =>
        simp only [h2, Option.map_some', Row.children, List.getElem?_map] at hrow
        cases h3 : ((gnc_sx_instance_get_variables inst).filter (fun v => v.editable))[it.index]? with
        | none => simp [h3] at hrow
        | some v =>
          simp only [h3, Option.map_some', Option.some.injEq] at hrow
          exact ⟨rfl, v, by rw [← hrow]; rfl⟩
  | a :: b :: c :: rest =>
    exfalso
    rw [hp] at hrow
    cases hc : childrenAt (fresh_rows E m) (a :: b :: c :: rest) with
    | none => simp [hc] at hrow
    | some cs =>
      have hcs : cs = [] := by
        cases rest with
        | nil => exact three_levels_fresh E m [a, b, c] cs rfl hc
        | cons d rest2 =>
          have h3 := three_levels_fresh E m [a, b, c]
          simp only [childrenAt] at hc h3
          cases h1 : (fresh_rows E m)[a]? with
          | none => simp [h1] at hc
          | some r1 =>
            simp only [h1] at hc h3
            cases h2 : r1.children[b]? with
            | none => simp [h2] at hc
            | some r2 =>
              simp only [h2] at hc h3
              cases h4 : r2.children[c]? with
              | none => simp [h4] at hc
              | some r3 =>
                simp only [h4] at hc h3
                have := h3 r3.children rfl rfl
                simp [this] at hc
      simp [hc, hcs] at hrow

/-- C26. Node kind is determined by depth.  In the store of an adapter (three
levels of rows) after a refresh, every row is at depth 1, 2 or 3 of its path: a
group row, an instance row or a variable row.  The instance-visibility flag of a
row is set if and only if it is an instance row, the variable-visibility flag if
and only if it is a variable row (a group row has neither); a row has a state
label if and only if it is an instance row, and a value if and only if it is a
variable row. -/
theorem node_kind_by_depth (E : Env) (m : GncSxInstanceModel) (real : GtkTreeStore)
    (hreal : three_levels real) (it : GtkTreeIter) (r : Row)
    (hrow : rowAt (gsslrtma_populate_tree_store E m real) it = some r) :
    (it.path.length = 1 ∨ it.path.length = 2 ∨ it.path.length = 3)
    ∧ (r.cols.instance_visibility = true ↔ it.path.length = 2)
    ∧ (r.cols.variable_visibility = true ↔ it.path.length = 3)
    ∧ (r.cols.instance_state.isSome = true ↔ it.path.length = 2)
    ∧ (r.cols.variable_value.isSome = true ↔ it.path.length = 3) := by
  rw [populate_fresh E m real hreal] at hrow
  rw [length_path]
  rcases fresh_row_kind E m it r hrow with ⟨hd, g, hg⟩ | ⟨hd, inst, hi⟩ | ⟨hd, v, hv⟩
  · simp [hd, hg, sx_cols]
  · simp [hd, hi, inst_cols]
  · simp [hd, hv, var_cols]

/-- C26, witness: an instance row and a variable row of the three-group sample,
refreshed into an empty store. -/
theorem node_kind_by_depth_witness :
    three_levels []
    ∧ (((some "To-Create" : Option String).isSome = true ↔ (⟨[1], 0⟩ : GtkTreeIter).path.length = 2)
      ∧ ((some "(Need Value)" : Option String).isSome = true
          ↔ (⟨[1, 0], 1⟩ : GtkTreeIter).path.length = 3)) :=
  ⟨three_levels_nil,
    (node_kind_by_depth sample_env sample_three_groups [] three_levels_nil ⟨[1], 0⟩ _ rfl).2.2.2.1,
    (node_kind_by_depth sample_env sample_three_groups [] three_levels_nil ⟨[1, 0], 1⟩ _
      rfl).2.2.2.2⟩

/-- C27. Reuse-in-place plus trim equals a full rebuild.  Refreshing, against a
collection `C1`, the store of a projection that was built from a collection `C0`
(or by any sequence of refreshes of an empty store) gives exactly the rows that
building a projection from `C1` into an empty store gives: one row per group of
`C1` that has an instance, one child row per instance, one grandchild row per
editable variable, with the columns of `C1`, and nothing else. -/
theorem refresh_equals_rebuild (E : Env) :
    (∀ C0 C1 : GncSxInstanceModel,
      gsslrtma_populate_tree_store E C1 (gsslrtma_populate_tree_store E C0 [])
        = gsslrtma_populate_tree_store E C1 [])
    ∧ (∀ (history : List GncSxInstanceModel) (C1 : GncSxInstanceModel),
      gsslrtma_populate_tree_store E C1
          (history.foldl (fun real C => gsslrtma_populate_tree_store E C real) [])
        = gsslrtma_populate_tree_store E C1 [])
    ∧ (∀ C1 : GncSxInstanceModel, gsslrtma_populate_tree_store E C1 [] = fresh_rows E C1) := by
  refine ⟨?_, ?_, ?_⟩
  · intro C0 C1
    rw [populate_fresh E C1 _ (populate_three_levels E C0 [] three_levels_nil),
      populate_fresh E C1 [] three_levels_nil]
  · intro history C1
    rw [populate_fresh E C1 _ (three_levels_history E history [] three_levels_nil),
      populate_fresh E C1 [] three_levels_nil]
  · intro C1
    exact populate_fresh E C1 [] three_levels_nil

/-- C29. Lookups on projected rows never index a missing group.  After a refresh,
the first index of the path of every existing row at depth 2 or more (an instance
row or a variable row) is smaller than the number of groups of the collection;
the group `_gnc_sx_slr_model_get_instance` fetches with it exists, and the
function returns from its bounds check on the instance index, or past it. -/
theorem lookup_group_exists (E : Env) (model : GncSxSlrTreeModelAdapter)
    (real : GtkTreeStore) (iter : GtkTreeIter) (check_depth : Bool) (junk : Int)
    (hrow : (rowAt (gsslrtma_populate_tree_store E model.instances real) iter).isSome = true)
    (hdepth : 2 ≤ iter.path.length) :
    ∃ (i j : Nat) (instances : GncSxInstances),
      iter.path[0]? = some i ∧ iter.path[1]? = some j ∧ i < model.instances.length
      ∧ g_list_nth_data model.instances (path_index iter.path 0 junk) = some instances
      ∧ _gnc_sx_slr_model_get_instance model iter check_depth junk
          = (if (check_depth && iter.path.length != 2) ∨ j ≥ instances.instance_list.length
             then Outcome.ret none
             else Outcome.ret (some ⟨i, j⟩)) := by
  obtain ⟨i, hi, hlt⟩ := rowAt_first_index _ _ hrow
  have hlt2 : i < model.instances.length :=
    Nat.lt_of_lt_of_le hlt (populate_length_le E model.instances real)
  obtain ⟨g, hg⟩ : ∃ g, model.instances[i]? = some g :=
    ⟨model.instances[i], List.getElem?_eq_getElem hlt2⟩
  obtain ⟨j, hj⟩ : ∃ j, iter.path[1]? = some j :=
    ⟨iter.path[1], List.getElem?_eq_getElem (by omega)⟩
  have h0 : path_index iter.path 0 junk = (i : Int) := by simp [path_index, hi]
  have h1 : path_index iter.path 1 junk = (j : Int) := by simp [path_index, hj]
  have hnth : g_list_nth_data model.instances (i : Int) = some g := by
    simp [g_list_nth_data, hg]
  refine ⟨i, j, g, hi, hj, hlt2, by rw [h0]; exact hnth, ?_⟩
  unfold _gnc_sx_slr_model_get_instance
  simp only [h0, h1, hnth]
  by_cases hc : (check_depth && iter.path.length != 2) = true
  · simp [hc]
  · have hneg : ¬ ((j : Int) < 0) := by omega
    simp only [hc, if_false, false_or, Bool.false_eq_true, Int.toNat_ofNat, hneg, ge_iff_le,
      Nat.cast_le]

/-- C29, witness: the variable row [1, 0, 1] of the three-group sample. -/
theorem lookup_group_exists_witness :
    ∃ (i j : Nat) (instances : GncSxInstances),
      (⟨[1, 0], 1⟩ : GtkTreeIter).path[0]? = some i
      ∧ (⟨[1, 0], 1⟩ : GtkTreeIter).path[1]? = some j
      ∧ i < sample_three_groups.length
      ∧ g_list_nth_data sample_three_groups (path_index (⟨[1, 0], 1⟩ : GtkTreeIter).path 0 7)
          = some instances
      ∧ _gnc_sx_slr_model_get_instance
          (gnc_sx_slr_tree_model_adapter_new sample_env sample_three_groups) ⟨[1, 0], 1⟩ false 7
          = (if (false && (⟨[1, 0], 1⟩ : GtkTreeIter).path.length != 2)
                ∨ j ≥ instances.instance_list.length
             then Outcome.ret none
             else Outcome.ret (some ⟨i, j⟩)) :=
  lookup_group_exists sample_env
    (gnc_sx_slr_tree_model_adapter_new sample_env sample_three_groups) [] ⟨[1, 0], 1⟩ false 7
    (by decide) (by decide)

theorem variable_list_index_passed :
    ∀ (vars : List GncSxVariable) (target pos : Nat) (index : Int), target < pos →
      _variable_list_index vars target pos index = -1 := by
  intro vars
  induction vars with
  | nil => intros; rfl
  | cons v vs ih =>
    intro target pos index h
    simp only [_variable_list_index]
    have hne : target ≠ pos := by omega
    cases hv : v.editable with
    | false => simpa using ih target (pos + 1) index (by omega)
    | true => simpa [hne] using ih target (pos + 1) (index + 1) (by omega)

theorem variable_list_index_spec :
    ∀ (vars : List GncSxVariable) (q pos : Nat) (index : Int),
      _variable_list_index vars (pos + q) pos index
        = (match vars[q]? with
           | some v => if v.editable then index + (editable_index vars q : Int) else -1
           | none => -1) := by
  intro vars
  induction vars with
  | nil => intros; rfl
  | cons v vs ih =>
    intro q pos index
    cases q with
    | zero =>
      simp only [_variable_list_index, Nat.add_zero, List.getElem?_cons_zero, editable_index,
        List.take_zero, List.countP_nil]
      cases hv : v.editable with
      | false => simpa using variable_list_index_passed vs pos (pos + 1) index (by omega)
      | true => simp
    | succ q =>
      have hne : pos + (q + 1) ≠ pos := by omega
      have hrw : pos + (q + 1) = (pos + 1) + q := by omega
      simp only [_variable_list_index, List.getElem?_cons_succ, editable_index, List.take_succ_cons,
        List.countP_cons]
      cases hv : v.editable with
      | false =>
        simp only [Bool.not_false, if_true, hrw, ih q (pos + 1) index, editable_index]
        simp
      | true =>
        have hne2 : ¬ (pos + 1 + q = pos) := by omega
        simp only [Bool.not_true, hne2, if_false, hrw, ih q (pos + 1) (index + 1), editable_index,
          Bool.false_eq_true, if_true]
        cases hq : vs[q]? with
        | none => rfl
        | some w =>
          simp only []
          cases hw : w.editable with
          | false => simp
          | true => simp only [if_true]; push_cast; ring

theorem select_variable_editable_index :
    ∀ (vars : List GncSxVariable) (q pos : Nat) (v : GncSxVariable),
      vars[q]? = some v → v.editable = true →
      select_variable vars (editable_index vars q : Int) pos = some (pos + q) := by
  intro vars
  induction vars with
  | nil => intro q pos v h; simp at h
  | cons w ws ih =>
    intro q pos v h hv
    cases q with
    | zero =>
      simp only [List.getElem?_cons_zero, Option.some.injEq] at h
      subst h
      simp [select_variable, editable_index, hv]
    | succ q =>
      simp only [List.getElem?_cons_succ] at h
      have := ih q (pos + 1) v h hv
      simp only [select_variable, editable_index, List.take_succ_cons, List.countP_cons]
      cases hw : w.editable with
      | false =>
        simp only [Bool.not_false, if_true, Bool.false_eq_true, if_false, Nat.add_zero]
        rw [show pos + (q + 1) = pos + 1 + q by omega]
        exact this
      | true =>
        simp only [Bool.not_true, Bool.false_eq_true, if_false, if_true]
        have hne : ¬ (((List.countP (fun v => v.editable) (List.take q ws) + 1 : Nat) : Int) = 0) := by
          omega
        simp only [hne, if_false]
        rw [show pos + (q + 1) = pos + 1 + q by omega]
        have hc : ((List.countP (fun v => v.editable) (List.take q ws) + 1 : Nat) : Int) - 1
            = (editable_index ws q : Int) := by
          simp [editable_index]
        rw [hc]
        exact this

theorem editable_index_le (vars : List GncSxVariable) (q : Nat) : editable_index vars q ≤ q := by
  unfold editable_index
  exact le_trans (List.countP_le_length _) (by simp)

/-- C28. Path construction and variable lookup are inverse.  For an instance of the
collection and an editable variable of it (at position `target` of its list of
variables), the child path `_get_path_for_variable` hands to the sort proxy is
`[g, i, k]`, with `g` the position of the group, `i` the position of the instance
in the group and `k` the index of the variable among the editable variables; and
`gnc_sx_slr_model_get_instance_and_variable` resolves that path to this instance
and this variable.  When the variable is not editable, or the instance has no
variable at that position, `_variable_list_index` returns -1 and
`_get_path_for_variable` returns no path. -/
theorem path_lookup_inverse (E : Env) (app_dialog : GncSxSinceLastRunDialog)
    (inst : GncSxInstancePtr) (i : GncSxInstance) (target : Nat) (junk : Int)
    (hi : inst.deref app_dialog.editing_model.instances = some i) :
    (∀ v, (gnc_sx_instance_get_variables i)[target]? = some v → v.editable = true →
      _get_path_for_variable E app_dialog inst target
          = E.convert_child_path_to_path
              [inst.sx_index, inst.instance_index,
               editable_index (gnc_sx_instance_get_variables i) target]
        ∧ gnc_sx_slr_model_get_instance_and_variable app_dialog.editing_model
            ⟨[inst.sx_index, inst.instance_index],
              editable_index (gnc_sx_instance_get_variables i) target⟩ junk
          = Outcome.ret (some (inst, some target)))
    ∧ ((∀ v, (gnc_sx_instance_get_variables i)[target]? = some v → v.editable = false) →
        _variable_list_index (gnc_sx_instance_get_variables i) target 0 0 = -1
        ∧ _get_path_for_variable E app_dialog inst target = none) := by
  have hspec := variable_list_index_spec (gnc_sx_instance_get_variables i) target 0 0
  simp only [Nat.zero_add, Int.zero_add] at hspec
  obtain ⟨g, hg, hgi⟩ : ∃ g, app_dialog.editing_model.instances[inst.sx_index]? = some g
      ∧ g.instance_list[inst.instance_index]? = some i := by
    unfold GncSxInstancePtr.deref at hi
    cases hg : app_dialog.editing_model.instances[inst.sx_index]? with
    | none => simp [hg] at hi
    | some g => exact ⟨g, rfl, by simpa [hg] using hi⟩
  refine ⟨?_, ?_⟩
  · intro v hv hed
    have hidx : _variable_list_index (gnc_sx_instance_get_variables i) target 0 0
        = (editable_index (gnc_sx_instance_get_variables i) target : Int) := by
      rw [hspec, hv]
      simp [hed]
    refine ⟨?_, ?_⟩
    · unfold _get_path_for_variable
      simp only [hg, hgi, hidx]
      have hne : ¬ ((editable_index (gnc_sx_instance_get_variables i) target : Int) = -1) := by
        omega
      simp only [hne, if_false, Int.toNat_ofNat]
    · have hlen : target < (gnc_sx_instance_get_variables i).length := by
        by_contra hcon
        rw [List.getElem?_eq_none (by omega)] at hv
        exact absurd hv (by simp)
      have hle := editable_index_le (gnc_sx_instance_get_variables i) target
      have hil : inst.instance_index < g.instance_list.length := by
        by_contra hcon
        rw [List.getElem?_eq_none (by omega)] at hgi
        exact absurd hgi (by simp)
      have hsel := select_variable_editable_index (gnc_sx_instance_get_variables i) target 0 v hv hed
      simp only [Nat.zero_add] at hsel
      unfold gnc_sx_slr_model_get_instance_and_variable _gnc_sx_slr_model_get_instance
      have hnth : g_list_nth_data app_dialog.editing_model.instances (inst.sx_index : Int)
          = some g := by
        simp [g_list_nth_data, hg]
      have hb1 : ¬ ((inst.instance_index : Int) < 0
          ∨ (inst.instance_index : Int) ≥ (g.instance_list.length : Int)) := by omega
      have hb2 : ¬ ((editable_index (gnc_sx_instance_get_variables i) target : Int) < 0
          ∨ (editable_index (gnc_sx_instance_get_variables i) target : Int)
              ≥ ((gnc_sx_instance_get_variables i).length : Int)) := by omega
      simp only [GtkTreeIter.path, List.cons_append, List.nil_append, path_index,
        List.getElem?_cons_zero, List.getElem?_cons_succ, Bool.false_and, Bool.false_eq_true,
        if_false, hnth, hb1, Int.toNat_ofNat, hi, List.length_cons, List.length_nil, hb2, hsel]
      simp

  · intro hno
    have hidx : _variable_list_index (gnc_sx_instance_get_variables i) target 0 0 = -1 := by
      rw [hspec]
      cases hv : (gnc_sx_instance_get_variables i)[target]? with
      | none => rfl
      | some v => simp [hno v hv]
    refine ⟨hidx, ?_⟩
    unfold _get_path_for_variable
    simp only [hg, hgi, hidx, if_true]

/-- C28, witness: in the three-group sample the instance at (1, 0) has the
variables "n" (not editable) and "e" (editable): the path for "e" is [1, 0, 0]
and resolves to it; there is no path for "n". -/
theorem path_lookup_inverse_witness :
    _get_path_for_variable sample_env
        (gnc_ui_sx_since_last_run_dialog sample_env sample_three_groups []) ⟨1, 0⟩ 1
      = sample_env.convert_child_path_to_path [1, 0, 0]
    ∧ gnc_sx_slr_model_get_instance_and_variable
        (gnc_sx_slr_tree_model_adapter_new sample_env sample_three_groups) ⟨[1, 0], 0⟩ 7
      = Outcome.ret (some (⟨1, 0⟩, some 1))
    ∧ _variable_list_index
        [ { name := "n", value := gnc_numeric.number 1, editable := false },
          { name := "e", value := gnc_numeric.number 7, editable := true } ] 0 0 0 = -1
    ∧ _get_path_for_variable sample_env
        (gnc_ui_sx_since_last_run_dialog sample_env sample_three_groups []) ⟨1, 0⟩ 0 = none :=
  ⟨((path_lookup_inverse sample_env
        (gnc_ui_sx_since_last_run_dialog sample_env sample_three_groups []) ⟨1, 0⟩ _ 1 7 rfl).1
        _ rfl rfl).1,
    ((path_lookup_inverse sample_env
        (gnc_ui_sx_since_last_run_dialog sample_env sample_three_groups []) ⟨1, 0⟩ _ 1 7 rfl).1
        _ rfl rfl).2,
    (path_lookup_inverse sample_env
        (gnc_ui_sx_since_last_run_dialog sample_env sample_three_groups []) ⟨1, 0⟩ _ 0 7 rfl).2
        (fun v hv => by cases hv; rfl)⟩

theorem cache_entries_insert (c : Option GHashTable) (key : String) (hk : key ≠ "") :
    cache_entries (qof_string_cache_insert c (some key)).1
      = g_hash_table_insert (cache_entries c) key
          (match cache_entries c key with
           | some refcount => (refcount + 1) % GUINT_RANGE
           | none => 1) := by
  unfold qof_string_cache_insert
  simp only [hk, if_false]
  cases c with
  | none => rfl
  | some cache =>
    simp only [qof_get_string_cache, cache_entries]
    cases cache key <;> rfl

theorem cache_entries_remove (c : Option GHashTable) (key : String) (hk : key ≠ "") :
    cache_entries (qof_string_cache_remove c (some key))
      = (match cache_entries c key with
         | some refcount =>
           if refcount = 1 then g_hash_table_remove (cache_entries c) key
           else g_hash_table_insert (cache_entries c) key
             ((refcount + (GUINT_RANGE - 1)) % GUINT_RANGE)
         | none => cache_entries c) := by
  unfold qof_string_cache_remove
  simp only [hk, if_false]
  cases c with
  | none => rfl
  | some cache =>
    simp only [qof_get_string_cache, cache_entries]
    cases h : cache key with
    | none => rfl
    | some r =>
      simp only []
      by_cases hr : r = 1 <;> simp [hr]

theorem insert_times_key (key : String) (hk : key ≠ "") :
    ∀ (n : Nat) (c : Option GHashTable) (r : Nat), cache_entries c key = some r →
      r < GUINT_RANGE →
      cache_entries (insert_times key n c) key = some ((r + n) % GUINT_RANGE) := by
  intro n
  induction n with
  | zero =>
    intro c r hr hlt
    simp only [insert_times, Nat.add_zero, Nat.mod_eq_of_lt hlt, hr]
  | succ n ih =>
    intro c r hr hlt
    have hstep := cache_entries_insert c key hk
    simp only [hr] at hstep
    have hr2 : cache_entries (qof_string_cache_insert c (some key)).1 key
        = some ((r + 1) % GUINT_RANGE) := by
      rw [hstep]; simp [g_hash_table_insert]
    simp only [insert_times]
    rw [ih _ _ hr2 (Nat.mod_lt _ (by decide))]
    congr 1
    simp only [GUINT_RANGE]
    omega

theorem insert_times_absent (key : String) (hk : key ≠ "") (n : Nat) (hn : 1 ≤ n)
    (c : Option GHashTable) (hc : cache_entries c key = none) :
    cache_entries (insert_times key n c) key = some (n % GUINT_RANGE) := by
  obtain ⟨m, rfl⟩ : ∃ m, n = m + 1 := ⟨n - 1, by omega⟩
  have hstep := cache_entries_insert c key hk
  simp only [hc] at hstep
  have hr2 : cache_entries (qof_string_cache_insert c (some key)).1 key = some 1 := by
    rw [hstep]; simp [g_hash_table_insert]
  simp only [insert_times]
  rw [insert_times_key key hk m _ 1 hr2 (by decide)]
  congr 1
  simp only [GUINT_RANGE]
  omega

theorem insert_times_other (key : String) (hk : key ≠ "") (k : String) (hne : k ≠ key) :
    ∀ (n : Nat) (c : Option GHashTable),
      cache_entries (insert_times key n c) k = cache_entries c k := by
  intro n
  induction n with
  | zero => intro c; rfl
  | succ n ih =>
    intro c
    simp only [insert_times]
    rw [ih, cache_entries_insert c key hk]
    simp [g_hash_table_insert, hne]

theorem remove_times_key (key : String) (hk : key ≠ "") :
    ∀ (j : Nat) (c : Option GHashTable) (r : Nat), cache_entries c key = some r →
      1 ≤ r → r < GUINT_RANGE → j ≤ r →
      cache_entries (remove_times key j c) key = (if j < r then some (r - j) else none) := by
  intro j
  induction j with
  | zero =>
    intro c r hr h1 _ _
    simp only [remove_times, hr, Nat.sub_zero]
    rw [if_pos (by omega)]
  | succ j ih =>
    intro c r hr h1 hlt hj
    have hstep := cache_entries_remove c key hk
    simp only [hr] at hstep
    simp only [remove_times]
    by_cases hone : r = 1
    · subst hone
      have hj0 : j = 0 := by omega
      subst hj0
      simp only [remove_times, if_true] at hstep ⊢
      rw [hstep]
      simp [g_hash_table_remove]
    · simp only [hone, if_false] at hstep
      have hdec : (r + (GUINT_RANGE - 1)) % GUINT_RANGE = r - 1 := by
        simp only [GUINT_RANGE] at hlt ⊢
        omega
      have hr2 : cache_entries (qof_string_cache_remove c (some key)) key = some (r - 1) := by
        rw [hstep]; simp [g_hash_table_insert, hdec]
      rw [ih _ (r - 1) hr2 (by omega) (by omega) (by omega)]
      by_cases hjr : j + 1 < r
      · rw [if_pos (by omega), if_pos hjr]
        exact congrArg some (by omega)
      · rw [if_neg (by omega), if_neg hjr]

theorem remove_times_other (key : String) (hk : key ≠ "") (k : String) (hne : k ≠ key) :
    ∀ (n : Nat) (c : Option GHashTable),
      cache_entries (remove_times key n c) k = cache_entries c k := by
  intro n
  induction n with
  | zero => intro c; rfl
  | succ n ih =>
    intro c
    simp only [remove_times]
    rw [ih, cache_entries_remove c key hk]
    cases h : cache_entries c key with
    | none => rfl
    | some r =>
      simp only []
      by_cases hr : r = 1 <;> simp [hr, g_hash_table_remove, g_hash_table_insert, hne]

theorem insert_remove_entries (c : Option GHashTable) (key : String) (hk : key ≠ "")
    (hr : ∀ r, cache_entries c key = some r → 1 ≤ r ∧ r < GUINT_RANGE) :
    cache_entries (qof_string_cache_remove (qof_string_cache_insert c (some key)).1 (some key))
      = cache_entries c := by
  rw [cache_entries_remove _ key hk, cache_entries_insert c key hk]
  cases h : cache_entries c key with
  | none =>
    funext k
    by_cases hkk : k = key
    · simp [g_hash_table_insert, g_hash_table_remove, hkk, h]
    · simp [g_hash_table_insert, g_hash_table_remove, hkk]
  | some r =>
    obtain ⟨h1, h2⟩ := hr r h
    have hne : (r + 1) % GUINT_RANGE ≠ 1 := by
      simp only [GUINT_RANGE] at h2 ⊢
      omega
    have hback : ((r + 1) % GUINT_RANGE + (GUINT_RANGE - 1)) % GUINT_RANGE = r := by
      simp only [GUINT_RANGE] at h2 ⊢
      omega
    funext k
    by_cases hkk : k = key
    · simp [g_hash_table_insert, hkk, hne, hback, h]
    · simp [g_hash_table_insert, hkk, hne]

/-- C30, amended. Reference counting of the string cache.  For a text `k` that is
not empty and is either no key of the cache or a key with a reference count from
1 to 2^32 - 1, `qof_string_cache_insert (k)` followed by
`qof_string_cache_remove (k)` leaves the keys of the cache and every reference
count as they were.  For `1 ≤ n < 2^32`, `n` successive inserts of a `k` that is
no key give `k` the reference count `n`; after fewer than `n` removes `k` is
still a key, with the count reduced by the number of removes, and the `n`-th
remove takes `k` out and leaves the cache as it was before the inserts.  Inserts
and removes of the empty text, or of NULL, never change the cache; the insert
returns the empty text, or NULL. -/
theorem string_cache_reference_counting :
    (∀ (c : Option GHashTable) (k : String), k ≠ "" →
      (∀ r, cache_entries c k = some r → 1 ≤ r ∧ r < GUINT_RANGE) →
      cache_entries (qof_string_cache_remove (qof_string_cache_insert c (some k)).1 (some k))
        = cache_entries c)
    ∧ (∀ (c : Option GHashTable) (k : String) (n : Nat), k ≠ "" →
      cache_entries c k = none → 1 ≤ n → n < GUINT_RANGE →
      cache_entries (insert_times k n c) k = some n
      ∧ (∀ j, j < n →
          cache_entries (remove_times k j (insert_times k n c)) k = some (n - j))
      ∧ cache_entries (remove_times k n (insert_times k n c)) = cache_entries c)
    ∧ (∀ c : Option GHashTable,
        qof_string_cache_insert c (some "") = (c, some "")
        ∧ qof_string_cache_remove c (some "") = c
        ∧ qof_string_cache_insert c none = (c, none)
        ∧ qof_string_cache_remove c none = c) := by
  refine ⟨?_, ?_, ?_⟩
  · intro c k hk hr
    exact insert_remove_entries c k hk hr
  · intro c k n hk hc h1 hlt
    have hn : cache_entries (insert_times k n c) k = some n := by
      rw [insert_times_absent k hk n h1 c hc, Nat.mod_eq_of_lt hlt]
    refine ⟨hn, ?_, ?_⟩
    · intro j hj
      rw [remove_times_key k hk j _ n hn h1 hlt (by omega), if_pos hj]
    · funext x
      by_cases hx : x = k
      · subst hx
        rw [remove_times_key x hk n _ n hn h1 hlt (le_refl n), if_neg (by omega), hc]
      · rw [remove_times_other k hk x hx, insert_times_other k hk x hx]
  · intro c
    exact ⟨rfl, rfl, rfl, rfl⟩

/-- C30, witness: an insert and a remove of "a" in a cache that holds "a" with the
count 2; three inserts of "b" into a new cache, followed by two and by three
removes. -/
theorem string_cache_reference_counting_witness :
    cache_entries (qof_string_cache_remove
        (qof_string_cache_insert (some (g_hash_table_insert g_hash_table_new_full "a" 2))
          (some "a")).1 (some "a"))
      = cache_entries (some (g_hash_table_insert g_hash_table_new_full "a" 2))
    ∧ (cache_entries (insert_times "b" 3 none) "b" = some 3
      ∧ cache_entries (remove_times "b" 2 (insert_times "b" 3 none)) "b" = some (3 - 2)
      ∧ cache_entries (remove_times "b" 3 (insert_times "b" 3 none)) = cache_entries none) :=
  ⟨string_cache_reference_counting.1 (some (g_hash_table_insert g_hash_table_new_full "a" 2)) "a"
      (by decide)
      (fun r hr => by
        have h2 : r = 2 := by
          simpa [cache_entries, g_hash_table_insert] using hr.symm
        subst h2
        decide),
    (string_cache_reference_counting.2.1 none "b" 3 (by decide) rfl (by decide) (by decide)).1,
    (string_cache_reference_counting.2.1 none "b" 3 (by decide) rfl (by decide) (by decide)).2.1
      2 (by decide),
    (string_cache_reference_counting.2.1 none "b" 3 (by decide) rfl (by decide) (by decide)).2.2⟩

/-- C30, counterexample. In a new cache, 2^32 successive inserts of "a" leave "a"
with the reference count 0, not 2^32; and in the cache so reached, an insert of
"a" followed by a remove of "a" takes the key "a" out of the cache, which held
it before. -/
theorem string_cache_count_wraps :
    cache_entries (insert_times "a" 4294967296 none) "a" = some 0
    ∧ cache_entries (qof_string_cache_remove
        (qof_string_cache_insert (insert_times "a" 4294967296 none) (some "a")).1 (some "a")) "a"
      = none := by
  have hk : ("a" : String) ≠ "" := by decide
  have h0 : cache_entries (insert_times "a" 4294967296 none) "a" = some 0 := by
    rw [insert_times_absent "a" hk 4294967296 (by omega) none rfl]
    rfl
  refine ⟨h0, ?_⟩
  rw [cache_entries_remove _ "a" hk, cache_entries_insert _ "a" hk, h0]
  simp [g_hash_table_insert, g_hash_table_remove, GUINT_RANGE]

theorem three_levels_eraseIdx (real : GtkTreeStore) (i : Nat) (h : three_levels real) :
    three_levels (real.eraseIdx i) := by
  intro p cs hp hc
  match p, hp with
  | [a, b, c], _ =>
    have key : ∃ a2 : Nat, (real.eraseIdx i)[a]? = real[a2]? := by
      rw [List.getElem?_eraseIdx]
      by_cases hlt : a < i
      · exact ⟨a, by simp [hlt]⟩
      · exact ⟨a + 1, by simp [hlt]⟩
    obtain ⟨a2, ha2⟩ := key
    apply h [a2, b, c] cs rfl
    simp only [childrenAt] at hc ⊢
    rw [← ha2]
    exact hc

theorem removing_three_levels (E : Env) (model : GncSxSlrTreeModelAdapter)
    (to_remove_sx : SchedXaction) (h : three_levels model.real) :
    three_levels (gsslrtma_removing_cb E model to_remove_sx).real := by
  unfold gsslrtma_removing_cb
  cases removing_index model.instances to_remove_sx 0 with
  | none => exact h
  | some index =>
    simp only []
    cases hn : gtk_tree_model_iter_nth_child model.real [] (index : Int) with
    | none => exact h
    | some tree_iter =>
      simp only []
      have hp : tree_iter.parent = [] := by
        unfold gtk_tree_model_iter_nth_child at hn
        simp only [childrenAt] at hn
        split at hn
        · cases hn; rfl
        · cases hn
      have hfst : (gtk_tree_store_remove model.real tree_iter).1
          = model.real.eraseIdx tree_iter.index := by
        simp only [gtk_tree_store_remove, hp, updateChildrenAt, childrenAt]
        split <;> rfl
      rw [hfst]
      exact three_levels_eraseIdx _ _ h

theorem adapter_new_three_levels (E : Env) (instances : GncSxInstanceModel) :
    three_levels (gnc_sx_slr_tree_model_adapter_new E instances).real := by
  unfold gnc_sx_slr_tree_model_adapter_new
  exact populate_three_levels E instances [] three_levels_nil

theorem updated_three_levels (E : Env) (model : GncSxSlrTreeModelAdapter)
    (updated_sx : SchedXaction) (h : three_levels model.real) :
    three_levels (gsslrtma_updated_cb E model updated_sx).real := by
  unfold gsslrtma_updated_cb
  exact populate_three_levels E _ _ h

/-- C3, the failing input.  The collection has the group "A" without instances
followed by the group "B", whose one instance is in state Reminder and has the
editable variable "x" without a value.  After the refresh the row at path
[0, 0, 0] is the row of "x".  The input "5" parses to a valid number, but for
that row `gnc_sx_slr_model_get_instance_and_variable` returns FALSE, so
`variable_value_changed_cb` returns with the collection as it was: the instance
is still in state Reminder and "x" still has no value. -/
theorem variable_edit_after_empty_group :
    (rowAt (gnc_ui_sx_since_last_run_dialog sample_env sample_two_groups []).editing_model.real
        ⟨[0, 0], 0⟩).map (fun r => r.cols.name) = some (some "x")
    ∧ valid_amount sample_env "5" = some (gnc_numeric.number 5)
    ∧ gnc_sx_slr_model_get_instance_and_variable
        (gnc_ui_sx_since_last_run_dialog sample_env sample_two_groups []).editing_model
        ⟨[0, 0], 0⟩ 0 = Outcome.ret none
    ∧ (variable_value_changed_cb sample_env [0, 0, 0] "5" 0
        (gnc_ui_sx_since_last_run_dialog sample_env sample_two_groups [])).returned.map
          (fun d => d.editing_model.instances) = some sample_two_groups
    ∧ (GncSxInstancePtr.deref sample_two_groups ⟨1, 0⟩).map (fun i => i.state)
        = some SX_INSTANCE_STATE_REMINDER := by
  decide

/-- C14, the failing input.  The collection has the group "A" without instances
followed by the group "B", whose one instance is in state Reminder.  After the
refresh the row at path [0, 0] is the row of that instance.  The text
"Postponed" is the display name of Postponed, but for that row
`gnc_sx_slr_model_get_instance` returns NULL, so `instance_state_changed_cb`
returns with the collection as it was: the instance is still in state
Reminder. -/
theorem status_edit_after_empty_group :
    (rowAt (gnc_ui_sx_since_last_run_dialog sample_env sample_two_groups []).editing_model.real
        ⟨[0], 0⟩).map (fun r => r.cols.instance_state) = some (some "Reminder")
    ∧ display_name sample_env SX_INSTANCE_STATE_POSTPONED = "Postponed"
    ∧ gnc_sx_slr_model_get_instance
        (gnc_ui_sx_since_last_run_dialog sample_env sample_two_groups []).editing_model
        ⟨[0], 0⟩ = Outcome.ret none
    ∧ (instance_state_changed_cb sample_env [0, 0] "Postponed"
        (gnc_ui_sx_since_last_run_dialog sample_env sample_two_groups [])).returned.map
          (fun d => d.editing_model.instances) = some sample_two_groups
    ∧ (GncSxInstancePtr.deref sample_two_groups ⟨1, 0⟩).map (fun i => i.state)
        = some SX_INSTANCE_STATE_REMINDER := by
  decide

/-- C17, the failing input.  The collection has the group "E" without instances
followed by the group "B", whose one instance has the editable variable "e" with
the value 7 (and by a third group).  After the refresh the row at path
[0, 0, 0] is the row of "e".  The input " " is white space only and does not
parse, but for that row `gnc_sx_slr_model_get_instance_and_variable` returns
FALSE, so `variable_value_changed_cb` returns with the collection as it was:
"e" still has the value 7. -/
theorem empty_input_after_empty_group :
    (rowAt (gnc_ui_sx_since_last_run_dialog sample_env sample_three_groups []).editing_model.real
        ⟨[0, 0], 0⟩).map (fun r => r.cols.name) = some (some "e")
    ∧ strip_is_empty " " = true
    ∧ valid_amount sample_env " " = none
    ∧ gnc_sx_slr_model_get_instance_and_variable
        (gnc_ui_sx_since_last_run_dialog sample_env sample_three_groups []).editing_model
        ⟨[0, 0], 0⟩ 0 = Outcome.ret none
    ∧ (variable_value_changed_cb sample_env [0, 0, 0] " " 0
        (gnc_ui_sx_since_last_run_dialog sample_env sample_three_groups [])).returned.map
          (fun d => d.editing_model.instances) = some sample_three_groups
    ∧ ((GncSxInstancePtr.deref sample_three_groups ⟨1, 0⟩).bind
        (fun i => i.variable_bindings[1]?)).map (fun v => (v.name, v.value))
        = some ("e", gnc_numeric.number 7) := by
  decide

end SxSinceLastRun
